import Mathlib

/-!
# Lloyd's k-means (`kmeans.c`): a shallow embedding of the clustering engine

The engine of `kmeans.c` (`calculateDistance`, `initializeCentroids`,
`assignPointsToClusters`, `updateCentroids`, `kMeans`) is embedded as executable functions.

Modelling conventions.

* `double` arithmetic is read as exact arithmetic in a linearly ordered field `F`
  (any such field: the rationals for evaluation, the reals for `sqrt`).
  The library function `sqrt` of `math.h` is not part of the program and is a
  parameter `sqrt : F → F` of every function that calls it; `DBL_MAX` of
  `float.h` is the largest finite IEEE-754 double `(2^53 - 1) * 2^971`.
* Where the rounding of `double` matters (which centroid is nearest, whether distinct
  points are at a positive distance), the assignment pass and the seeding are embedded a
  second time, in the namespace `Machine`, over an arithmetic given as a parameter
  (`Arith`); IEEE-754 binary64 (`binary64`) and exact arithmetic (`exactArith`) are the
  two instances used, and on `exactArith` the two embeddings agree
  (`machine_assignPointsToClusters_exact`).
* A C array together with its element count is a list: `numPoints` is the
  length of `points`, `k` the length of `centroids`, and a `values` buffer is a
  list whose length is the number of allocated slots.  The `int` fields
  `dimensions`, `cluster`, `count` are integers; the counters `changes`, `count` and
  `iterations` are bounded by `numPoints` and `maxIterations`, so no `int` overflows.
* Every array access is checked: a read or write outside the list is
  undefined behaviour in C and makes the function return `none`.
* A counted loop `for (i = 0; i < n; i++) body` over a loop state is `forLoop`:
  the state after `n + 1` rounds is the body, at index `n`, applied to the state
  after `n` rounds.
* `printf` output of `kMeans` is kept as data: the list of the `changes` values
  printed by the `Iteration` lines and the final `iterations` count.  The closing
  report of the clusters only reads the arrays and is left out.
-/

set_option linter.unusedSectionVars false

namespace KMeans

/-- A data point: `values` buffer, `dimensions`, assigned `cluster`. -/
structure Point (F : Type) where
  values : List F
  dimensions : Int
  cluster : Int

/-- A centroid: `values` buffer, `dimensions`, number `count` of points in the cluster. -/
structure Centroid (F : Type) where
  values : List F
  dimensions : Int
  count : Int

/-- The state after `n` rounds of `for (i = 0; i < n; i++) body`, starting from `init`;
`none` as soon as one round fails. -/
def forLoop {σ : Type} (body : Nat → σ → Option σ) (init : σ) : Nat → Option σ
  | 0 => some init
  | n + 1 =>
    match forLoop body init n with
    | none => none
    | some s => body n s

section Engine

variable {F : Type} [LinearOrderedField F]

/-- The constant `DBL_MAX` of `float.h`: the largest finite double. -/
def DBL_MAX : F := (2 ^ 53 - 1) * 2 ^ 971

/-- One round of the loop of `calculateDistance`:
`diff = point.values[i] - centroid.values[i]; sum += diff * diff`. -/
def calculateDistanceBody (point : Point F) (centroid : Centroid F) (i : Nat) (sum : F) :
    Option F :=
  match point.values[i]?, centroid.values[i]? with
  | some a, some b =>
    let diff := a - b
    some (sum + diff * diff)
  | _, _ => none

/-- Source `calculateDistance`: Euclidean distance between a point and a centroid,
over the first `point.dimensions` coordinates. -/
def calculateDistance (sqrt : F → F) (point : Point F) (centroid : Centroid F) : Option F :=
  match forLoop (calculateDistanceBody point centroid) 0 point.dimensions.toNat with
  | none => none
  | some sum => some (sqrt sum)

/-- The inner loop of `assignPointsToClusters` over the centroids still to be scanned,
`j` the index of the first of them: the pair `(minDistance, nearestCluster)` is
replaced on a strictly smaller distance only. -/
def nearestLoop (sqrt : F → F) (point : Point F) :
    List (Centroid F) → Nat → F × Int → Option (F × Int)
  | [], _, best => some best
  | c :: cs, j, (minDistance, nearestCluster) =>
    match calculateDistance sqrt point c with
    | none => none
    | some distance =>
      if distance < minDistance then nearestLoop sqrt point cs (j + 1) (distance, (j : Int))
      else nearestLoop sqrt point cs (j + 1) (minDistance, nearestCluster)

/-- The nearest cluster of one point: the inner loop started at
`minDistance = DBL_MAX`, `nearestCluster = 0`. -/
def nearestCluster (sqrt : F → F) (centroids : List (Centroid F)) (point : Point F) :
    Option Int :=
  match nearestLoop sqrt point centroids 0 (DBL_MAX, 0) with
  | none => none
  | some (_, nearest) => some nearest

/-- The outer loop of `assignPointsToClusters` over the points still to be visited;
`changes` counts the points relabelled so far. -/
def assignLoop (sqrt : F → F) (centroids : List (Centroid F)) :
    List (Point F) → Nat → Option (List (Point F) × Nat)
  | [], changes => some ([], changes)
  | p :: ps, changes =>
    match nearestCluster sqrt centroids p with
    | none => none
    | some nearest =>
      if p.cluster ≠ nearest then
        match assignLoop sqrt centroids ps (changes + 1) with
        | none => none
        | some (ps', n) => some ({ p with cluster := nearest } :: ps', n)
      else
        match assignLoop sqrt centroids ps changes with
        | none => none
        | some (ps', n) => some (p :: ps', n)

/-- Source `assignPointsToClusters`: the relabelled points and the returned
number of changes. -/
def assignPointsToClusters (sqrt : F → F) (points : List (Point F))
    (centroids : List (Centroid F)) : Option (List (Point F) × Nat) :=
  assignLoop sqrt centroids points 0

/-- A write `values[j] = f (values[j])` into a buffer. -/
def updateAt (f : F → F) (j : Nat) (values : List F) : Option (List F) :=
  match values[j]? with
  | none => none
  | some v => some (values.set j (f v))

/-- First loop of `updateCentroids`, for one centroid:
`values[j] = 0.0` for `j < dimensions`, then `count = 0`. -/
def resetCentroid (c : Centroid F) : Option (Centroid F) :=
  match forLoop (updateAt (fun _ => 0)) c.values c.dimensions.toNat with
  | none => none
  | some values => some { values := values, dimensions := c.dimensions, count := 0 }

/-- First loop of `updateCentroids` over all centroids. -/
def resetCentroids : List (Centroid F) → Option (List (Centroid F))
  | [] => some []
  | c :: cs =>
    match resetCentroid c, resetCentroids cs with
    | some c', some cs' => some (c' :: cs')
    | _, _ => none

/-- One round of the inner loop of the second loop of `updateCentroids`:
`centroids[cluster].values[j] += points[i].values[j]`. -/
def addPointBody (p : Point F) (j : Nat) (values : List F) : Option (List F) :=
  match p.values[j]? with
  | none => none
  | some x => updateAt (fun v => v + x) j values

/-- Body of the second loop of `updateCentroids` on the addressed centroid:
`count++`, then the point's values are added coordinate by coordinate. -/
def addPoint (p : Point F) (c : Centroid F) : Option (Centroid F) :=
  match forLoop (addPointBody p) c.values p.dimensions.toNat with
  | none => none
  | some values => some { values := values, dimensions := c.dimensions, count := c.count + 1 }

/-- Second loop of `updateCentroids` over the points still to be visited:
the centroid `centroids[points[i].cluster]` is read, updated and written back. -/
def sumLoop : List (Point F) → List (Centroid F) → Option (List (Centroid F))
  | [], centroids => some centroids
  | p :: ps, centroids =>
    if 0 ≤ p.cluster then
      match centroids[p.cluster.toNat]? with
      | none => none
      | some c =>
        match addPoint p c with
        | none => none
        | some c' => sumLoop ps (centroids.set p.cluster.toNat c')
    else none

/-- Third loop of `updateCentroids`, for one centroid:
if `count > 0`, `values[j] /= count` for `j < dimensions`. -/
def averageCentroid (c : Centroid F) : Option (Centroid F) :=
  if 0 < c.count then
    match forLoop (updateAt (fun v => v / (c.count : F))) c.values c.dimensions.toNat with
    | none => none
    | some values => some { values := values, dimensions := c.dimensions, count := c.count }
  else some c

/-- Third loop of `updateCentroids` over all centroids. -/
def averageCentroids : List (Centroid F) → Option (List (Centroid F))
  | [] => some []
  | c :: cs =>
    match averageCentroid c, averageCentroids cs with
    | some c', some cs' => some (c' :: cs')
    | _, _ => none

/-- Source `updateCentroids`: reset, sum, average. -/
def updateCentroids (points : List (Point F)) (centroids : List (Centroid F)) :
    Option (List (Centroid F)) :=
  match resetCentroids centroids with
  | none => none
  | some zeroed =>
    match sumLoop points zeroed with
    | none => none
    | some summed => averageCentroids summed

/-- One round of the copy loop of `initializeCentroids`:
`centroids[i].values[j] = points[idx].values[j]`. -/
def copyBody (p : Point F) (j : Nat) (values : List F) : Option (List F) :=
  match p.values[j]? with
  | none => none
  | some x => updateAt (fun _ => x) j values

/-- One round of the loop of `initializeCentroids`: centroid `i` becomes a copy of the point
at index `(i * step) % numPoints`, with count 0.  The centroid array arrives uninitialised
and round `i` writes all of slot `i`, which is modelled by appending; the buffer from
`malloc` has `dimensions` slots (zeros before the copy loop overwrites them). -/
def initializeCentroidsBody (points : List (Point F)) (step : Int) (i : Nat)
    (centroids : List (Centroid F)) : Option (List (Centroid F)) :=
  if points.length = 0 then none
  else
    let idx := Int.tmod ((i : Int) * step) (points.length : Int)
    if idx < 0 then none
    else
      match points[idx.toNat]? with
      | none => none
      | some p =>
        match forLoop (copyBody p) (List.replicate p.dimensions.toNat 0) p.dimensions.toNat with
        | none => none
        | some values =>
          some (centroids ++ [{ values := values, dimensions := p.dimensions, count := 0 }])

/-- Source `initializeCentroids`: `step = numPoints / k`, replaced by 1 when it is 0, then
`k` rounds of the loop; a division by zero (`k = 0`, or no point) is undefined and gives
`none`. -/
def initializeCentroids (points : List (Point F)) (k : Int) : Option (List (Centroid F)) :=
  if k = 0 then none
  else
    let step := Int.tdiv (points.length : Int) k
    forLoop (initializeCentroidsBody points (if step = 0 then 1 else step)) [] k.toNat

/-- What a run of `kMeans` leaves behind: the arrays, the `iterations` counter and
the `changes` value printed by each `Iteration` line, in order. -/
structure Run (F : Type) where
  points : List (Point F)
  centroids : List (Centroid F)
  iterations : Int
  log : List Nat

/-- The body of the `do`-`while` loop of `kMeans`: one assignment pass followed
by one centroid update; returns the arrays and `changes`. -/
def kMeansIteration (sqrt : F → F) (points : List (Point F)) (centroids : List (Centroid F)) :
    Option (List (Point F) × List (Centroid F) × Nat) :=
  match assignPointsToClusters sqrt points centroids with
  | none => none
  | some (points', changes) =>
    match updateCentroids points' centroids with
    | none => none
    | some centroids' => some (points', centroids', changes)

/-- The `do`-`while` loop of `kMeans`, entered with the current arrays, the
`iterations` counter and the lines printed so far. -/
def kMeansLoop (sqrt : F → F) (maxIterations : Int) (points : List (Point F))
    (centroids : List (Centroid F)) (iterations : Int) (log : List Nat) : Option (Run F) :=
  match kMeansIteration sqrt points centroids with
  | none => none
  | some (points', centroids', changes) =>
    if changes > 0 ∧ iterations + 1 < maxIterations then
      kMeansLoop sqrt maxIterations points' centroids' (iterations + 1) (log ++ [changes])
    else
      some { points := points', centroids := centroids', iterations := iterations + 1,
             log := log ++ [changes] }
termination_by (maxIterations - iterations).toNat
decreasing_by omega

/-- Source `kMeans`: the loop entered with `iterations = 0`. -/
def kMeans (sqrt : F → F) (points : List (Point F)) (centroids : List (Centroid F))
    (maxIterations : Int) : Option (Run F) :=
  kMeansLoop sqrt maxIterations points centroids 0 []

end Engine

/-! ## Definitions used to state and prove the properties -/

/-- The buffer in which the first `n` slots of `values` have been rewritten by `g`. -/
def rewritten {α : Type} (g : Nat → α → α) (n : Nat) (values : List α) : List α :=
  List.zipWith (fun j v => if j < n then g j v else v) (List.range values.length) values

section Shapes

variable {F : Type} [LinearOrderedField F]

/-- A point of dimension `D`: its buffer has `D` slots and its `dimensions` field is `D`. -/
def Point.HasDim (D : Nat) (p : Point F) : Prop :=
  p.values.length = D ∧ p.dimensions = (D : Int)

/-- A centroid of dimension `D`: its buffer has `D` slots and its `dimensions` field is `D`. -/
def Centroid.HasDim (D : Nat) (c : Centroid F) : Prop :=
  c.values.length = D ∧ c.dimensions = (D : Int)

instance (D : Nat) (p : Point F) : Decidable (p.HasDim D) := by
  unfold Point.HasDim
  infer_instance

instance (D : Nat) (c : Centroid F) : Decidable (c.HasDim D) := by
  unfold Centroid.HasDim
  infer_instance

/-- The number of points whose `cluster` equals `i`. -/
def clusterSize (points : List (Point F)) (i : Nat) : Nat :=
  points.countP (fun p => decide (p.cluster = (i : Int)))

/-- The sum of `values[j]` over the points whose `cluster` equals `i`. -/
def clusterSum (points : List (Point F)) (i j : Nat) : F :=
  ((points.filter (fun p => decide (p.cluster = (i : Int)))).map (fun p => p.values.getD j 0)).sum

/-- The centroid array after the second loop of `updateCentroids`, in closed form:
centroid `i` has gained the coordinate sums and the number of the points labelled `i`. -/
def accumulated (D : Nat) (points : List (Point F)) (centroids : List (Centroid F)) :
    List (Centroid F) :=
  List.zipWith
    (fun i c =>
      { values := rewritten (fun j v => v + clusterSum points i j) D c.values,
        dimensions := c.dimensions,
        count := c.count + (clusterSize points i : Int) })
    (List.range centroids.length) centroids

/-- The centroid `updateCentroids` computes for cluster `i` from points of dimension `D`:
the coordinate-wise mean of the points labelled `i`, or all zeros when there is none. -/
def meanCentroid (D : Nat) (points : List (Point F)) (i : Nat) : Centroid F :=
  { values := (List.range D).map (fun j =>
      if 0 < clusterSize points i then clusterSum points i j / (clusterSize points i : F) else 0),
    dimensions := (D : Int),
    count := (clusterSize points i : Int) }

/-- The point as the assignment pass leaves it: relabelled with its nearest cluster
(kept as it is where the scan of the centroids fails). -/
def relabel (sqrt : F → F) (centroids : List (Centroid F)) (p : Point F) : Point F :=
  match nearestCluster sqrt centroids p with
  | none => p
  | some nearest => { p with cluster := nearest }

/-- The number of points the assignment pass relabels with a different cluster. -/
def relabelled (sqrt : F → F) (centroids : List (Centroid F)) (points : List (Point F)) : Nat :=
  points.countP (fun p => decide (p.cluster ≠ (relabel sqrt centroids p).cluster))

/-- The well-formed inputs of the engine: points and centroids all of dimension `D`, and at
least one centroid as soon as there is a point. -/
def SameDim (D : Nat) (points : List (Point F)) (centroids : List (Centroid F)) : Prop :=
  (∀ p ∈ points, p.HasDim D) ∧ (∀ c ∈ centroids, c.HasDim D) ∧
    (points ≠ [] → 1 ≤ centroids.length)

/-- Every label is the index of one of `k` centroids. -/
def LabelsInRange (k : Nat) (points : List (Point F)) : Prop :=
  ∀ p ∈ points, 0 ≤ p.cluster ∧ p.cluster < (k : Int)

instance (D : Nat) (points : List (Point F)) (centroids : List (Centroid F)) :
    Decidable (SameDim D points centroids) :=
  decidable_of_iff
    ((∀ p ∈ points, p.HasDim D) ∧ (∀ c ∈ centroids, c.HasDim D) ∧
      (points.length ≠ 0 → 1 ≤ centroids.length))
    (by
      unfold SameDim
      rw [Ne, List.length_eq_zero])

/-- The index of the point `initializeCentroids` copies into centroid `i`, for `numPoints`
points and `k` centroids: `(i * step) % numPoints` with `step = numPoints / k`, replaced by
1 when that is 0. -/
def seedIndex (numPoints k i : Nat) : Nat :=
  (i * (if numPoints / k = 0 then 1 else numPoints / k)) % numPoints

/-- The centroid `initializeCentroids` makes of a point: a copy of its values and its
dimension, with count 0. -/
def seedOf (p : Point F) : Centroid F :=
  { values := p.values, dimensions := p.dimensions, count := 0 }

instance (k : Nat) (points : List (Point F)) : Decidable (LabelsInRange k points) := by
  unfold LabelsInRange
  infer_instance

end Shapes

/-! ## The nearest-centroid scan over the arithmetic of `double`

The assignment pass and the seeding are embedded a second time, with the arithmetic of the
type `double` as a parameter: the operations and comparisons the code applies are the fields
of an `Arith`.  The exact arithmetic of an ordered field is one instance (`exactArith`), IEEE-754
binary64 arithmetic, with rounding to nearest-even, overflow to an infinity, gradual
underflow and NaN, is another (`binary64`).  Statements proved for every `Arith` hold for the
program whatever the rounding does. -/

/-- The operations of the type `double` the engine uses: the constants `0.0` and `DBL_MAX`,
`+`, `-`, `*`, the library function `sqrt`, and the comparisons `<` and `<=`. -/
structure Arith (V : Type) where
  zero : V
  dblMax : V
  add : V → V → V
  sub : V → V → V
  mul : V → V → V
  sqrt : V → V
  lt : V → V → Bool
  le : V → V → Bool

/-- Laws of the comparisons `<` and `<=` of IEEE-754 which hold for all values, NaN
included (a comparison with a NaN is false, and `x <= x` is true exactly when `x` is not a
NaN): `<` implies `<=`, both are transitive, `a < b` excludes `b <= a`, two values which are
not NaN are comparable, and `DBL_MAX` is not a NaN. -/
structure Arith.Ordered {V : Type} (A : Arith V) : Prop where
  le_of_lt : ∀ a b : V, A.lt a b = true → A.le a b = true
  le_trans : ∀ a b c : V, A.le a b = true → A.le b c = true → A.le a c = true
  lt_of_lt_of_le : ∀ a b c : V, A.lt a b = true → A.le b c = true → A.lt a c = true
  not_le_of_lt : ∀ a b : V, A.lt a b = true → A.le b a = false
  le_of_not_lt : ∀ a b : V, A.le a a = true → A.le b b = true → A.lt a b = false →
    A.le b a = true
  dblMax_le : A.le A.dblMax A.dblMax = true

namespace Machine

variable {V : Type}

/-- One round of the loop of `calculateDistance`:
`diff = point.values[i] - centroid.values[i]; sum += diff * diff`. -/
def calculateDistanceBody (A : Arith V) (point : Point V) (centroid : Centroid V) (i : Nat)
    (sum : V) : Option V :=
  match point.values[i]?, centroid.values[i]? with
  | some a, some b =>
    let diff := A.sub a b
    some (A.add sum (A.mul diff diff))
  | _, _ => none

/-- Source `calculateDistance`: `sum` starts at `0.0`, the loop runs over the first
`point.dimensions` coordinates, the result is `sqrt(sum)`. -/
def calculateDistance (A : Arith V) (point : Point V) (centroid : Centroid V) : Option V :=
  match forLoop (calculateDistanceBody A point centroid) A.zero point.dimensions.toNat with
  | none => none
  | some sum => some (A.sqrt sum)

/-- The inner loop of `assignPointsToClusters` over the centroids still to be scanned,
`j` the index of the first of them: the pair `(minDistance, nearestCluster)` is
replaced when `distance < minDistance` only. -/
def nearestLoop (A : Arith V) (point : Point V) :
    List (Centroid V) → Nat → V × Int → Option (V × Int)
  | [], _, best => some best
  | c :: cs, j, (minDistance, nearestCluster) =>
    match calculateDistance A point c with
    | none => none
    | some distance =>
      if A.lt distance minDistance = true then
        nearestLoop A point cs (j + 1) (distance, (j : Int))
      else nearestLoop A point cs (j + 1) (minDistance, nearestCluster)

/-- The nearest cluster of one point: the inner loop started at
`minDistance = DBL_MAX`, `nearestCluster = 0`. -/
def nearestCluster (A : Arith V) (centroids : List (Centroid V)) (point : Point V) :
    Option Int :=
  match nearestLoop A point centroids 0 (A.dblMax, 0) with
  | none => none
  | some (_, nearest) => some nearest

/-- The outer loop of `assignPointsToClusters` over the points still to be visited;
`changes` counts the points relabelled so far. -/
def assignLoop (A : Arith V) (centroids : List (Centroid V)) :
    List (Point V) → Nat → Option (List (Point V) × Nat)
  | [], changes => some ([], changes)
  | p :: ps, changes =>
    match nearestCluster A centroids p with
    | none => none
    | some nearest =>
      if p.cluster ≠ nearest then
        match assignLoop A centroids ps (changes + 1) with
        | none => none
        | some (ps', n) => some ({ p with cluster := nearest } :: ps', n)
      else
        match assignLoop A centroids ps changes with
        | none => none
        | some (ps', n) => some (p :: ps', n)

/-- Source `assignPointsToClusters`: the relabelled points and the returned
number of changes. -/
def assignPointsToClusters (A : Arith V) (points : List (Point V))
    (centroids : List (Centroid V)) : Option (List (Point V) × Nat) :=
  assignLoop A centroids points 0

/-- One round of the copy loop of `initializeCentroids`:
`centroids[i].values[j] = points[idx].values[j]`. -/
def copyBody (p : Point V) (j : Nat) (values : List V) : Option (List V) :=
  match p.values[j]?, values[j]? with
  | some x, some _ => some (values.set j x)
  | _, _ => none

/-- One round of the loop of `initializeCentroids`: centroid `i` becomes a copy of the point
at index `(i * step) % numPoints`, with count 0; round `i` writes all of slot `i` of the
centroid array, which is modelled by appending, and the buffer from `malloc` has
`dimensions` slots, all overwritten by the copy loop. -/
def initializeCentroidsBody (A : Arith V) (points : List (Point V)) (step : Int) (i : Nat)
    (centroids : List (Centroid V)) : Option (List (Centroid V)) :=
  if points.length = 0 then none
  else
    let idx := Int.tmod ((i : Int) * step) (points.length : Int)
    if idx < 0 then none
    else
      match points[idx.toNat]? with
      | none => none
      | some p =>
        match forLoop (copyBody p) (List.replicate p.dimensions.toNat A.zero)
            p.dimensions.toNat with
        | none => none
        | some values =>
          some (centroids ++ [{ values := values, dimensions := p.dimensions, count := 0 }])

/-- Source `initializeCentroids`: `step = numPoints / k`, replaced by 1 when it is 0, then
`k` rounds of the loop; a division by zero (`k = 0`, or no point) is undefined and gives
`none`. -/
def initializeCentroids (A : Arith V) (points : List (Point V)) (k : Int) :
    Option (List (Centroid V)) :=
  if k = 0 then none
  else
    let step := Int.tdiv (points.length : Int) k
    forLoop (initializeCentroidsBody A points (if step = 0 then 1 else step)) [] k.toNat

end Machine

/-- Exact arithmetic in an ordered field, with a given square-root function: the reading of
`double` of the engine above. -/
def exactArith {F : Type} [LinearOrderedField F] (sqrt : F → F) : Arith F where
  zero := 0
  dblMax := DBL_MAX
  add := fun a b => a + b
  sub := fun a b => a - b
  mul := fun a b => a * b
  sqrt := sqrt
  lt := fun a b => decide (a < b)
  le := fun a b => decide (a ≤ b)

/-! ### IEEE-754 binary64

A `double` is a finite number, an infinity or a NaN.  The finite values are the rationals
`m * 2 ^ e` with `|m| < 2 ^ 53` and `-1074 ≤ e ≤ 971`; the two zeros are identified (they
compare equal, and the engine never divides by a distance).  Every operation returns the
exact result rounded to the nearest double, ties to the even significand, as the default
rounding mode of C does when `double` expressions are evaluated in `double`. -/

/-- A value of type `double`. -/
inductive Double where
  | finite (q : ℚ)
  | posInf
  | negInf
  | nan

/-- Rounding of a rational to the nearest integer, ties to the even one. -/
def roundHalfEven (x : ℚ) : Int :=
  if x - ⌊x⌋ < 1 / 2 then ⌊x⌋
  else if 1 / 2 < x - ⌊x⌋ then ⌊x⌋ + 1
  else if ⌊x⌋ % 2 = 0 then ⌊x⌋
  else ⌊x⌋ + 1

/-- Rounding of an exact result to `double`: the spacing of the doubles around `q` is
`2 ^ (e - 52)`, where `e` is the exponent of `q` and at least `-1022` (subnormal range);
`q` is rounded to the nearest multiple, ties to even, and a result of magnitude `2 ^ 1024`
or more is an infinity. -/
def roundDouble (q : ℚ) : Double :=
  if q = 0 then Double.finite 0
  else
    let spacing : ℚ := 2 ^ (max (Int.log 2 |q|) (-1022) - 52)
    let magnitude : ℚ := (roundHalfEven (|q| / spacing) : ℚ) * spacing
    if 2 ^ 1024 ≤ magnitude then (if q < 0 then Double.negInf else Double.posInf)
    else Double.finite (if q < 0 then -magnitude else magnitude)

/-- Addition of doubles. -/
def Double.add : Double → Double → Double
  | Double.finite a, Double.finite b => roundDouble (a + b)
  | Double.nan, _ => Double.nan
  | _, Double.nan => Double.nan
  | Double.posInf, Double.negInf => Double.nan
  | Double.negInf, Double.posInf => Double.nan
  | Double.posInf, _ => Double.posInf
  | _, Double.posInf => Double.posInf
  | Double.negInf, _ => Double.negInf
  | _, Double.negInf => Double.negInf

/-- Subtraction of doubles. -/
def Double.sub : Double → Double → Double
  | Double.finite a, Double.finite b => roundDouble (a - b)
  | Double.nan, _ => Double.nan
  | _, Double.nan => Double.nan
  | Double.posInf, Double.posInf => Double.nan
  | Double.negInf, Double.negInf => Double.nan
  | Double.posInf, _ => Double.posInf
  | _, Double.negInf => Double.posInf
  | Double.negInf, _ => Double.negInf
  | _, Double.posInf => Double.negInf

/-- The product of an infinity with a finite number `a`: NaN for zero, otherwise the
infinity of the sign of the product (`positive` is the sign of the infinity). -/
def Double.scaleInf (positive : Bool) (a : ℚ) : Double :=
  if a = 0 then Double.nan
  else if (decide (0 < a)) = positive then Double.posInf
  else Double.negInf

/-- Multiplication of doubles. -/
def Double.mul : Double → Double → Double
  | Double.finite a, Double.finite b => roundDouble (a * b)
  | Double.nan, _ => Double.nan
  | _, Double.nan => Double.nan
  | Double.finite a, Double.posInf => Double.scaleInf true a
  | Double.finite a, Double.negInf => Double.scaleInf false a
  | Double.posInf, Double.finite b => Double.scaleInf true b
  | Double.negInf, Double.finite b => Double.scaleInf false b
  | Double.posInf, Double.posInf => Double.posInf
  | Double.negInf, Double.negInf => Double.posInf
  | Double.posInf, Double.negInf => Double.negInf
  | Double.negInf, Double.posInf => Double.negInf

/-- The correctly rounded square root of a non-negative rational `q`: `q` is scaled by an
even power of two to an integer `n` of at least 111 bits, `m` is the integer square root of
`n`, and `m` (when `m * m = n`) or `m + 1/2` (otherwise) is scaled back and rounded; `m` has
at least 56 bits, so no rounding boundary of `double` lies strictly between `m` and
`m + 1`. -/
def roundSqrt (q : ℚ) : Double :=
  if q = 0 then Double.finite 0
  else
    let t : Int := 2 * ((111 - Int.log 2 q) / 2)
    let n : Nat := (⌊q * 2 ^ t⌋).toNat
    let m : Nat := Nat.sqrt n
    roundDouble (((2 * m + (if m * m = n then 0 else 1) : Nat) : ℚ) * 2 ^ (-(t / 2) - 1))

/-- The library function `sqrt` on doubles (correctly rounded, as IEEE-754 requires). -/
def Double.sqrt : Double → Double
  | Double.finite q => if q < 0 then Double.nan else roundSqrt q
  | Double.posInf => Double.posInf
  | Double.negInf => Double.nan
  | Double.nan => Double.nan

/-- The comparison `<` of doubles: false as soon as an operand is a NaN. -/
def Double.lt : Double → Double → Bool
  | Double.finite a, Double.finite b => decide (a < b)
  | Double.finite _, Double.posInf => true
  | Double.negInf, Double.finite _ => true
  | Double.negInf, Double.posInf => true
  | _, _ => false

/-- The comparison `<=` of doubles: false as soon as an operand is a NaN. -/
def Double.le : Double → Double → Bool
  | Double.finite a, Double.finite b => decide (a ≤ b)
  | Double.finite _, Double.posInf => true
  | Double.negInf, Double.finite _ => true
  | Double.negInf, Double.posInf => true
  | Double.posInf, Double.posInf => true
  | Double.negInf, Double.negInf => true
  | _, _ => false

/-- IEEE-754 binary64 arithmetic; `DBL_MAX` is `(2^53 - 1) * 2^971`. -/
def binary64 : Arith Double where
  zero := Double.finite 0
  dblMax := Double.finite ((2 ^ 53 - 1) * 2 ^ 971)
  add := Double.add
  sub := Double.sub
  mul := Double.mul
  sqrt := Double.sqrt
  lt := Double.lt
  le := Double.le

/-- A positive double whose square underflows: `2 ^ (-600)`. -/
def tiny : ℚ := 2 ^ (-600 : Int)

/-! ## Counted loops and buffers -/

theorem forLoop_succ {σ : Type} (body : Nat → σ → Option σ) (init : σ) (n : Nat) (s : σ)
    (h : forLoop body init n = some s) : forLoop body init (n + 1) = body n s := by
  simp [forLoop, h]

/-- Invariant rule for a counted loop: an invariant that holds at entry and is
carried by every round holds at exit, and the loop does not fail. -/
theorem forLoop_invariant {σ : Type} (body : Nat → σ → Option σ) (init : σ)
    (Inv : Nat → σ → Prop) (n : Nat) (h0 : Inv 0 init)
    (hstep : ∀ i s, i < n → Inv i s → ∃ s', body i s = some s' ∧ Inv (i + 1) s') :
    ∃ s, forLoop body init n = some s ∧ Inv n s := by
  induction n with
  | zero => exact ⟨init, rfl, h0⟩
  | succ m ih =>
    obtain ⟨s, hs, hinv⟩ := ih (fun i s hi => hstep i s (Nat.lt_succ_of_lt hi))
    obtain ⟨s', hs', hinv'⟩ := hstep m s (Nat.lt_succ_self m) hinv
    exact ⟨s', by rw [forLoop_succ body init m s hs, hs'], hinv'⟩

theorem rewritten_length {α : Type} (g : Nat → α → α) (n : Nat) (values : List α) :
    (rewritten g n values).length = values.length := by
  simp [rewritten]

theorem rewritten_getElem? {α : Type} (g : Nat → α → α) (n : Nat) (values : List α) (j : Nat) :
    (rewritten g n values)[j]? = (values[j]?).map (fun v => if j < n then g j v else v) := by
  unfold rewritten
  rw [List.getElem?_zipWith]
  by_cases hj : j < values.length
  · rw [List.getElem?_range hj, List.getElem?_eq_getElem hj]
    rfl
  · rw [List.getElem?_eq_none (Nat.le_of_not_lt hj)]
    cases h : (List.range values.length)[j]? <;> rfl

theorem rewritten_zero {α : Type} (g : Nat → α → α) (values : List α) :
    rewritten g 0 values = values := by
  apply List.ext_getElem?
  intro j
  rw [rewritten_getElem?]
  cases values[j]? <;> simp

section Buffers

variable {F : Type} [LinearOrderedField F]

theorem updateAt_of_getElem? (f : F → F) (j : Nat) (values : List F) (v : F)
    (h : values[j]? = some v) : updateAt f j values = some (values.set j (f v)) := by
  simp [updateAt, h]

/-- A loop whose round `j` rewrites slot `j` by `g j` rewrites the first `n` slots. -/
theorem forLoop_rewritten (body : Nat → List F → Option (List F)) (g : Nat → F → F)
    (values : List F) (n : Nat) (hn : n ≤ values.length)
    (hb : ∀ j s, j < n → s.length = values.length → body j s = updateAt (g j) j s) :
    forLoop body values n = some (rewritten g n values) := by
  induction n with
  | zero => simp [forLoop, rewritten_zero]
  | succ m ih =>
    have hm : m < values.length := hn
    have hprev := ih (Nat.le_of_lt hm) (fun j s hj hs => hb j s (Nat.lt_succ_of_lt hj) hs)
    rw [forLoop_succ _ _ _ _ hprev, hb m _ (Nat.lt_succ_self m) (rewritten_length g m values)]
    have hget : (rewritten g m values)[m]? = some values[m] := by
      rw [rewritten_getElem?, List.getElem?_eq_getElem hm]
      simp
    rw [updateAt_of_getElem? _ _ _ _ hget]
    congr 1
    apply List.ext_getElem?
    intro j
    rw [List.getElem?_set, rewritten_getElem?, rewritten_getElem?, rewritten_length]
    by_cases hjm : m = j
    · subst hjm
      simp [hm]
    · have h1 : (j < m + 1) = (j < m) := by
        apply propext
        constructor
        · intro h
          omega
        · intro h
          omega
      simp only [hjm, if_false, h1]

end Buffers

/-! ## The three loops of `updateCentroids` -/

section Update

variable {F : Type} [LinearOrderedField F]

theorem Centroid.ext_fields (c d : Centroid F) (hv : c.values = d.values)
    (hd : c.dimensions = d.dimensions) (hc : c.count = d.count) : c = d := by
  cases c
  cases d
  simp_all

theorem rewritten_const_zero (D : Nat) (values : List F) (h : values.length = D) :
    rewritten (fun _ _ => (0 : F)) D values = List.replicate D 0 := by
  apply List.ext_getElem?
  intro j
  rw [rewritten_getElem?, List.getElem?_replicate]
  by_cases hj : j < D
  · rw [List.getElem?_eq_getElem (h ▸ hj)]
    simp [hj]
  · rw [List.getElem?_eq_none (by omega)]
    simp [hj]

theorem resetCentroid_eq (D : Nat) (c : Centroid F) (h : c.HasDim D) :
    resetCentroid c = some { values := List.replicate D 0, dimensions := (D : Int), count := 0 } := by
  obtain ⟨hlen, hdim⟩ := h
  unfold resetCentroid
  have hloop := forLoop_rewritten (updateAt (fun _ => (0 : F))) (fun _ _ => 0) c.values D
    (le_of_eq hlen.symm) (fun j s _ _ => rfl)
  rw [hdim, Int.toNat_ofNat, hloop, rewritten_const_zero D c.values hlen]

theorem resetCentroids_eq (D : Nat) (centroids : List (Centroid F))
    (h : ∀ c ∈ centroids, c.HasDim D) :
    resetCentroids centroids =
      some (List.replicate centroids.length
        { values := List.replicate D 0, dimensions := (D : Int), count := 0 }) := by
  induction centroids with
  | nil => rfl
  | cons c cs ih =>
    have hc := resetCentroid_eq D c (h c (List.mem_cons_self c cs))
    have hcs := ih (fun x hx => h x (List.mem_cons_of_mem c hx))
    simp [resetCentroids, hc, hcs, List.replicate_succ]

theorem addPoint_eq (D : Nat) (p : Point F) (c : Centroid F) (hp : p.HasDim D)
    (hc : c.values.length = D) :
    addPoint p c = some
      { values := rewritten (fun j v => v + p.values.getD j 0) D c.values,
        dimensions := c.dimensions, count := c.count + 1 } := by
  obtain ⟨hlen, hdim⟩ := hp
  unfold addPoint
  have hloop := forLoop_rewritten (addPointBody p) (fun j v => v + p.values.getD j 0) c.values D
    (le_of_eq hc.symm) (fun j s hj _ => by
      have hjp : j < p.values.length := hlen ▸ hj
      simp [addPointBody, List.getElem?_eq_getElem hjp, List.getD_eq_getElem _ _ hjp])
  rw [hdim, Int.toNat_ofNat, hloop]

theorem clusterSize_cons (p : Point F) (ps : List (Point F)) (i : Nat) :
    clusterSize (p :: ps) i = clusterSize ps i + (if p.cluster = (i : Int) then 1 else 0) := by
  simp [clusterSize, List.countP_cons]

theorem clusterSum_cons (p : Point F) (ps : List (Point F)) (i j : Nat) :
    clusterSum (p :: ps) i j =
      (if p.cluster = (i : Int) then p.values.getD j 0 else 0) + clusterSum ps i j := by
  unfold clusterSum
  by_cases h : p.cluster = (i : Int)
  · simp [List.filter_cons, h]
  · simp [List.filter_cons, h]

theorem accumulated_length (D : Nat) (points : List (Point F)) (centroids : List (Centroid F)) :
    (accumulated D points centroids).length = centroids.length := by
  simp [accumulated]

theorem accumulated_getElem? (D : Nat) (points : List (Point F)) (centroids : List (Centroid F))
    (i : Nat) :
    (accumulated D points centroids)[i]? = (centroids[i]?).map (fun c =>
      { values := rewritten (fun j v => v + clusterSum points i j) D c.values,
        dimensions := c.dimensions,
        count := c.count + (clusterSize points i : Int) }) := by
  unfold accumulated
  rw [List.getElem?_zipWith]
  by_cases hi : i < centroids.length
  · rw [List.getElem?_range hi, List.getElem?_eq_getElem hi]
    rfl
  · rw [List.getElem?_eq_none (Nat.le_of_not_lt hi)]
    cases h : (List.range centroids.length)[i]? <;> rfl

theorem accumulated_nil (D : Nat) (centroids : List (Centroid F)) :
    accumulated D ([] : List (Point F)) centroids = centroids := by
  apply List.ext_getElem?
  intro i
  rw [accumulated_getElem?]
  cases h : centroids[i]? with
  | none => rfl
  | some c =>
    simp only [Option.map_some']
    congr 1
    apply Centroid.ext_fields
    · apply List.ext_getElem?
      intro j
      rw [rewritten_getElem?]
      cases c.values[j]? <;> simp [clusterSum]
    · rfl
    · simp [clusterSize]

theorem rewritten_rewritten_add (D : Nat) (values : List F) (a b : Nat → F) :
    rewritten (fun j v => v + b j) D (rewritten (fun j v => v + a j) D values) =
      rewritten (fun j v => v + (a j + b j)) D values := by
  apply List.ext_getElem?
  intro j
  rw [rewritten_getElem?, rewritten_getElem?, rewritten_getElem?]
  cases values[j]? with
  | none => rfl
  | some v =>
    by_cases hj : j < D
    · simp [hj, add_assoc]
    · simp [hj]

/-- The second loop of `updateCentroids` in closed form, for points of dimension `D`
with labels inside the centroid array and centroid buffers of `D` slots. -/
theorem sumLoop_eq (D : Nat) (points : List (Point F)) :
    ∀ centroids : List (Centroid F),
      (∀ p ∈ points, p.HasDim D ∧ 0 ≤ p.cluster ∧ p.cluster < (centroids.length : Int)) →
      (∀ c ∈ centroids, c.values.length = D) →
      sumLoop points centroids = some (accumulated D points centroids) := by
  induction points with
  | nil =>
    intro centroids _ _
    simp [sumLoop, accumulated_nil]
  | cons p ps ih =>
    intro centroids hps hcs
    obtain ⟨hp, hlo, hhi⟩ := hps p (List.mem_cons_self p ps)
    have hidx : p.cluster.toNat < centroids.length := by omega
    have hcast : ((p.cluster.toNat : Nat) : Int) = p.cluster := Int.toNat_of_nonneg hlo
    have hcD : (centroids[p.cluster.toNat]).values.length = D :=
      hcs _ (List.getElem_mem hidx)
    have hadd := addPoint_eq D p (centroids[p.cluster.toNat]) hp hcD
    have hrec := ih (centroids.set p.cluster.toNat
        { values := rewritten (fun j v => v + p.values.getD j 0) D
            (centroids[p.cluster.toNat]).values,
          dimensions := (centroids[p.cluster.toNat]).dimensions,
          count := (centroids[p.cluster.toNat]).count + 1 })
      (fun q hq => by
        have := hps q (List.mem_cons_of_mem p hq)
        simpa [List.length_set] using this)
      (fun c hc => by
        rcases List.mem_or_eq_of_mem_set hc with h | h
        · exact hcs c h
        · subst h
          simp [rewritten_length, hcD])
    rw [sumLoop, if_pos hlo, List.getElem?_eq_getElem hidx]
    simp only [hadd]
    rw [hrec]
    congr 1
    apply List.ext_getElem?
    intro i
    rw [accumulated_getElem?, accumulated_getElem?, List.getElem?_set]
    by_cases hi : p.cluster.toNat = i
    · subst hi
      simp only [if_pos hidx, if_true, Option.map_some', List.getElem?_eq_getElem hidx]
      congr 1
      apply Centroid.ext_fields
      · simp only [rewritten_rewritten_add]
        congr 1
        funext j v
        rw [clusterSum_cons, if_pos hcast.symm]
      · rfl
      · simp only [clusterSize_cons, if_pos hcast.symm]
        push_cast
        ring
    · have hne : ¬ p.cluster = (i : Int) := by
        intro h
        apply hi
        omega
      simp only [if_neg hi]
      cases centroids[i]? with
      | none => rfl
      | some c =>
        simp only [Option.map_some']
        congr 1
        apply Centroid.ext_fields
        · simp only [clusterSum_cons, if_neg hne, zero_add]
        · rfl
        · simp only [clusterSize_cons, if_neg hne, Nat.add_zero]

theorem averageCentroid_eq (D : Nat) (c : Centroid F) (h : c.HasDim D) :
    averageCentroid c = some
      (if 0 < c.count then
        { values := rewritten (fun _ v => v / (c.count : F)) D c.values,
          dimensions := c.dimensions, count := c.count }
       else c) := by
  obtain ⟨hlen, hdim⟩ := h
  unfold averageCentroid
  by_cases hpos : 0 < c.count
  · have hloop := forLoop_rewritten (updateAt (fun v => v / (c.count : F)))
      (fun _ v => v / (c.count : F)) c.values D (le_of_eq hlen.symm) (fun j s _ _ => rfl)
    rw [if_pos hpos, if_pos hpos]
    simp only [hdim, Int.toNat_ofNat, hloop]
  · rw [if_neg hpos, if_neg hpos]

theorem averageCentroids_eq_map (f : Centroid F → Centroid F) (centroids : List (Centroid F))
    (h : ∀ c ∈ centroids, averageCentroid c = some (f c)) :
    averageCentroids centroids = some (centroids.map f) := by
  induction centroids with
  | nil => rfl
  | cons c cs ih =>
    have hc := h c (List.mem_cons_self c cs)
    have hcs := ih (fun x hx => h x (List.mem_cons_of_mem c hx))
    simp [averageCentroids, hc, hcs]

theorem clusterSum_eq_zero (points : List (Point F)) (i j : Nat)
    (h : clusterSize points i = 0) : clusterSum points i j = 0 := by
  unfold clusterSize at h
  unfold clusterSum
  rw [List.countP_eq_zero] at h
  have hnil : points.filter (fun p => decide (p.cluster = (i : Int))) = [] := by
    rw [List.filter_eq_nil_iff]
    exact h
  rw [hnil]
  rfl

/-- Closed form of `updateCentroids`: for points of dimension `D` whose labels lie inside the
centroid array, and centroids of dimension `D`, the call succeeds and centroid `i` becomes
`meanCentroid D points i`, whatever the centroids held before. -/
theorem updateCentroids_eq (D : Nat) (points : List (Point F)) (centroids : List (Centroid F))
    (hps : ∀ p ∈ points, p.HasDim D ∧ 0 ≤ p.cluster ∧ p.cluster < (centroids.length : Int))
    (hcs : ∀ c ∈ centroids, c.HasDim D) :
    updateCentroids points centroids =
      some ((List.range centroids.length).map (meanCentroid D points)) := by
  have hreset := resetCentroids_eq D centroids hcs
  have hsum := sumLoop_eq D points
    (List.replicate centroids.length
      ({ values := List.replicate D 0, dimensions := (D : Int), count := 0 } : Centroid F))
    (fun p hp => by simpa using hps p hp)
    (fun c hc => by
      rw [List.eq_of_mem_replicate hc]
      simp)
  have havg := averageCentroids_eq_map
    (fun c : Centroid F =>
      if 0 < c.count then
        { values := rewritten (fun _ v => v / (c.count : F)) D c.values,
          dimensions := c.dimensions, count := c.count }
      else c)
    (accumulated D points (List.replicate centroids.length
      ({ values := List.replicate D 0, dimensions := (D : Int), count := 0 } : Centroid F)))
    (fun c hc => by
      apply averageCentroid_eq D c
      obtain ⟨i, hi, rfl⟩ := List.getElem_of_mem hc
      have hget := accumulated_getElem? D points (List.replicate centroids.length
        ({ values := List.replicate D 0, dimensions := (D : Int), count := 0 } : Centroid F)) i
      rw [List.getElem?_eq_getElem hi] at hget
      rw [accumulated_length, List.length_replicate] at hi
      rw [List.getElem?_replicate, if_pos hi] at hget
      simp only [Option.map_some', Option.some.injEq] at hget
      rw [hget]
      exact ⟨by simp [rewritten_length], rfl⟩)
  unfold updateCentroids
  simp only [hreset, hsum, havg]
  congr 1
  apply List.ext_getElem?
  intro i
  rw [List.getElem?_map, List.getElem?_map, accumulated_getElem?, List.getElem?_replicate]
  by_cases hi : i < centroids.length
  · rw [if_pos hi, List.getElem?_range hi]
    simp only [Option.map_some', zero_add]
    congr 1
    by_cases hpos : 0 < clusterSize points i
    · have hpos' : (0 : Int) < (clusterSize points i : Int) := by exact_mod_cast hpos
      rw [if_pos hpos']
      apply Centroid.ext_fields
      · apply List.ext_getElem?
        intro j
        simp only [meanCentroid, rewritten_getElem?, List.getElem?_replicate, List.getElem?_map]
        by_cases hj : j < D
        · simp [hj, hpos, List.getElem?_range hj]
        · simp [hj, List.getElem?_eq_none (show (List.range D).length ≤ j by simp; omega)]
      · rfl
      · rfl
    · have hzero : clusterSize points i = 0 := by omega
      have hnpos : ¬ (0 : Int) < (clusterSize points i : Int) := by simp [hzero]
      rw [if_neg hnpos]
      apply Centroid.ext_fields
      · apply List.ext_getElem?
        intro j
        simp only [meanCentroid, rewritten_getElem?, List.getElem?_replicate, List.getElem?_map]
        by_cases hj : j < D
        · simp [hj, hzero, List.getElem?_range hj, clusterSum_eq_zero points i j hzero]
        · simp [hj, List.getElem?_eq_none (show (List.range D).length ≤ j by simp; omega)]
      · rfl
      · rfl
  · rw [if_neg hi, List.getElem?_eq_none (show (List.range centroids.length).length ≤ i by
      simp; omega)]
    rfl

theorem clusterSize_eq_length_filter (points : List (Point F)) (i : Nat) :
    clusterSize points i = (points.filter (fun p => decide (p.cluster = (i : Int)))).length := by
  unfold clusterSize
  exact List.countP_eq_length_filter _ _

theorem sum_indicator_range (k c : Nat) (hc : c < k) :
    ((List.range k).map (fun i => if c = i then 1 else 0)).sum = 1 := by
  induction k with
  | zero => omega
  | succ n ih =>
    rw [List.range_succ, List.map_append, List.sum_append]
    rcases Nat.eq_or_lt_of_le (Nat.le_of_lt_succ hc) with heq | hlt
    · subst heq
      have hzero : ((List.range c).map (fun i => if c = i then 1 else 0)).sum = 0 := by
        apply List.sum_eq_zero
        intro x hx
        obtain ⟨i, hi, rfl⟩ := List.mem_map.mp hx
        have : i < c := List.mem_range.mp hi
        simp
        omega
      simp [hzero]
    · have hne : c ≠ n := Nat.ne_of_lt hlt
      simp [ih hlt, hne]

/-- The cluster sizes of labels inside `[0, k)` add up to the number of points. -/
theorem sum_clusterSize (k : Nat) (points : List (Point F))
    (h : ∀ p ∈ points, 0 ≤ p.cluster ∧ p.cluster < (k : Int)) :
    ((List.range k).map (clusterSize points)).sum = points.length := by
  induction points with
  | nil =>
    apply List.sum_eq_zero
    intro x hx
    obtain ⟨i, _, rfl⟩ := List.mem_map.mp hx
    rfl
  | cons p ps ih =>
    have hrec := ih (fun q hq => h q (List.mem_cons_of_mem p hq))
    obtain ⟨hlo, hhi⟩ := h p (List.mem_cons_self p ps)
    have hfun : clusterSize (p :: ps) =
        fun i => clusterSize ps i + (if p.cluster.toNat = i then 1 else 0) := by
      funext i
      rw [clusterSize_cons]
      congr 1
      have hiff : (p.cluster = (i : Int)) ↔ (p.cluster.toNat = i) := by
        constructor
        · intro h
          omega
        · intro h
          omega
      simp only [hiff]
    rw [hfun, List.sum_map_add, hrec, sum_indicator_range k p.cluster.toNat (by omega)]
    simp

end Update

/-! ## The assignment pass -/

section Assign

variable {F : Type} [LinearOrderedField F]

theorem DBL_MAX_pos : (0 : F) < DBL_MAX := by
  unfold DBL_MAX
  apply mul_pos
  · have h : (1 : F) < 2 ^ 53 := one_lt_pow₀ (by norm_num) (by norm_num)
    linarith
  · positivity

/-- The distance reads only the `values` and `dimensions` of the point. -/
theorem calculateDistance_congr (sqrt : F → F) (p q : Point F) (c : Centroid F)
    (hv : p.values = q.values) (hd : p.dimensions = q.dimensions) :
    calculateDistance sqrt p c = calculateDistance sqrt q c := by
  have hbody : calculateDistanceBody p c = calculateDistanceBody q c := by
    funext i sum
    simp [calculateDistanceBody, hv]
  simp [calculateDistance, hbody, hd]

/-- On a point and a centroid of the same dimension every read is in range. -/
theorem calculateDistance_isSome (sqrt : F → F) (D : Nat) (p : Point F) (c : Centroid F)
    (hp : p.HasDim D) (hc : c.HasDim D) : ∃ d, calculateDistance sqrt p c = some d := by
  obtain ⟨hpl, hpd⟩ := hp
  obtain ⟨hcl, _⟩ := hc
  obtain ⟨s, hs, _⟩ := forLoop_invariant (calculateDistanceBody p c) 0 (fun _ _ => True) D trivial
    (fun i s hi _ => by
      have h1 : i < p.values.length := hpl ▸ hi
      have h2 : i < c.values.length := hcl ▸ hi
      exact ⟨s + (p.values[i] - c.values[i]) * (p.values[i] - c.values[i]),
        by simp [calculateDistanceBody, List.getElem?_eq_getElem h1,
          List.getElem?_eq_getElem h2], trivial⟩)
  exact ⟨sqrt s, by simp [calculateDistance, hpd, hs]⟩

theorem nearestLoop_congr (sqrt : F → F) (p q : Point F) (hv : p.values = q.values)
    (hd : p.dimensions = q.dimensions) :
    ∀ (cs : List (Centroid F)) (j : Nat) (best : F × Int),
      nearestLoop sqrt p cs j best = nearestLoop sqrt q cs j best := by
  intro cs
  induction cs with
  | nil => intro j best; rfl
  | cons c cs ih =>
    intro j best
    obtain ⟨m, b⟩ := best
    simp only [nearestLoop, calculateDistance_congr sqrt p q c hv hd, ih]

theorem nearestCluster_congr (sqrt : F → F) (cs : List (Centroid F)) (p q : Point F)
    (hv : p.values = q.values) (hd : p.dimensions = q.dimensions) :
    nearestCluster sqrt cs p = nearestCluster sqrt cs q := by
  simp only [nearestCluster, nearestLoop_congr sqrt p q hv hd]

theorem nearestLoop_isSome (sqrt : F → F) (p : Point F) :
    ∀ (cs : List (Centroid F)) (j : Nat) (best : F × Int),
      (∀ c ∈ cs, ∃ d, calculateDistance sqrt p c = some d) →
      ∃ r, nearestLoop sqrt p cs j best = some r := by
  intro cs
  induction cs with
  | nil => intro j best _; exact ⟨best, rfl⟩
  | cons c cs ih =>
    intro j best h
    obtain ⟨m, b⟩ := best
    obtain ⟨d, hd⟩ := h c (List.mem_cons_self c cs)
    have hrest : ∀ x ∈ cs, ∃ d, calculateDistance sqrt p x = some d :=
      fun x hx => h x (List.mem_cons_of_mem c hx)
    simp only [nearestLoop, hd]
    by_cases hlt : d < m
    · rw [if_pos hlt]
      exact ih (j + 1) (d, (j : Int)) hrest
    · rw [if_neg hlt]
      exact ih (j + 1) (m, b) hrest

/-- What the scan of the centroids returns: a lower bound of all the distances and of the
bound it started from; either the start pair, never improved on, or the first centroid (in
scan order) at the least distance, that distance being below the start bound. -/
theorem nearestLoop_spec (sqrt : F → F) (p : Point F) :
    ∀ (cs : List (Centroid F)) (j : Nat) (m : F) (b : Int) (r : F × Int),
      nearestLoop sqrt p cs j (m, b) = some r →
      (∀ (t : Nat) (c : Centroid F), cs[t]? = some c →
        ∃ d, calculateDistance sqrt p c = some d ∧ r.1 ≤ d) ∧
      r.1 ≤ m ∧
      (r = (m, b) ∨
        ∃ (t : Nat) (c : Centroid F), cs[t]? = some c ∧ r.2 = ((j + t : Nat) : Int) ∧
          calculateDistance sqrt p c = some r.1 ∧ r.1 < m ∧
          ∀ (t' : Nat) (c' : Centroid F), t' < t → cs[t']? = some c' →
            ∃ d, calculateDistance sqrt p c' = some d ∧ r.1 < d) := by
  intro cs
  induction cs with
  | nil =>
    intro j m b r h
    simp only [nearestLoop, Option.some.injEq] at h
    subst h
    exact ⟨fun t c hc => by simp at hc, le_refl _, Or.inl rfl⟩
  | cons c cs ih =>
    intro j m b r h
    cases hd : calculateDistance sqrt p c with
    | none => simp [nearestLoop, hd] at h
    | some d =>
      simp only [nearestLoop, hd] at h
      by_cases hlt : d < m
      · rw [if_pos hlt] at h
        obtain ⟨hall, hle, hcase⟩ := ih (j + 1) d (j : Int) r h
        refine ⟨?_, le_trans hle (le_of_lt hlt), Or.inr ?_⟩
        · intro t x hx
          cases t with
          | zero =>
            simp only [List.getElem?_cons_zero, Option.some.injEq] at hx
            subst hx
            exact ⟨d, hd, hle⟩
          | succ t => exact hall t x (by simpa using hx)
        · rcases hcase with heq | ⟨t, x, hx, hidx, hdist, hltd, hfirst⟩
          · refine ⟨0, c, by simp, by simp [heq], by simp [heq, hd], by simp [heq, hlt], ?_⟩
            intro t' c' ht'
            omega
          · refine ⟨t + 1, x, by simpa using hx, ?_, hdist, lt_trans hltd hlt, ?_⟩
            · rw [hidx]
              congr 1
              omega
            · intro t' c' ht' hc'
              cases t' with
              | zero =>
                simp only [List.getElem?_cons_zero, Option.some.injEq] at hc'
                subst hc'
                exact ⟨d, hd, hltd⟩
              | succ t' => exact hfirst t' c' (by omega) (by simpa using hc')
      · rw [if_neg hlt] at h
        have hmd : m ≤ d := not_lt.mp hlt
        obtain ⟨hall, hle, hcase⟩ := ih (j + 1) m b r h
        refine ⟨?_, hle, ?_⟩
        · intro t x hx
          cases t with
          | zero =>
            simp only [List.getElem?_cons_zero, Option.some.injEq] at hx
            subst hx
            exact ⟨d, hd, le_trans hle hmd⟩
          | succ t => exact hall t x (by simpa using hx)
        · rcases hcase with heq | ⟨t, x, hx, hidx, hdist, hltm, hfirst⟩
          · exact Or.inl heq
          · refine Or.inr ⟨t + 1, x, by simpa using hx, ?_, hdist, hltm, ?_⟩
            · rw [hidx]
              congr 1
              omega
            · intro t' c' ht' hc'
              cases t' with
              | zero =>
                simp only [List.getElem?_cons_zero, Option.some.injEq] at hc'
                subst hc'
                exact ⟨d, hd, lt_of_lt_of_le hltm hmd⟩
              | succ t' => exact hfirst t' c' (by omega) (by simpa using hc')

theorem relabel_of_some (sqrt : F → F) (cs : List (Centroid F)) (p : Point F) (l : Int)
    (h : nearestCluster sqrt cs p = some l) :
    relabel sqrt cs p = { p with cluster := l } := by
  simp [relabel, h]

theorem relabel_values (sqrt : F → F) (cs : List (Centroid F)) (p : Point F) :
    (relabel sqrt cs p).values = p.values := by
  unfold relabel
  cases nearestCluster sqrt cs p <;> rfl

theorem relabel_dimensions (sqrt : F → F) (cs : List (Centroid F)) (p : Point F) :
    (relabel sqrt cs p).dimensions = p.dimensions := by
  unfold relabel
  cases nearestCluster sqrt cs p <;> rfl

theorem relabel_cluster (sqrt : F → F) (cs : List (Centroid F)) (p : Point F) (l : Int)
    (h : nearestCluster sqrt cs p = some l) : (relabel sqrt cs p).cluster = l := by
  simp [relabel, h]

theorem relabelled_cons (sqrt : F → F) (cs : List (Centroid F)) (p : Point F)
    (ps : List (Point F)) :
    relabelled sqrt cs (p :: ps) =
      relabelled sqrt cs ps + (if p.cluster ≠ (relabel sqrt cs p).cluster then 1 else 0) := by
  simp [relabelled, List.countP_cons]

/-- The assignment loop succeeds exactly when the scan succeeds for every point. -/
theorem assignLoop_scans (sqrt : F → F) (cs : List (Centroid F)) :
    ∀ (ps : List (Point F)) (n : Nat) (r : List (Point F) × Nat),
      assignLoop sqrt cs ps n = some r →
      ∀ p ∈ ps, ∃ l, nearestCluster sqrt cs p = some l := by
  intro ps
  induction ps with
  | nil => intro n r _ p hp; simp at hp
  | cons q qs ih =>
    intro n r h p hp
    cases hq : nearestCluster sqrt cs q with
    | none => simp [assignLoop, hq] at h
    | some l =>
      rcases List.mem_cons.mp hp with rfl | hmem
      · exact ⟨l, hq⟩
      · simp only [assignLoop, hq] at h
        by_cases hne : q.cluster ≠ l
        · rw [if_pos hne] at h
          cases hrec : assignLoop sqrt cs qs (n + 1) with
          | none => simp [hrec] at h
          | some r' => exact ih (n + 1) r' hrec p hmem
        · rw [if_neg hne] at h
          cases hrec : assignLoop sqrt cs qs n with
          | none => simp [hrec] at h
          | some r' => exact ih n r' hrec p hmem

/-- Closed form of the assignment loop: every point is relabelled with its nearest cluster
and the counter grows by the number of labels that differ. -/
theorem assignLoop_eq (sqrt : F → F) (cs : List (Centroid F)) :
    ∀ (ps : List (Point F)) (n : Nat),
      (∀ p ∈ ps, ∃ l, nearestCluster sqrt cs p = some l) →
      assignLoop sqrt cs ps n = some (ps.map (relabel sqrt cs), n + relabelled sqrt cs ps) := by
  intro ps
  induction ps with
  | nil => intro n _; simp [assignLoop, relabelled]
  | cons q qs ih =>
    intro n h
    obtain ⟨l, hq⟩ := h q (List.mem_cons_self q qs)
    have hrest : ∀ p ∈ qs, ∃ l, nearestCluster sqrt cs p = some l :=
      fun p hp => h p (List.mem_cons_of_mem q hp)
    have hcl := relabel_cluster sqrt cs q l hq
    simp only [assignLoop, hq, List.map_cons, relabelled_cons, hcl]
    by_cases hne : q.cluster ≠ l
    · rw [if_pos hne, if_pos hne, ih (n + 1) hrest, relabel_of_some sqrt cs q l hq]
      simp only [Option.some.injEq, Prod.mk.injEq, true_and]
      omega
    · rw [if_neg hne, if_neg hne, ih n hrest, relabel_of_some sqrt cs q l hq]
      have hql : q.cluster = l := not_not.mp hne
      subst hql
      simp

/-- Whenever the assignment pass returns, it returns the relabelled points and the number
of labels that differ. -/
theorem assignPointsToClusters_of_some (sqrt : F → F) (points : List (Point F))
    (cs : List (Centroid F)) (r : List (Point F) × Nat)
    (h : assignPointsToClusters sqrt points cs = some r) :
    r = (points.map (relabel sqrt cs), relabelled sqrt cs points) := by
  have hall := assignLoop_scans sqrt cs points 0 r h
  have heq := assignLoop_eq sqrt cs points 0 hall
  unfold assignPointsToClusters at h
  rw [heq] at h
  simp only [Nat.zero_add, Option.some.injEq] at h
  exact h.symm

/-- On points and centroids of one dimension the assignment pass returns. -/
theorem assignPointsToClusters_eq (sqrt : F → F) (D : Nat) (points : List (Point F))
    (cs : List (Centroid F)) (hps : ∀ p ∈ points, p.HasDim D) (hcs : ∀ c ∈ cs, c.HasDim D) :
    assignPointsToClusters sqrt points cs =
      some (points.map (relabel sqrt cs), relabelled sqrt cs points) := by
  have hall : ∀ p ∈ points, ∃ l, nearestCluster sqrt cs p = some l := by
    intro p hp
    obtain ⟨r, hr⟩ := nearestLoop_isSome sqrt p cs 0 (DBL_MAX, 0)
      (fun c hc => calculateDistance_isSome sqrt D p c (hps p hp) (hcs c hc))
    exact ⟨r.2, by simp [nearestCluster, hr]⟩
  have heq := assignLoop_eq sqrt cs points 0 hall
  simpa [assignPointsToClusters] using heq

/-- The label the scan returns, when some centroid is closer than `DBL_MAX`: the lowest
index among the centroids at the least distance. -/
theorem nearestCluster_spec (sqrt : F → F) (cs : List (Centroid F)) (p : Point F) (l : Int)
    (h : nearestCluster sqrt cs p = some l)
    (hbound : ∃ c ∈ cs, ∃ d, calculateDistance sqrt p c = some d ∧ d < DBL_MAX) :
    ∃ (t : Nat) (ht : t < cs.length) (dc : F), l = (t : Int) ∧
      calculateDistance sqrt p cs[t] = some dc ∧
      ∀ (j : Nat) (hj : j < cs.length), ∃ dj, calculateDistance sqrt p cs[j] = some dj ∧
        dc ≤ dj ∧ (j < t → dc < dj) := by
  unfold nearestCluster at h
  cases hr : nearestLoop sqrt p cs 0 (DBL_MAX, 0) with
  | none => simp [hr] at h
  | some r =>
    obtain ⟨m', l'⟩ := r
    simp only [hr, Option.some.injEq] at h
    subst h
    obtain ⟨hall, _, hcase⟩ := nearestLoop_spec sqrt p cs 0 DBL_MAX 0 (m', l') hr
    rcases hcase with heq | ⟨t, c, hc, hidx, hdist, _, hfirst⟩
    · exfalso
      obtain ⟨c, hc, d, hd, hlt⟩ := hbound
      obtain ⟨i, hi, rfl⟩ := List.getElem_of_mem hc
      obtain ⟨d', hd', hle⟩ := hall i cs[i] (List.getElem?_eq_getElem hi)
      rw [hd] at hd'
      simp only [Option.some.injEq] at hd'
      subst hd'
      simp only [Prod.mk.injEq] at heq
      rw [heq.1] at hle
      exact absurd hlt (not_lt.mpr hle)
    · obtain ⟨ht, hct⟩ := List.getElem?_eq_some_iff.mp hc
      subst hct
      refine ⟨t, ht, m', by simpa using hidx, hdist, ?_⟩
      intro j hj
      obtain ⟨dj, hdj, hle⟩ := hall j cs[j] (List.getElem?_eq_getElem hj)
      refine ⟨dj, hdj, hle, ?_⟩
      intro hjt
      obtain ⟨d, hd, hlt⟩ := hfirst j cs[j] hjt (List.getElem?_eq_getElem hj)
      rw [hdj] at hd
      simp only [Option.some.injEq] at hd
      rw [hd]
      exact hlt

/-- With at least one centroid, the label the scan returns is an index of a centroid. -/
theorem nearestCluster_range (sqrt : F → F) (cs : List (Centroid F)) (p : Point F) (l : Int)
    (hk : 1 ≤ cs.length) (h : nearestCluster sqrt cs p = some l) :
    0 ≤ l ∧ l < (cs.length : Int) := by
  unfold nearestCluster at h
  cases hr : nearestLoop sqrt p cs 0 (DBL_MAX, 0) with
  | none => simp [hr] at h
  | some r =>
    obtain ⟨m', l'⟩ := r
    simp only [hr, Option.some.injEq] at h
    subst h
    obtain ⟨_, _, hcase⟩ := nearestLoop_spec sqrt p cs 0 DBL_MAX 0 (m', l') hr
    rcases hcase with heq | ⟨t, c, hc, hidx, _, _, _⟩
    · simp only [Prod.mk.injEq] at heq
      rw [heq.2]
      omega
    · obtain ⟨ht, _⟩ := List.getElem?_eq_some_iff.mp hc
      simp only [Nat.zero_add] at hidx
      rw [hidx]
      omega

theorem countP_zip_map {α : Type} (f : α → α) (P : α → α → Bool) (l : List α) :
    (List.zip l (l.map f)).countP (fun pq => P pq.1 pq.2) = l.countP (fun p => P p (f p)) := by
  induction l with
  | nil => rfl
  | cons a l ih => simp [List.countP_cons, ih]

end Assign

/-! ## One iteration and the loop of `kMeans` -/

section Loop

variable {F : Type} [LinearOrderedField F]

theorem relabel_idem (sqrt : F → F) (cs : List (Centroid F)) (p : Point F) :
    relabel sqrt cs (relabel sqrt cs p) = relabel sqrt cs p := by
  have hc := nearestCluster_congr sqrt cs (relabel sqrt cs p) p (relabel_values sqrt cs p)
    (relabel_dimensions sqrt cs p)
  cases h : nearestCluster sqrt cs p with
  | none =>
    have hp : relabel sqrt cs p = p := by simp [relabel, h]
    rw [hp]
    exact hp
  | some l =>
    rw [h] at hc
    rw [relabel_of_some sqrt cs _ l hc, relabel_of_some sqrt cs p l h]

theorem relabelled_map_relabel (sqrt : F → F) (cs : List (Centroid F)) (ps : List (Point F)) :
    relabelled sqrt cs (ps.map (relabel sqrt cs)) = 0 := by
  unfold relabelled
  rw [List.countP_eq_zero]
  intro q hq
  obtain ⟨p, _, rfl⟩ := List.mem_map.mp hq
  simp [relabel_idem]

theorem map_relabel_of_relabelled_eq_zero (sqrt : F → F) (cs : List (Centroid F))
    (ps : List (Point F)) (h : relabelled sqrt cs ps = 0) :
    ps.map (relabel sqrt cs) = ps := by
  unfold relabelled at h
  rw [List.countP_eq_zero] at h
  conv_rhs => rw [← List.map_id ps]
  apply List.map_congr_left
  intro p hp
  have hcl : p.cluster = (relabel sqrt cs p).cluster := by
    have := h p hp
    simpa using this
  have hv := relabel_values sqrt cs p
  have hd := relabel_dimensions sqrt cs p
  cases hq : relabel sqrt cs p with
  | mk v d c =>
    rw [hq] at hcl hv hd
    cases p
    simp_all

theorem labelsInRange_map_relabel (sqrt : F → F) (D : Nat) (points : List (Point F))
    (cs : List (Centroid F)) (h : SameDim D points cs) :
    LabelsInRange cs.length (points.map (relabel sqrt cs)) := by
  obtain ⟨hps, hcs, hk⟩ := h
  intro q hq
  obtain ⟨p, hp, rfl⟩ := List.mem_map.mp hq
  obtain ⟨r, hr⟩ := nearestLoop_isSome sqrt p cs 0 (DBL_MAX, 0)
    (fun c hc => calculateDistance_isSome sqrt D p c (hps p hp) (hcs c hc))
  have hnear : nearestCluster sqrt cs p = some r.2 := by simp [nearestCluster, hr]
  rw [relabel_cluster sqrt cs p r.2 hnear]
  exact nearestCluster_range sqrt cs p r.2 (hk (List.ne_nil_of_mem hp)) hnear

theorem meanCentroid_hasDim (D : Nat) (points : List (Point F)) (i : Nat) :
    (meanCentroid D points i).HasDim D := by
  simp [Centroid.HasDim, meanCentroid]

/-- Closed form of one iteration on well-formed input. -/
theorem kMeansIteration_eq (sqrt : F → F) (D : Nat) (points : List (Point F))
    (cs : List (Centroid F)) (h : SameDim D points cs) :
    kMeansIteration sqrt points cs = some
      (points.map (relabel sqrt cs),
       (List.range cs.length).map (meanCentroid D (points.map (relabel sqrt cs))),
       relabelled sqrt cs points) := by
  have hassign := assignPointsToClusters_eq sqrt D points cs h.1 h.2.1
  have hrange := labelsInRange_map_relabel sqrt D points cs h
  have hupdate := updateCentroids_eq D (points.map (relabel sqrt cs)) cs
    (fun q hq => by
      refine ⟨?_, hrange q hq⟩
      obtain ⟨p, hp, rfl⟩ := List.mem_map.mp hq
      exact ⟨by rw [relabel_values]; exact (h.1 p hp).1,
        by rw [relabel_dimensions]; exact (h.1 p hp).2⟩)
    h.2.1
  simp only [kMeansIteration, hassign, hupdate]

/-- One iteration keeps the input well formed. -/
theorem sameDim_iteration (sqrt : F → F) (D : Nat) (points : List (Point F))
    (cs : List (Centroid F)) (h : SameDim D points cs) :
    SameDim D (points.map (relabel sqrt cs))
      ((List.range cs.length).map (meanCentroid D (points.map (relabel sqrt cs)))) := by
  obtain ⟨hps, _, hk⟩ := h
  refine ⟨?_, ?_, ?_⟩
  · intro q hq
    obtain ⟨p, hp, rfl⟩ := List.mem_map.mp hq
    exact ⟨by rw [relabel_values]; exact (hps p hp).1,
      by rw [relabel_dimensions]; exact (hps p hp).2⟩
  · intro c hc
    obtain ⟨i, _, rfl⟩ := List.mem_map.mp hc
    exact meanCentroid_hasDim D _ i
  · intro hne
    have : points ≠ [] := by
      intro hnil
      apply hne
      simp [hnil]
    simpa using hk this

theorem getLast?_cons_of_ne_nil {α : Type} (a : α) (l : List α) (h : l ≠ []) :
    (a :: l).getLast? = l.getLast? := by
  cases l with
  | nil => exact absurd rfl h
  | cons b l => simp

theorem hasDim_of_labelled (sqrt : F → F) (D : Nat) (points : List (Point F))
    (cs : List (Centroid F)) (hps : ∀ p ∈ points, p.HasDim D) :
    ∀ q ∈ points.map (relabel sqrt cs), q.HasDim D := by
  intro q hq
  obtain ⟨p, hp, rfl⟩ := List.mem_map.mp hq
  exact ⟨by rw [relabel_values]; exact (hps p hp).1,
    by rw [relabel_dimensions]; exact (hps p hp).2⟩

/-- After an iteration the centroids are a fixed point of `updateCentroids` on the labels. -/
theorem updateCentroids_after_iteration (sqrt : F → F) (D : Nat) (points : List (Point F))
    (cs : List (Centroid F)) (h : SameDim D points cs) :
    updateCentroids (points.map (relabel sqrt cs))
        ((List.range cs.length).map (meanCentroid D (points.map (relabel sqrt cs)))) =
      some ((List.range cs.length).map (meanCentroid D (points.map (relabel sqrt cs)))) := by
  have hrange := labelsInRange_map_relabel sqrt D points cs h
  have hnext := sameDim_iteration sqrt D points cs h
  have hupd := updateCentroids_eq D (points.map (relabel sqrt cs))
    ((List.range cs.length).map (meanCentroid D (points.map (relabel sqrt cs))))
    (fun q hq => ⟨hnext.1 q hq, by simpa using hrange q hq⟩) hnext.2.1
  simpa using hupd

/-- The run of the loop of `kMeans` from a well-formed state: it returns; `extra` are the
`changes` values of the iterations it executes. -/
theorem kMeansLoop_run (sqrt : F → F) (D : Nat) (maxIterations : Int) :
    ∀ (points : List (Point F)) (cs : List (Centroid F)) (iterations : Int) (log : List Nat),
      SameDim D points cs →
      ∃ (run : Run F) (extra : List Nat),
        kMeansLoop sqrt maxIterations points cs iterations log = some run ∧
        run.log = log ++ extra ∧ extra ≠ [] ∧
        run.iterations = iterations + (extra.length : Int) ∧
        (∀ x ∈ extra.dropLast, 0 < x) ∧
        (extra.getLast? = some 0 ∨ maxIterations ≤ run.iterations) ∧
        (run.iterations ≤ maxIterations ∨ extra.length = 1) ∧
        extra.head? = some (relabelled sqrt cs points) ∧
        SameDim D run.points run.centroids ∧ LabelsInRange cs.length run.points ∧
        run.centroids = (List.range cs.length).map (meanCentroid D run.points) ∧
        run.points.length = points.length ∧
        (extra.getLast? = some 0 →
          (2 ≤ extra.length ∨ updateCentroids points cs = some cs) →
          assignPointsToClusters sqrt run.points run.centroids = some (run.points, 0)) := by
  refine kMeansLoop.induct sqrt maxIterations
    (fun points cs iterations log => SameDim D points cs →
      ∃ (run : Run F) (extra : List Nat),
        kMeansLoop sqrt maxIterations points cs iterations log = some run ∧
        run.log = log ++ extra ∧ extra ≠ [] ∧
        run.iterations = iterations + (extra.length : Int) ∧
        (∀ x ∈ extra.dropLast, 0 < x) ∧
        (extra.getLast? = some 0 ∨ maxIterations ≤ run.iterations) ∧
        (run.iterations ≤ maxIterations ∨ extra.length = 1) ∧
        extra.head? = some (relabelled sqrt cs points) ∧
        SameDim D run.points run.centroids ∧ LabelsInRange cs.length run.points ∧
        run.centroids = (List.range cs.length).map (meanCentroid D run.points) ∧
        run.points.length = points.length ∧
        (extra.getLast? = some 0 →
          (2 ≤ extra.length ∨ updateCentroids points cs = some cs) →
          assignPointsToClusters sqrt run.points run.centroids = some (run.points, 0)))
    ?_ ?_ ?_
  · intro points cs iterations log hnone hdim
    rw [kMeansIteration_eq sqrt D points cs hdim] at hnone
    simp at hnone
  · intro points cs iterations log points' cs' changes hiter hcont ih hdim
    rw [kMeansIteration_eq sqrt D points cs hdim] at hiter
    simp only [Option.some.injEq, Prod.mk.injEq] at hiter
    obtain ⟨hp', hc', hch⟩ := hiter
    subst hp' hc' hch
    have hnext := sameDim_iteration sqrt D points cs hdim
    have hlen : ((List.range cs.length).map
        (meanCentroid D (points.map (relabel sqrt cs)))).length = cs.length := by simp
    obtain ⟨run, extra, hrun, hlog, hne, hits, hpos, hstop, hbound, _, hsame, hrange, hcent,
      hplen, hfix⟩ := ih hnext
    refine ⟨run, relabelled sqrt cs points :: extra, ?_, ?_, by simp, ?_, ?_, ?_, ?_, ?_,
      hsame, ?_, ?_, ?_, ?_⟩
    · rw [kMeansLoop, kMeansIteration_eq sqrt D points cs hdim]
      simp only
      rw [if_pos hcont]
      exact hrun
    · rw [hlog]
      simp
    · rw [hits]
      simp only [List.length_cons]
      push_cast
      ring
    · intro x hx
      rw [List.dropLast_cons_of_ne_nil hne] at hx
      rcases List.mem_cons.mp hx with rfl | hmem
      · exact hcont.1
      · exact hpos x hmem
    · rw [getLast?_cons_of_ne_nil _ _ hne]
      exact hstop
    · left
      rcases hbound with h | h
      · exact h
      · rw [hits, h]
        have := hcont.2
        push_cast
        omega
    · simp
    · rw [hlen] at hrange
      exact hrange
    · rw [hlen] at hcent
      exact hcent
    · rw [hplen]
      simp
    · intro hlast _
      rw [getLast?_cons_of_ne_nil _ _ hne] at hlast
      exact hfix hlast (Or.inr (updateCentroids_after_iteration sqrt D points cs hdim))
  · intro points cs iterations log points' cs' changes hiter hstop hdim
    rw [kMeansIteration_eq sqrt D points cs hdim] at hiter
    simp only [Option.some.injEq, Prod.mk.injEq] at hiter
    obtain ⟨hp', hc', hch⟩ := hiter
    subst hp' hc' hch
    have hnext := sameDim_iteration sqrt D points cs hdim
    have hrange := labelsInRange_map_relabel sqrt D points cs hdim
    refine ⟨{ points := points.map (relabel sqrt cs),
              centroids := (List.range cs.length).map
                (meanCentroid D (points.map (relabel sqrt cs))),
              iterations := iterations + 1,
              log := log ++ [relabelled sqrt cs points] }, [relabelled sqrt cs points],
            ?_, rfl, by simp, by simp, by simp, ?_,
            Or.inr rfl, by simp, hnext, hrange, rfl, by simp, ?_⟩
    · rw [kMeansLoop, kMeansIteration_eq sqrt D points cs hdim]
      simp only
      rw [if_neg hstop]
    · simp only [List.getLast?_singleton, Option.some.injEq]
      by_cases hzero : relabelled sqrt cs points = 0
      · exact Or.inl hzero
      · right
        have hposc : relabelled sqrt cs points > 0 := Nat.pos_of_ne_zero hzero
        have : ¬ (iterations + 1 < maxIterations) := fun hlt => hstop ⟨hposc, hlt⟩
        omega
    · intro hlast hcase
      simp only [List.getLast?_singleton, Option.some.injEq] at hlast
      rcases hcase with h2 | hfix
      · simp at h2
      · have hsame : points.map (relabel sqrt cs) = points :=
          map_relabel_of_relabelled_eq_zero sqrt cs points hlast
        rw [hsame] at hrange
        have hupd := updateCentroids_eq D points cs
          (fun q hq => ⟨hdim.1 q hq, hrange q hq⟩) hdim.2.1
        rw [hfix] at hupd
        simp only [Option.some.injEq] at hupd
        simp only [hsame]
        rw [← hupd, assignPointsToClusters_eq sqrt D points cs hdim.1 hdim.2.1, hsame, hlast]

/-- The shape of every run of the loop that returns, on any input: the `changes` values it
appends are positive except possibly the last, and it stops on `changes = 0` or at the cap. -/
theorem kMeansLoop_shape (sqrt : F → F) (maxIterations : Int) :
    ∀ (points : List (Point F)) (cs : List (Centroid F)) (iterations : Int) (log : List Nat)
      (run : Run F),
      kMeansLoop sqrt maxIterations points cs iterations log = some run →
      ∃ extra : List Nat,
        run.log = log ++ extra ∧ extra ≠ [] ∧
        run.iterations = iterations + (extra.length : Int) ∧
        (∀ x ∈ extra.dropLast, 0 < x) ∧
        (extra.getLast? = some 0 ∨ maxIterations ≤ run.iterations) ∧
        (run.iterations ≤ maxIterations ∨ extra.length = 1) := by
  refine kMeansLoop.induct sqrt maxIterations
    (fun points cs iterations log => ∀ run : Run F,
      kMeansLoop sqrt maxIterations points cs iterations log = some run →
      ∃ extra : List Nat,
        run.log = log ++ extra ∧ extra ≠ [] ∧
        run.iterations = iterations + (extra.length : Int) ∧
        (∀ x ∈ extra.dropLast, 0 < x) ∧
        (extra.getLast? = some 0 ∨ maxIterations ≤ run.iterations) ∧
        (run.iterations ≤ maxIterations ∨ extra.length = 1))
    ?_ ?_ ?_
  · intro points cs iterations log hnone run hrun
    rw [kMeansLoop, hnone] at hrun
    simp at hrun
  · intro points cs iterations log points' cs' changes hiter hcont ih run hrun
    rw [kMeansLoop, hiter] at hrun
    simp only at hrun
    rw [if_pos hcont] at hrun
    obtain ⟨extra, hlog, hne, hits, hpos, hstop, hbound⟩ := ih run hrun
    refine ⟨changes :: extra, ?_, by simp, ?_, ?_, ?_, ?_⟩
    · rw [hlog]
      simp
    · rw [hits]
      simp only [List.length_cons]
      push_cast
      ring
    · intro x hx
      rw [List.dropLast_cons_of_ne_nil hne] at hx
      rcases List.mem_cons.mp hx with rfl | hmem
      · exact hcont.1
      · exact hpos x hmem
    · rw [getLast?_cons_of_ne_nil _ _ hne]
      exact hstop
    · left
      rcases hbound with h | h
      · exact h
      · rw [hits, h]
        have := hcont.2
        push_cast
        omega
  · intro points cs iterations log points' cs' changes hiter hstop run hrun
    rw [kMeansLoop, hiter] at hrun
    simp only at hrun
    rw [if_neg hstop] at hrun
    simp only [Option.some.injEq] at hrun
    subst hrun
    refine ⟨[changes], rfl, by simp, by simp, by simp, ?_, Or.inr rfl⟩
    simp only [List.getLast?_singleton, Option.some.injEq]
    by_cases hzero : changes = 0
    · exact Or.inl hzero
    · right
      have hposc : changes > 0 := Nat.pos_of_ne_zero hzero
      have : ¬ (iterations + 1 < maxIterations) := fun hlt => hstop ⟨hposc, hlt⟩
      omega

/-- The counts of the centroids `updateCentroids` computes: each is the number of points with
that label, and together they are the number of points. -/
theorem counts_meanCentroid (D k : Nat) (points : List (Point F))
    (hlab : LabelsInRange k points) :
    (∀ (i : Nat) (hi : i < ((List.range k).map (meanCentroid D points)).length),
      ((List.range k).map (meanCentroid D points))[i].count =
        ((points.filter (fun p => decide (p.cluster = (i : Int)))).length : Int)) ∧
    (((List.range k).map (meanCentroid D points)).map (fun c => c.count)).sum =
      (points.length : Int) := by
  constructor
  · intro i hi
    simp only [List.getElem_map, List.getElem_range, meanCentroid, clusterSize_eq_length_filter]
  · rw [List.map_map]
    have hfun : ((fun c : Centroid F => c.count) ∘ meanCentroid D points) =
        (fun n : Nat => (n : Int)) ∘ clusterSize points := by
      funext i
      rfl
    rw [hfun, ← List.map_map, ← Nat.cast_list_sum, sum_clusterSize k points hlab]

theorem counts_of_eq_meanCentroid (D k : Nat) (points : List (Point F))
    (cs : List (Centroid F)) (hcs : cs = (List.range k).map (meanCentroid D points))
    (hlab : LabelsInRange k points) :
    cs.length = k ∧
    (∀ (i : Nat) (hi : i < cs.length),
      cs[i].count = ((points.filter (fun p => decide (p.cluster = (i : Int)))).length : Int)) ∧
    (cs.map (fun c => c.count)).sum = (points.length : Int) := by
  subst hcs
  exact ⟨by simp, counts_meanCentroid D k points hlab⟩

/-- With at least one centroid, points whose labels are all outside `[0, k)` are all
relabelled by the assignment pass. -/
theorem relabelled_of_sentinel (sqrt : F → F) (cs : List (Centroid F)) (points : List (Point F))
    (hk : 1 ≤ cs.length)
    (hscan : ∀ p ∈ points, ∃ l, nearestCluster sqrt cs p = some l)
    (hsent : ∀ p ∈ points, p.cluster < 0 ∨ (cs.length : Int) ≤ p.cluster) :
    relabelled sqrt cs points = points.length := by
  unfold relabelled
  rw [List.countP_eq_length]
  intro p hp
  obtain ⟨l, hl⟩ := hscan p hp
  have hrange := nearestCluster_range sqrt cs p l hk hl
  rw [relabel_cluster sqrt cs p l hl]
  have hne : p.cluster ≠ l := by
    rcases hsent p hp with h | h
    · omega
    · omega
  simpa using hne

end Loop

/-! ## Evaluation of the run on five identical points -/

section FiveIdentical

variable {F : Type} [LinearOrderedField F]

/-- The seeds `initializeCentroids` draws from five points at `(3,3)` for `k = 2`: the points
at the indices 0 and 2, both `(3,3)`. -/
theorem initializeCentroids_identical (l : Int) :
    initializeCentroids
        (List.replicate 5 ({ values := [3, 3], dimensions := 2, cluster := l } : Point F)) 2 =
      some [{ values := [3, 3], dimensions := 2, count := 0 },
            { values := [3, 3], dimensions := 2, count := 0 }] := by
  simp [initializeCentroids, initializeCentroidsBody, forLoop, copyBody, updateAt,
    List.replicate, Int.tdiv, Int.tmod]

theorem nearestCluster_identical_seeds (sqrt : F → F) (h0 : sqrt 0 = 0) (l : Int) :
    nearestCluster sqrt
      [{ values := [3, 3], dimensions := 2, count := 0 },
       { values := [3, 3], dimensions := 2, count := 0 }]
      ({ values := [3, 3], dimensions := 2, cluster := l } : Point F) = some 0 := by
  simp [nearestCluster, nearestLoop, calculateDistance, forLoop, calculateDistanceBody, h0,
    DBL_MAX_pos]

theorem nearestCluster_identical_later (sqrt : F → F) (h0 : sqrt 0 = 0)
    (hn : ∀ x, 0 ≤ sqrt x) (l : Int) :
    nearestCluster sqrt
      [{ values := [3, 3], dimensions := 2, count := 5 },
       { values := [0, 0], dimensions := 2, count := 0 }]
      ({ values := [3, 3], dimensions := 2, cluster := l } : Point F) = some 0 := by
  simp [nearestCluster, nearestLoop, calculateDistance, forLoop, calculateDistanceBody, h0,
    DBL_MAX_pos, not_lt.mpr (hn _)]

theorem updateCentroids_identical (cs : List (Centroid F)) (hcs : ∀ c ∈ cs, c.HasDim 2)
    (hk : cs.length = 2) :
    updateCentroids
        (List.replicate 5 ({ values := [3, 3], dimensions := 2, cluster := 0 } : Point F)) cs =
      some [{ values := [3, 3], dimensions := 2, count := 5 },
            { values := [0, 0], dimensions := 2, count := 0 }] := by
  rw [updateCentroids_eq 2 _ _ (by simp [Point.HasDim, hk]) hcs, hk]
  simp [meanCentroid, clusterSize, clusterSum, List.range_succ, List.replicate]
  norm_num

theorem kMeansIteration_identical_first (sqrt : F → F) (h0 : sqrt 0 = 0) :
    kMeansIteration sqrt
        (List.replicate 5 ({ values := [3, 3], dimensions := 2, cluster := -1 } : Point F))
        [{ values := [3, 3], dimensions := 2, count := 0 },
         { values := [3, 3], dimensions := 2, count := 0 }] =
      some (List.replicate 5 ({ values := [3, 3], dimensions := 2, cluster := 0 } : Point F),
        [{ values := [3, 3], dimensions := 2, count := 5 },
         { values := [0, 0], dimensions := 2, count := 0 }], 5) := by
  have hupd := updateCentroids_identical
    ([{ values := [3, 3], dimensions := 2, count := 0 },
      { values := [3, 3], dimensions := 2, count := 0 }] : List (Centroid F))
    (by simp [Centroid.HasDim]) rfl
  simp only [List.replicate] at hupd ⊢
  simp [kMeansIteration, assignPointsToClusters, assignLoop,
    nearestCluster_identical_seeds sqrt h0, hupd]

theorem kMeansIteration_identical_second (sqrt : F → F) (h0 : sqrt 0 = 0)
    (hn : ∀ x, 0 ≤ sqrt x) :
    kMeansIteration sqrt
        (List.replicate 5 ({ values := [3, 3], dimensions := 2, cluster := 0 } : Point F))
        [{ values := [3, 3], dimensions := 2, count := 5 },
         { values := [0, 0], dimensions := 2, count := 0 }] =
      some (List.replicate 5 ({ values := [3, 3], dimensions := 2, cluster := 0 } : Point F),
        [{ values := [3, 3], dimensions := 2, count := 5 },
         { values := [0, 0], dimensions := 2, count := 0 }], 0) := by
  have hupd := updateCentroids_identical
    ([{ values := [3, 3], dimensions := 2, count := 5 },
      { values := [0, 0], dimensions := 2, count := 0 }] : List (Centroid F))
    (by simp [Centroid.HasDim]) rfl
  simp only [List.replicate] at hupd ⊢
  simp [kMeansIteration, assignPointsToClusters, assignLoop,
    nearestCluster_identical_later sqrt h0 hn, hupd]

/-- The run on five points at `(3,3)` labelled `-1`, two centroids seeded at `(3,3)` and an
iteration cap of at least 2: two iterations, all points in cluster 0, the empty centroid
zeroed. -/
theorem kMeans_identical (sqrt : F → F) (h0 : sqrt 0 = 0) (hn : ∀ x, 0 ≤ sqrt x)
    (maxIterations : Int) (hm : 2 ≤ maxIterations) :
    kMeans sqrt
        (List.replicate 5 ({ values := [3, 3], dimensions := 2, cluster := -1 } : Point F))
        [{ values := [3, 3], dimensions := 2, count := 0 },
         { values := [3, 3], dimensions := 2, count := 0 }] maxIterations =
      some
        { points := List.replicate 5
            ({ values := [3, 3], dimensions := 2, cluster := 0 } : Point F),
          centroids := [{ values := [3, 3], dimensions := 2, count := 5 },
                        { values := [0, 0], dimensions := 2, count := 0 }],
          iterations := 2, log := [5, 0] } := by
  unfold kMeans
  rw [kMeansLoop, kMeansIteration_identical_first sqrt h0]
  simp only
  rw [if_pos ⟨by norm_num, by omega⟩, kMeansLoop, kMeansIteration_identical_second sqrt h0 hn]
  simp

end FiveIdentical

/-! ## Evaluation on the real line -/

section Line

theorem calculateDistance_line (x a : ℝ) (l c : Int) :
    calculateDistance Real.sqrt { values := [x], dimensions := 1, cluster := l }
      { values := [a], dimensions := 1, count := c } = some |x - a| := by
  simp [calculateDistance, forLoop, calculateDistanceBody, Real.sqrt_mul_self_eq_abs]

/-- The scan of two centroids `a`, `b` on the real line for the point `x`. -/
theorem nearestCluster_line (x a b : ℝ) (l ca cb : Int) (h : |x - a| < DBL_MAX) :
    nearestCluster Real.sqrt
      [{ values := [a], dimensions := 1, count := ca },
       { values := [b], dimensions := 1, count := cb }]
      { values := [x], dimensions := 1, cluster := l } =
      some (if |x - b| < |x - a| then 1 else 0) := by
  simp only [nearestCluster, nearestLoop, calculateDistance_line, if_pos h]
  by_cases hlt : |x - b| < |x - a|
  · simp [hlt]
  · simp [hlt]

end Line

/-! ## The distance in closed form -/

section Distance

variable {F : Type} [LinearOrderedField F]

/-- The sum the loop of `calculateDistance` accumulates: after `n ≤ D` rounds it is the sum
of the squared coordinate differences over `i < n`. -/
theorem calculateDistance_loop (D : Nat) (p : Point F) (c : Centroid F)
    (hp : p.values.length = D) (hc : c.values.length = D) (n : Nat) (hn : n ≤ D) :
    forLoop (calculateDistanceBody p c) 0 n =
      some (∑ i in Finset.range n, (p.values.getD i 0 - c.values.getD i 0) ^ 2) := by
  induction n with
  | zero => simp [forLoop]
  | succ m ih =>
    have hm : m < D := hn
    have h1 : m < p.values.length := hp ▸ hm
    have h2 : m < c.values.length := hc ▸ hm
    rw [forLoop_succ _ _ _ _ (ih (Nat.le_of_lt hm)), Finset.sum_range_succ]
    simp [calculateDistanceBody, List.getElem?_eq_getElem h1, List.getElem?_eq_getElem h2,
      List.getD_eq_getElem _ _ h1, List.getD_eq_getElem _ _ h2, sq]

/-- Closed form of `calculateDistance` on a point and a centroid of dimension `D`. -/
theorem calculateDistance_eq (sqrt : F → F) (D : Nat) (p : Point F) (c : Centroid F)
    (hp : p.HasDim D) (hc : c.HasDim D) :
    calculateDistance sqrt p c =
      some (sqrt (∑ i in Finset.range D, (p.values.getD i 0 - c.values.getD i 0) ^ 2)) := by
  unfold calculateDistance
  rw [hp.2, Int.toNat_ofNat, calculateDistance_loop D p c hp.1 hc.1 D (le_refl D)]

/-- A sum of squared coordinate differences is zero exactly when every difference is. -/
theorem sum_sq_eq_zero_iff (D : Nat) (xs ys : List F) :
    (∑ i in Finset.range D, (xs.getD i 0 - ys.getD i 0) ^ 2) = 0 ↔
      ∀ i : Nat, i < D → xs.getD i 0 = ys.getD i 0 := by
  rw [Finset.sum_eq_zero_iff_of_nonneg (fun _ _ => sq_nonneg _)]
  constructor
  · intro h i hi
    exact sub_eq_zero.mp (pow_eq_zero_iff (by norm_num) |>.mp (h i (Finset.mem_range.mpr hi)))
  · intro h i hi
    rw [h i (Finset.mem_range.mp hi)]
    simp

theorem sum_sq_nonneg (D : Nat) (xs ys : List F) :
    0 ≤ ∑ i in Finset.range D, (xs.getD i 0 - ys.getD i 0) ^ 2 :=
  Finset.sum_nonneg (fun _ _ => sq_nonneg _)

end Distance

/-! ## Evaluation of the run on the points `0, 1, 10, 11` -/

section FourPoints

/-- On the real line, with centroids `a < b`, a point at or left of the midpoint goes to
cluster 0. -/
theorem nearestCluster_line_left (x a b : ℝ) (l ca cb : Int) (hab : a < b)
    (hx : x ≤ (a + b) / 2) (h : |x - a| < DBL_MAX) :
    nearestCluster Real.sqrt
      [{ values := [a], dimensions := 1, count := ca },
       { values := [b], dimensions := 1, count := cb }]
      { values := [x], dimensions := 1, cluster := l } = some 0 := by
  rw [nearestCluster_line x a b l ca cb h]
  have hle : |x - a| ≤ |x - b| := by
    apply sq_le_sq.mp
    nlinarith
  rw [if_neg (not_lt.mpr hle)]

/-- On the real line, with centroids `a < b`, a point right of the midpoint goes to
cluster 1. -/
theorem nearestCluster_line_right (x a b : ℝ) (l ca cb : Int) (hab : a < b)
    (hx : (a + b) / 2 < x) (h : |x - a| < DBL_MAX) :
    nearestCluster Real.sqrt
      [{ values := [a], dimensions := 1, count := ca },
       { values := [b], dimensions := 1, count := cb }]
      { values := [x], dimensions := 1, cluster := l } = some 1 := by
  rw [nearestCluster_line x a b l ca cb h]
  have hlt : |x - b| < |x - a| := by
    apply sq_lt_sq.mp
    nlinarith
  rw [if_pos hlt]

theorem updateCentroids_four (cs : List (Centroid ℝ)) (hcs : ∀ c ∈ cs, c.HasDim 1)
    (hk : cs.length = 2) :
    updateCentroids
        ([{ values := [0], dimensions := 1, cluster := 0 },
          { values := [1], dimensions := 1, cluster := 0 },
          { values := [10], dimensions := 1, cluster := 1 },
          { values := [11], dimensions := 1, cluster := 1 }] : List (Point ℝ)) cs =
      some [{ values := [1 / 2], dimensions := 1, count := 2 },
            { values := [21 / 2], dimensions := 1, count := 2 }] := by
  rw [updateCentroids_eq 1 _ _ (by simp [Point.HasDim, hk]) hcs, hk]
  simp [meanCentroid, clusterSize, clusterSum, List.range_succ]
  norm_num

theorem kMeansIteration_four_first :
    kMeansIteration Real.sqrt
        [{ values := [0], dimensions := 1, cluster := -1 },
         { values := [1], dimensions := 1, cluster := -1 },
         { values := [10], dimensions := 1, cluster := -1 },
         { values := [11], dimensions := 1, cluster := -1 }]
        [{ values := [0], dimensions := 1, count := 0 },
         { values := [10], dimensions := 1, count := 0 }] =
      some ([{ values := [0], dimensions := 1, cluster := 0 },
             { values := [1], dimensions := 1, cluster := 0 },
             { values := [10], dimensions := 1, cluster := 1 },
             { values := [11], dimensions := 1, cluster := 1 }],
        [{ values := [1 / 2], dimensions := 1, count := 2 },
         { values := [21 / 2], dimensions := 1, count := 2 }], 4) := by
  have h0 : nearestCluster Real.sqrt
      [{ values := [0], dimensions := 1, count := 0 },
       { values := [10], dimensions := 1, count := 0 }]
      { values := [0], dimensions := 1, cluster := -1 } = some 0 :=
    nearestCluster_line_left _ _ _ _ _ _ (by norm_num) (by norm_num)
      (by norm_num [DBL_MAX, abs_lt])
  have h1 : nearestCluster Real.sqrt
      [{ values := [0], dimensions := 1, count := 0 },
       { values := [10], dimensions := 1, count := 0 }]
      { values := [1], dimensions := 1, cluster := -1 } = some 0 :=
    nearestCluster_line_left _ _ _ _ _ _ (by norm_num) (by norm_num)
      (by norm_num [DBL_MAX, abs_lt])
  have h10 : nearestCluster Real.sqrt
      [{ values := [0], dimensions := 1, count := 0 },
       { values := [10], dimensions := 1, count := 0 }]
      { values := [10], dimensions := 1, cluster := -1 } = some 1 :=
    nearestCluster_line_right _ _ _ _ _ _ (by norm_num) (by norm_num)
      (by norm_num [DBL_MAX, abs_lt])
  have h11 : nearestCluster Real.sqrt
      [{ values := [0], dimensions := 1, count := 0 },
       { values := [10], dimensions := 1, count := 0 }]
      { values := [11], dimensions := 1, cluster := -1 } = some 1 :=
    nearestCluster_line_right _ _ _ _ _ _ (by norm_num) (by norm_num)
      (by norm_num [DBL_MAX, abs_lt])
  have hupd := updateCentroids_four
    [{ values := [0], dimensions := 1, count := 0 },
     { values := [10], dimensions := 1, count := 0 }] (by simp [Centroid.HasDim]) rfl
  simp [kMeansIteration, assignPointsToClusters, assignLoop, h0, h1, h10, h11, hupd]

theorem kMeansIteration_four_second :
    kMeansIteration Real.sqrt
        [{ values := [0], dimensions := 1, cluster := 0 },
         { values := [1], dimensions := 1, cluster := 0 },
         { values := [10], dimensions := 1, cluster := 1 },
         { values := [11], dimensions := 1, cluster := 1 }]
        [{ values := [1 / 2], dimensions := 1, count := 2 },
         { values := [21 / 2], dimensions := 1, count := 2 }] =
      some ([{ values := [0], dimensions := 1, cluster := 0 },
             { values := [1], dimensions := 1, cluster := 0 },
             { values := [10], dimensions := 1, cluster := 1 },
             { values := [11], dimensions := 1, cluster := 1 }],
        [{ values := [1 / 2], dimensions := 1, count := 2 },
         { values := [21 / 2], dimensions := 1, count := 2 }], 0) := by
  have h0 : nearestCluster Real.sqrt
      [{ values := [1 / 2], dimensions := 1, count := 2 },
       { values := [21 / 2], dimensions := 1, count := 2 }]
      { values := [0], dimensions := 1, cluster := 0 } = some 0 :=
    nearestCluster_line_left _ _ _ _ _ _ (by norm_num) (by norm_num)
      (by norm_num [DBL_MAX, abs_lt])
  have h1 : nearestCluster Real.sqrt
      [{ values := [1 / 2], dimensions := 1, count := 2 },
       { values := [21 / 2], dimensions := 1, count := 2 }]
      { values := [1], dimensions := 1, cluster := 0 } = some 0 :=
    nearestCluster_line_left _ _ _ _ _ _ (by norm_num) (by norm_num)
      (by norm_num [DBL_MAX, abs_lt])
  have h10 : nearestCluster Real.sqrt
      [{ values := [1 / 2], dimensions := 1, count := 2 },
       { values := [21 / 2], dimensions := 1, count := 2 }]
      { values := [10], dimensions := 1, cluster := 1 } = some 1 :=
    nearestCluster_line_right _ _ _ _ _ _ (by norm_num) (by norm_num)
      (by norm_num [DBL_MAX, abs_lt])
  have h11 : nearestCluster Real.sqrt
      [{ values := [1 / 2], dimensions := 1, count := 2 },
       { values := [21 / 2], dimensions := 1, count := 2 }]
      { values := [11], dimensions := 1, cluster := 1 } = some 1 :=
    nearestCluster_line_right _ _ _ _ _ _ (by norm_num) (by norm_num)
      (by norm_num [DBL_MAX, abs_lt])
  have hupd := updateCentroids_four
    [{ values := [1 / 2], dimensions := 1, count := 2 },
     { values := [21 / 2], dimensions := 1, count := 2 }] (by simp [Centroid.HasDim]) rfl
  simp only [kMeansIteration, assignPointsToClusters, assignLoop, h0, h1, h10, h11]
  simp only [ne_eq, not_true_eq_false, if_false, hupd]

end FourPoints

/-! ## The seeding of the centroids -/

section Seeds

variable {F : Type} [LinearOrderedField F]

/-- The copy loop of `initializeCentroids` fills the fresh buffer with the point's values. -/
theorem copyLoop_eq (p : Point F) (h : (p.values.length : Int) = p.dimensions) :
    forLoop (copyBody p) (List.replicate p.dimensions.toNat 0) p.dimensions.toNat =
      some p.values := by
  have hdim : p.dimensions.toNat = p.values.length := by omega
  rw [hdim]
  have hloop := forLoop_rewritten (copyBody p) (fun j _ => p.values.getD j 0)
    (List.replicate p.values.length 0) p.values.length (by simp)
    (fun j s hj _ => by
      simp [copyBody, List.getElem?_eq_getElem hj, List.getD_eq_getElem _ _ hj])
  rw [hloop]
  congr 1
  apply List.ext_getElem?
  intro j
  rw [rewritten_getElem?, List.getElem?_replicate]
  by_cases hj : j < p.values.length
  · simp [hj, List.getElem?_eq_getElem hj, List.getD_eq_getElem _ _ hj]
  · simp [hj, List.getElem?_eq_none (Nat.le_of_not_lt hj)]

theorem seedIndex_lt (numPoints k i : Nat) (hN : 1 ≤ numPoints) :
    seedIndex numPoints k i < numPoints :=
  Nat.mod_lt _ hN

/-- One round of the loop of `initializeCentroids` appends the seed of the point at
`seedIndex`. -/
theorem initializeCentroidsBody_eq (points : List (Point F)) (k i : Nat)
    (cs : List (Centroid F)) (hN : 1 ≤ points.length)
    (hwf : ∀ p ∈ points, (p.values.length : Int) = p.dimensions) :
    ∃ p, points[seedIndex points.length k i]? = some p ∧
      initializeCentroidsBody points
          (if Int.tdiv (points.length : Int) (k : Int) = 0 then 1
           else Int.tdiv (points.length : Int) (k : Int)) i cs =
        some (cs ++ [seedOf p]) := by
  have hstep : (if Int.tdiv (points.length : Int) (k : Int) = 0 then (1 : Int)
      else Int.tdiv (points.length : Int) (k : Int)) =
      ((if points.length / k = 0 then 1 else points.length / k : Nat) : Int) := by
    rw [Int.tdiv_eq_ediv (by omega) (by omega)]
    by_cases hz : points.length / k = 0
    · have hz' : (points.length : Int) / (k : Int) = 0 := by exact_mod_cast hz
      simp [hz, hz']
    · have hz' : ¬ (points.length : Int) / (k : Int) = 0 := by exact_mod_cast hz
      simp [hz, hz']
  have hidx : Int.tmod ((i : Int) *
      ((if points.length / k = 0 then 1 else points.length / k : Nat) : Int))
      (points.length : Int) = ((seedIndex points.length k i : Nat) : Int) := by
    rw [Int.tmod_eq_emod (by positivity) (by omega)]
    unfold seedIndex
    push_cast
    rfl
  have hlt := seedIndex_lt points.length k i hN
  refine ⟨points[seedIndex points.length k i], List.getElem?_eq_getElem hlt, ?_⟩
  unfold initializeCentroidsBody
  rw [if_neg (by omega), hstep]
  simp only [hidx]
  rw [if_neg (by omega), Int.toNat_ofNat, List.getElem?_eq_getElem hlt]
  simp only [copyLoop_eq _ (hwf _ (List.getElem_mem hlt)), seedOf]

/-- Closed form of `initializeCentroids` for at least one point and `k ≥ 1`: `k` centroids,
the one at index `i` the seed of the point at `seedIndex`. -/
theorem initializeCentroids_spec (points : List (Point F)) (k : Nat)
    (hN : 1 ≤ points.length) (hk : 1 ≤ k)
    (hwf : ∀ p ∈ points, (p.values.length : Int) = p.dimensions) :
    ∃ cs : List (Centroid F), initializeCentroids points (k : Int) = some cs ∧
      cs.length = k ∧
      ∀ i : Nat, i < k →
        ∃ p, points[seedIndex points.length k i]? = some p ∧ cs[i]? = some (seedOf p) := by
  unfold initializeCentroids
  rw [if_neg (by omega), Int.toNat_ofNat]
  exact forLoop_invariant _ []
    (fun n cs => cs.length = n ∧ ∀ i : Nat, i < n →
      ∃ p, points[seedIndex points.length k i]? = some p ∧ cs[i]? = some (seedOf p))
    k ⟨rfl, fun i hi => absurd hi (Nat.not_lt_zero i)⟩
    (fun n cs _ hinv => by
      obtain ⟨hlen, hall⟩ := hinv
      obtain ⟨p, hp, hbody⟩ := initializeCentroidsBody_eq points k n cs hN hwf
      refine ⟨_, hbody, by simp [hlen], ?_⟩
      intro i hi
      rcases Nat.eq_or_lt_of_le (Nat.le_of_lt_succ hi) with heq | hlt
      · subst heq
        exact ⟨p, hp, by rw [← hlen, List.getElem?_concat_length]⟩
      · obtain ⟨q, hq, hcs⟩ := hall i hlt
        exact ⟨q, hq, by rw [List.getElem?_append_left (by omega), hcs]⟩)

/-- For `1 ≤ k ≤ N` the seed indices do not wrap around: index `i < k` is `i * (N / k)`. -/
theorem seedIndex_eq_mul (N k i : Nat) (hk : 1 ≤ k) (hkN : k ≤ N) (hi : i < k) :
    seedIndex N k i = i * (N / k) := by
  have hstep : 1 ≤ N / k := (Nat.one_le_div_iff (by omega)).mpr hkN
  have hle : (i + 1) * (N / k) ≤ N :=
    le_trans (Nat.mul_le_mul_right _ hi) (Nat.mul_div_le N k)
  have hlt : i * (N / k) < N := by
    have : i * (N / k) + N / k ≤ N := by rw [← Nat.succ_mul]; exact hle
    omega
  unfold seedIndex
  rw [if_neg (by omega), Nat.mod_eq_of_lt hlt]

/-- For `k > N` every seed index is `i % N`. -/
theorem seedIndex_eq_mod (N k i : Nat) (hkN : N < k) : seedIndex N k i = i % N := by
  unfold seedIndex
  rw [if_pos (Nat.div_eq_of_lt hkN), Nat.mul_one]

end Seeds

/-! ## Frame properties and the dependence of `updateCentroids` on its input -/

section Frames

variable {F : Type} [LinearOrderedField F]

/-- An iteration that returns is an assignment pass followed by a centroid update on the
same centroids. -/
theorem kMeansIteration_some (sqrt : F → F) (points points' : List (Point F))
    (cs cs' : List (Centroid F)) (changes : Nat)
    (h : kMeansIteration sqrt points cs = some (points', cs', changes)) :
    assignPointsToClusters sqrt points cs = some (points', changes) ∧
    updateCentroids points' cs = some cs' := by
  unfold kMeansIteration at h
  cases ha : assignPointsToClusters sqrt points cs with
  | none => simp [ha] at h
  | some r =>
    obtain ⟨p1, n1⟩ := r
    simp only [ha] at h
    cases hu : updateCentroids p1 cs with
    | none => simp [hu] at h
    | some c1 =>
      simp only [hu, Option.some.injEq, Prod.mk.injEq] at h
      obtain ⟨h1, h2, h3⟩ := h
      subst h1 h2 h3
      exact ⟨rfl, hu⟩

theorem map_values_relabel (sqrt : F → F) (cs : List (Centroid F)) (points : List (Point F)) :
    (points.map (relabel sqrt cs)).map (fun p => p.values) = points.map (fun p => p.values) := by
  rw [List.map_map]
  apply List.map_congr_left
  intro p _
  exact relabel_values sqrt cs p

theorem map_dimensions_relabel (sqrt : F → F) (cs : List (Centroid F))
    (points : List (Point F)) :
    (points.map (relabel sqrt cs)).map (fun p => p.dimensions) =
      points.map (fun p => p.dimensions) := by
  rw [List.map_map]
  apply List.map_congr_left
  intro p _
  exact relabel_dimensions sqrt cs p

/-- Every run of the loop that returns, on any input, leaves the values and the dimensions
of the points as they were. -/
theorem kMeansLoop_frame (sqrt : F → F) (maxIterations : Int) :
    ∀ (points : List (Point F)) (cs : List (Centroid F)) (iterations : Int) (log : List Nat)
      (run : Run F),
      kMeansLoop sqrt maxIterations points cs iterations log = some run →
      run.points.map (fun p => p.values) = points.map (fun p => p.values) ∧
      run.points.map (fun p => p.dimensions) = points.map (fun p => p.dimensions) := by
  refine kMeansLoop.induct sqrt maxIterations
    (fun points cs iterations log => ∀ run : Run F,
      kMeansLoop sqrt maxIterations points cs iterations log = some run →
      run.points.map (fun p => p.values) = points.map (fun p => p.values) ∧
      run.points.map (fun p => p.dimensions) = points.map (fun p => p.dimensions))
    ?_ ?_ ?_
  · intro points cs iterations log hnone run hrun
    rw [kMeansLoop, hnone] at hrun
    simp at hrun
  · intro points cs iterations log points' cs' changes hiter hcont ih run hrun
    rw [kMeansLoop, hiter] at hrun
    simp only at hrun
    rw [if_pos hcont] at hrun
    obtain ⟨hv, hd⟩ := ih run hrun
    have hassign := (kMeansIteration_some sqrt points points' cs cs' changes hiter).1
    have hr := assignPointsToClusters_of_some sqrt points cs (points', changes) hassign
    simp only [Prod.mk.injEq] at hr
    rw [hv, hd, hr.1]
    exact ⟨map_values_relabel sqrt cs points, map_dimensions_relabel sqrt cs points⟩
  · intro points cs iterations log points' cs' changes hiter hstop run hrun
    rw [kMeansLoop, hiter] at hrun
    simp only at hrun
    rw [if_neg hstop] at hrun
    simp only [Option.some.injEq] at hrun
    subst hrun
    have hassign := (kMeansIteration_some sqrt points points' cs cs' changes hiter).1
    have hr := assignPointsToClusters_of_some sqrt points cs (points', changes) hassign
    simp only [Prod.mk.injEq] at hr
    simp only [hr.1]
    exact ⟨map_values_relabel sqrt cs points, map_dimensions_relabel sqrt cs points⟩

/-- The reset loop forgets the values and the count of a centroid whose buffer has
`dimensions` slots. -/
theorem resetCentroid_congr (c d : Centroid F)
    (hc : (c.values.length : Int) = c.dimensions) (hd : (d.values.length : Int) = d.dimensions)
    (h : c.dimensions = d.dimensions) : resetCentroid c = resetCentroid d := by
  have hlen : d.values.length = c.values.length := by omega
  rw [resetCentroid_eq c.values.length c ⟨rfl, hc.symm⟩,
    resetCentroid_eq c.values.length d ⟨hlen, by rw [← h]; exact hc.symm⟩]

theorem resetCentroids_congr :
    ∀ (cs ds : List (Centroid F)),
      (∀ c ∈ cs, (c.values.length : Int) = c.dimensions) →
      (∀ d ∈ ds, (d.values.length : Int) = d.dimensions) →
      cs.map (fun c => c.dimensions) = ds.map (fun c => c.dimensions) →
      resetCentroids cs = resetCentroids ds := by
  intro cs
  induction cs with
  | nil =>
    intro ds _ _ h
    cases ds with
    | nil => rfl
    | cons d ds => simp at h
  | cons c cs ih =>
    intro ds hc hd h
    cases ds with
    | nil => simp at h
    | cons d ds =>
      simp only [List.map_cons, List.cons.injEq] at h
      have h1 := resetCentroid_congr c d (hc c (List.mem_cons_self c cs))
        (hd d (List.mem_cons_self d ds)) h.1
      have h2 := ih ds (fun x hx => hc x (List.mem_cons_of_mem c hx))
        (fun x hx => hd x (List.mem_cons_of_mem d hx)) h.2
      simp only [resetCentroids, h1, h2]

/-- The centroid computed for a cluster without points: all zeros, count 0. -/
theorem meanCentroid_empty (D : Nat) (points : List (Point F)) (i : Nat)
    (h : clusterSize points i = 0) :
    meanCentroid D points i =
      { values := List.replicate D 0, dimensions := (D : Int), count := 0 } := by
  apply Centroid.ext_fields
  · apply List.ext_getElem?
    intro j
    simp only [meanCentroid, h, lt_self_iff_false, if_false, List.getElem?_map,
      List.getElem?_replicate]
    by_cases hj : j < D
    · simp [hj, List.getElem?_range hj]
    · simp [hj, List.getElem?_eq_none (show (List.range D).length ≤ j by simp; omega)]
  · rfl
  · simp [meanCentroid, h]

end Frames

/-! ## As many centroids as points, each seeded at its own point -/

section Own

variable {F : Type} [LinearOrderedField F]

end Own

/-! ## The scan over an arbitrary arithmetic -/

section MachineScan

variable {V : Type}

/-- The distance reads only the `values` and `dimensions` of the point. -/
theorem machine_calculateDistance_congr (A : Arith V) (p q : Point V) (c : Centroid V)
    (hv : p.values = q.values) (hd : p.dimensions = q.dimensions) :
    Machine.calculateDistance A p c = Machine.calculateDistance A q c := by
  have hbody : Machine.calculateDistanceBody A p c = Machine.calculateDistanceBody A q c := by
    funext i sum
    simp [Machine.calculateDistanceBody, hv]
  simp [Machine.calculateDistance, hbody, hd]

/-- On a point and a centroid of the same dimension every read is in range. -/
theorem machine_calculateDistance_isSome (A : Arith V) (D : Nat) (p : Point V)
    (c : Centroid V) (hp : p.values.length = D ∧ p.dimensions = (D : Int))
    (hc : c.values.length = D ∧ c.dimensions = (D : Int)) :
    ∃ d, Machine.calculateDistance A p c = some d := by
  obtain ⟨hpl, hpd⟩ := hp
  obtain ⟨hcl, _⟩ := hc
  obtain ⟨s, hs, _⟩ := forLoop_invariant (Machine.calculateDistanceBody A p c) A.zero
    (fun _ _ => True) D trivial
    (fun i s hi _ => by
      have h1 : i < p.values.length := hpl ▸ hi
      have h2 : i < c.values.length := hcl ▸ hi
      exact ⟨A.add s (A.mul (A.sub p.values[i] c.values[i]) (A.sub p.values[i] c.values[i])),
        by simp [Machine.calculateDistanceBody, List.getElem?_eq_getElem h1,
          List.getElem?_eq_getElem h2], trivial⟩)
  exact ⟨A.sqrt s, by simp [Machine.calculateDistance, hpd, hs]⟩

theorem machine_nearestLoop_isSome (A : Arith V) (p : Point V) :
    ∀ (cs : List (Centroid V)) (j : Nat) (best : V × Int),
      (∀ c ∈ cs, ∃ d, Machine.calculateDistance A p c = some d) →
      ∃ r, Machine.nearestLoop A p cs j best = some r := by
  intro cs
  induction cs with
  | nil => intro j best _; exact ⟨best, rfl⟩
  | cons c cs ih =>
    intro j best h
    obtain ⟨m, b⟩ := best
    obtain ⟨d, hd⟩ := h c (List.mem_cons_self c cs)
    have hrest : ∀ x ∈ cs, ∃ d, Machine.calculateDistance A p x = some d :=
      fun x hx => h x (List.mem_cons_of_mem c hx)
    simp only [Machine.nearestLoop, hd]
    by_cases hlt : A.lt d m = true
    · rw [if_pos hlt]
      exact ih (j + 1) (d, (j : Int)) hrest
    · rw [if_neg hlt]
      exact ih (j + 1) (m, b) hrest

/-- What the scan of the centroids returns when neither the start bound nor a distance is a
NaN: a lower bound of all the distances and of the bound it started from; either the start
pair, never improved on, or the first centroid (in scan order) at the least distance, that
distance being below the start bound. -/
theorem machine_nearestLoop_spec (A : Arith V) (hA : A.Ordered) (p : Point V) :
    ∀ (cs : List (Centroid V)) (j : Nat) (m : V) (b : Int) (r : V × Int),
      A.le m m = true →
      (∀ c ∈ cs, ∀ d, Machine.calculateDistance A p c = some d → A.le d d = true) →
      Machine.nearestLoop A p cs j (m, b) = some r →
      (∀ (t : Nat) (c : Centroid V), cs[t]? = some c →
        ∃ d, Machine.calculateDistance A p c = some d ∧ A.le r.1 d = true) ∧
      A.le r.1 m = true ∧
      (r = (m, b) ∨
        ∃ (t : Nat) (c : Centroid V), cs[t]? = some c ∧ r.2 = ((j + t : Nat) : Int) ∧
          Machine.calculateDistance A p c = some r.1 ∧ A.lt r.1 m = true ∧
          ∀ (t' : Nat) (c' : Centroid V), t' < t → cs[t']? = some c' →
            ∃ d, Machine.calculateDistance A p c' = some d ∧ A.lt r.1 d = true) := by
  intro cs
  induction cs with
  | nil =>
    intro j m b r hm _ h
    simp only [Machine.nearestLoop, Option.some.injEq] at h
    subst h
    exact ⟨fun t c hc => by simp at hc, hm, Or.inl rfl⟩
  | cons c cs ih =>
    intro j m b r hm hnum h
    have hrest : ∀ x ∈ cs, ∀ d, Machine.calculateDistance A p x = some d → A.le d d = true :=
      fun x hx => hnum x (List.mem_cons_of_mem c hx)
    cases hd : Machine.calculateDistance A p c with
    | none => simp [Machine.nearestLoop, hd] at h
    | some d =>
      have hdd : A.le d d = true := hnum c (List.mem_cons_self c cs) d hd
      simp only [Machine.nearestLoop, hd] at h
      by_cases hlt : A.lt d m = true
      · rw [if_pos hlt] at h
        obtain ⟨hall, hle, hcase⟩ := ih (j + 1) d (j : Int) r hdd hrest h
        refine ⟨?_, hA.le_trans _ _ _ hle (hA.le_of_lt _ _ hlt), Or.inr ?_⟩
        · intro t x hx
          cases t with
          | zero =>
            simp only [List.getElem?_cons_zero, Option.some.injEq] at hx
            subst hx
            exact ⟨d, hd, hle⟩
          | succ t => exact hall t x (by simpa using hx)
        · rcases hcase with heq | ⟨t, x, hx, hidx, hdist, hltd, hfirst⟩
          · refine ⟨0, c, by simp, by simp [heq], by simp [heq, hd], by simp [heq, hlt], ?_⟩
            intro t' c' ht'
            omega
          · refine ⟨t + 1, x, by simpa using hx, ?_, hdist,
              hA.lt_of_lt_of_le _ _ _ hltd (hA.le_of_lt _ _ hlt), ?_⟩
            · rw [hidx]
              congr 1
              omega
            · intro t' c' ht' hc'
              cases t' with
              | zero =>
                simp only [List.getElem?_cons_zero, Option.some.injEq] at hc'
                subst hc'
                exact ⟨d, hd, hltd⟩
              | succ t' => exact hfirst t' c' (by omega) (by simpa using hc')
      · rw [if_neg hlt] at h
        have hmd : A.le m d = true :=
          hA.le_of_not_lt d m hdd hm (by simpa using hlt)
        obtain ⟨hall, hle, hcase⟩ := ih (j + 1) m b r hm hrest h
        refine ⟨?_, hle, ?_⟩
        · intro t x hx
          cases t with
          | zero =>
            simp only [List.getElem?_cons_zero, Option.some.injEq] at hx
            subst hx
            exact ⟨d, hd, hA.le_trans _ _ _ hle hmd⟩
          | succ t => exact hall t x (by simpa using hx)
        · rcases hcase with heq | ⟨t, x, hx, hidx, hdist, hltm, hfirst⟩
          · exact Or.inl heq
          · refine Or.inr ⟨t + 1, x, by simpa using hx, ?_, hdist, hltm, ?_⟩
            · rw [hidx]
              congr 1
              omega
            · intro t' c' ht' hc'
              cases t' with
              | zero =>
                simp only [List.getElem?_cons_zero, Option.some.injEq] at hc'
                subst hc'
                exact ⟨d, hd, hA.lt_of_lt_of_le _ _ _ hltm hmd⟩
              | succ t' => exact hfirst t' c' (by omega) (by simpa using hc')

/-- The label the scan returns, when no distance of the point is a NaN and some centroid is
closer than `DBL_MAX`: the lowest index among the centroids at the least distance. -/
theorem machine_nearestCluster_spec (A : Arith V) (hA : A.Ordered) (cs : List (Centroid V))
    (p : Point V) (l : Int)
    (h : Machine.nearestCluster A cs p = some l)
    (hnum : ∀ c ∈ cs, ∀ d, Machine.calculateDistance A p c = some d → A.le d d = true)
    (hbound : ∃ c ∈ cs, ∃ d, Machine.calculateDistance A p c = some d ∧
      A.lt d A.dblMax = true) :
    ∃ (t : Nat) (ht : t < cs.length) (dc : V), l = (t : Int) ∧
      Machine.calculateDistance A p cs[t] = some dc ∧
      ∀ (j : Nat) (hj : j < cs.length), ∃ dj,
        Machine.calculateDistance A p cs[j] = some dj ∧
        A.le dc dj = true ∧ (j < t → A.lt dc dj = true) := by
  unfold Machine.nearestCluster at h
  cases hr : Machine.nearestLoop A p cs 0 (A.dblMax, 0) with
  | none => simp [hr] at h
  | some r =>
    obtain ⟨m', l'⟩ := r
    simp only [hr, Option.some.injEq] at h
    subst h
    obtain ⟨hall, _, hcase⟩ :=
      machine_nearestLoop_spec A hA p cs 0 A.dblMax 0 (m', l') hA.dblMax_le hnum hr
    rcases hcase with heq | ⟨t, c, hc, hidx, hdist, _, hfirst⟩
    · exfalso
      obtain ⟨c, hc, d, hd, hlt⟩ := hbound
      obtain ⟨i, hi, rfl⟩ := List.getElem_of_mem hc
      obtain ⟨d', hd', hle⟩ := hall i cs[i] (List.getElem?_eq_getElem hi)
      rw [hd] at hd'
      simp only [Option.some.injEq] at hd'
      subst hd'
      simp only [Prod.mk.injEq] at heq
      rw [heq.1] at hle
      have := hA.not_le_of_lt _ _ hlt
      rw [hle] at this
      exact Bool.noConfusion this
    · obtain ⟨ht, hct⟩ := List.getElem?_eq_some_iff.mp hc
      subst hct
      refine ⟨t, ht, m', by simpa using hidx, hdist, ?_⟩
      intro j hj
      obtain ⟨dj, hdj, hle⟩ := hall j cs[j] (List.getElem?_eq_getElem hj)
      refine ⟨dj, hdj, hle, ?_⟩
      intro hjt
      obtain ⟨d, hd, hlt⟩ := hfirst j cs[j] hjt (List.getElem?_eq_getElem hj)
      rw [hdj] at hd
      simp only [Option.some.injEq] at hd
      rw [hd]
      exact hlt

/-- Whenever the assignment loop returns, the points it returns are the given ones, each
relabelled with the label its scan returns. -/
theorem machine_assignLoop_spec (A : Arith V) (cs : List (Centroid V)) :
    ∀ (ps : List (Point V)) (n : Nat) (r : List (Point V) × Nat),
      Machine.assignLoop A cs ps n = some r →
      r.1.length = ps.length ∧
      ∀ (i : Nat) (p : Point V), ps[i]? = some p →
        ∃ l, Machine.nearestCluster A cs p = some l ∧
          r.1[i]? = some { p with cluster := l } := by
  intro ps
  induction ps with
  | nil =>
    intro n r h
    simp only [Machine.assignLoop, Option.some.injEq] at h
    subst h
    exact ⟨rfl, fun i p hp => by simp at hp⟩
  | cons q qs ih =>
    intro n r h
    cases hq : Machine.nearestCluster A cs q with
    | none => simp [Machine.assignLoop, hq] at h
    | some l =>
      simp only [Machine.assignLoop, hq] at h
      by_cases hne : q.cluster ≠ l
      · rw [if_pos hne] at h
        cases hrec : Machine.assignLoop A cs qs (n + 1) with
        | none => simp [hrec] at h
        | some r' =>
          obtain ⟨hlen, hall⟩ := ih (n + 1) r' hrec
          simp only [hrec, Option.some.injEq] at h
          subst h
          refine ⟨by simp [hlen], ?_⟩
          intro i p hp
          cases i with
          | zero =>
            simp only [List.getElem?_cons_zero, Option.some.injEq] at hp
            subst hp
            exact ⟨l, hq, by simp⟩
          | succ i =>
            obtain ⟨l', hl', hr'⟩ := hall i p (by simpa using hp)
            exact ⟨l', hl', by simpa using hr'⟩
      · rw [if_neg hne] at h
        have hql : q.cluster = l := not_not.mp hne
        cases hrec : Machine.assignLoop A cs qs n with
        | none => simp [hrec] at h
        | some r' =>
          obtain ⟨hlen, hall⟩ := ih n r' hrec
          simp only [hrec, Option.some.injEq] at h
          subst h
          refine ⟨by simp [hlen], ?_⟩
          intro i p hp
          cases i with
          | zero =>
            simp only [List.getElem?_cons_zero, Option.some.injEq] at hp
            subst hp
            exact ⟨l, hq, by simp [← hql]⟩
          | succ i =>
            obtain ⟨l', hl', hr'⟩ := hall i p (by simpa using hp)
            exact ⟨l', hl', by simpa using hr'⟩

/-- The assignment loop returns when the scan returns for every point. -/
theorem machine_assignLoop_isSome (A : Arith V) (cs : List (Centroid V)) :
    ∀ (ps : List (Point V)) (n : Nat),
      (∀ p ∈ ps, ∃ l, Machine.nearestCluster A cs p = some l) →
      ∃ r, Machine.assignLoop A cs ps n = some r := by
  intro ps
  induction ps with
  | nil => intro n _; exact ⟨([], n), rfl⟩
  | cons q qs ih =>
    intro n h
    obtain ⟨l, hq⟩ := h q (List.mem_cons_self q qs)
    have hrest : ∀ p ∈ qs, ∃ l, Machine.nearestCluster A cs p = some l :=
      fun p hp => h p (List.mem_cons_of_mem q hp)
    simp only [Machine.assignLoop, hq]
    by_cases hne : q.cluster ≠ l
    · rw [if_pos hne]
      obtain ⟨r, hr⟩ := ih (n + 1) hrest
      exact ⟨({ q with cluster := l } :: r.1, r.2), by simp [hr]⟩
    · rw [if_neg hne]
      obtain ⟨r, hr⟩ := ih n hrest
      exact ⟨(q :: r.1, r.2), by simp [hr]⟩

/-- On points and centroids of one dimension the assignment pass returns, whatever the
arithmetic. -/
theorem machine_assignPointsToClusters_isSome (A : Arith V) (D : Nat) (points : List (Point V))
    (cs : List (Centroid V))
    (hps : ∀ p ∈ points, p.values.length = D ∧ p.dimensions = (D : Int))
    (hcs : ∀ c ∈ cs, c.values.length = D ∧ c.dimensions = (D : Int)) :
    ∃ r, Machine.assignPointsToClusters A points cs = some r := by
  apply machine_assignLoop_isSome
  intro p hp
  obtain ⟨r, hr⟩ := machine_nearestLoop_isSome A p cs 0 (A.dblMax, 0)
    (fun c hc => machine_calculateDistance_isSome A D p c (hps p hp) (hcs c hc))
  exact ⟨r.2, by simp [Machine.nearestCluster, hr]⟩

end MachineScan

/-! ## Exact arithmetic as an instance -/

section Exact

variable {F : Type} [LinearOrderedField F]

/-- Exact arithmetic obeys the comparison laws. -/
theorem exactArith_ordered (sqrt : F → F) : (exactArith sqrt).Ordered where
  le_of_lt := fun a b h => by
    simp only [exactArith, decide_eq_true_eq] at h ⊢
    exact le_of_lt h
  le_trans := fun a b c h1 h2 => by
    simp only [exactArith, decide_eq_true_eq] at h1 h2 ⊢
    exact le_trans h1 h2
  lt_of_lt_of_le := fun a b c h1 h2 => by
    simp only [exactArith, decide_eq_true_eq] at h1 h2 ⊢
    exact lt_of_lt_of_le h1 h2
  not_le_of_lt := fun a b h => by
    simp only [exactArith, decide_eq_true_eq, decide_eq_false_iff_not, not_le] at h ⊢
    exact h
  le_of_not_lt := fun a b _ _ h => by
    simp only [exactArith, decide_eq_true_eq, decide_eq_false_iff_not, not_lt] at h ⊢
    exact h
  dblMax_le := by simp [exactArith]

/-- The distance of the exact engine is the distance over `exactArith`. -/
theorem machine_calculateDistance_exact (sqrt : F → F) (p : Point F) (c : Centroid F) :
    Machine.calculateDistance (exactArith sqrt) p c = calculateDistance sqrt p c := by
  have hbody : Machine.calculateDistanceBody (exactArith sqrt) p c =
      calculateDistanceBody p c := by
    funext i sum
    rfl
  simp only [Machine.calculateDistance, calculateDistance, hbody]
  rfl

theorem machine_nearestLoop_exact (sqrt : F → F) (p : Point F) :
    ∀ (cs : List (Centroid F)) (j : Nat) (best : F × Int),
      Machine.nearestLoop (exactArith sqrt) p cs j best = nearestLoop sqrt p cs j best := by
  intro cs
  induction cs with
  | nil => intro j best; rfl
  | cons c cs ih =>
    intro j best
    obtain ⟨m, b⟩ := best
    simp only [Machine.nearestLoop, nearestLoop, machine_calculateDistance_exact, ih]
    cases calculateDistance sqrt p c with
    | none => rfl
    | some d => simp [exactArith]

theorem machine_nearestCluster_exact (sqrt : F → F) (cs : List (Centroid F)) (p : Point F) :
    Machine.nearestCluster (exactArith sqrt) cs p = nearestCluster sqrt cs p := by
  simp only [Machine.nearestCluster, nearestCluster, machine_nearestLoop_exact]
  rfl

theorem machine_assignLoop_exact (sqrt : F → F) (cs : List (Centroid F)) :
    ∀ (ps : List (Point F)) (n : Nat),
      Machine.assignLoop (exactArith sqrt) cs ps n = assignLoop sqrt cs ps n := by
  intro ps
  induction ps with
  | nil => intro n; rfl
  | cons q qs ih =>
    intro n
    simp only [Machine.assignLoop, assignLoop, machine_nearestCluster_exact, ih]

/-- The assignment pass of the exact engine is the assignment pass over `exactArith`. -/
theorem machine_assignPointsToClusters_exact (sqrt : F → F) (points : List (Point F))
    (cs : List (Centroid F)) :
    Machine.assignPointsToClusters (exactArith sqrt) points cs =
      assignPointsToClusters sqrt points cs :=
  machine_assignLoop_exact sqrt cs points 0

/-- Nearest-centroid assignment in exact arithmetic: for points and centroids of
one dimension `D`, where every point has at least one centroid at a distance below
`DBL_MAX`, `assignPointsToClusters` returns, and afterwards the cluster `c` of each point is
the index of a centroid with `distance(point, centroid[c]) ≤ distance(point, centroid[j])`
for every `j < k` and `distance(point, centroid[c]) < distance(point, centroid[j])` for
every `j < c`. -/
theorem assign_nearest_lowest_index_exact (sqrt : F → F) (D : Nat) (points : List (Point F))
    (centroids : List (Centroid F))
    (hps : ∀ p ∈ points, p.HasDim D) (hcs : ∀ c ∈ centroids, c.HasDim D)
    (hbound : ∀ p ∈ points, ∃ c ∈ centroids, ∃ d,
      calculateDistance sqrt p c = some d ∧ d < DBL_MAX) :
    ∃ (points' : List (Point F)) (changes : Nat),
      assignPointsToClusters sqrt points centroids = some (points', changes) ∧
      points'.length = points.length ∧
      ∀ (i : Nat) (hi : i < points'.length),
        ∃ (c : Nat) (hc : c < centroids.length) (dc : F),
          points'[i].cluster = (c : Int) ∧
          calculateDistance sqrt points'[i] centroids[c] = some dc ∧
          ∀ (j : Nat) (hj : j < centroids.length),
            ∃ dj, calculateDistance sqrt points'[i] centroids[j] = some dj ∧
              dc ≤ dj ∧ (j < c → dc < dj) := by
  refine ⟨points.map (relabel sqrt centroids), relabelled sqrt centroids points,
    assignPointsToClusters_eq sqrt D points centroids hps hcs, by simp, ?_⟩
  intro i hi
  have hi' : i < points.length := by simpa using hi
  have hmem : points[i] ∈ points := List.getElem_mem hi'
  obtain ⟨r, hr⟩ := nearestLoop_isSome sqrt points[i] centroids 0 (DBL_MAX, 0)
    (fun c hc => calculateDistance_isSome sqrt D points[i] c (hps _ hmem) (hcs c hc))
  have hnear : nearestCluster sqrt centroids points[i] = some r.2 := by
    simp [nearestCluster, hr]
  obtain ⟨t, ht, dc, hl, hdc, hmin⟩ :=
    nearestCluster_spec sqrt centroids points[i] r.2 hnear (hbound _ hmem)
  have hcongr : ∀ c : Centroid F,
      calculateDistance sqrt ((points.map (relabel sqrt centroids))[i]) c =
        calculateDistance sqrt points[i] c := by
    intro c
    rw [List.getElem_map]
    exact calculateDistance_congr sqrt _ _ c (relabel_values sqrt centroids _)
      (relabel_dimensions sqrt centroids _)
  refine ⟨t, ht, dc, ?_, ?_, ?_⟩
  · rw [List.getElem_map, relabel_cluster sqrt centroids _ r.2 hnear, hl]
  · rw [hcongr]
    exact hdc
  · intro j hj
    rw [hcongr]
    exact hmin j hj

end Exact

/-! ## IEEE-754 binary64 as an instance -/

section Binary64

/-- The binary64 comparisons obey the comparison laws. -/
theorem binary64_ordered : binary64.Ordered where
  le_of_lt := fun a b h => by
    cases a <;> cases b <;> simp_all [binary64, Double.lt, Double.le]
    exact le_of_lt h
  le_trans := fun a b c h1 h2 => by
    cases a <;> cases b <;> cases c <;> simp_all [binary64, Double.lt, Double.le]
    exact le_trans h1 h2
  lt_of_lt_of_le := fun a b c h1 h2 => by
    cases a <;> cases b <;> cases c <;> simp_all [binary64, Double.lt, Double.le]
    exact lt_of_lt_of_le h1 h2
  not_le_of_lt := fun a b h => by
    cases a <;> cases b <;> simp_all [binary64, Double.lt, Double.le]
  le_of_not_lt := fun a b ha hb h => by
    cases a <;> cases b <;> simp_all [binary64, Double.lt, Double.le]
  dblMax_le := by simp [binary64, Double.le]

theorem roundDouble_zero : roundDouble 0 = Double.finite 0 := by
  simp [roundDouble]

theorem tiny_pos : 0 < tiny := by
  unfold tiny
  positivity

theorem log_tiny : Int.log 2 tiny = -600 := by
  unfold tiny
  have := @Int.log_zpow ℚ _ _ 2 (by norm_num) (-600)
  simpa using this

theorem roundHalfEven_intCast (z : Int) : roundHalfEven (z : ℚ) = z := by
  simp [roundHalfEven]

theorem roundDouble_neg_tiny : roundDouble (-tiny) = Double.finite (-tiny) := by
  have hpos := tiny_pos
  have hne : -tiny ≠ 0 := neg_ne_zero.mpr (ne_of_gt hpos)
  have hneg : -tiny < 0 := neg_neg_of_pos hpos
  have hquot : tiny / 2 ^ (-652 : Int) = ((2 ^ 52 : Int) : ℚ) := by
    unfold tiny
    rw [← zpow_sub₀ (by norm_num : (2 : ℚ) ≠ 0)]
    norm_num
  have hback : ((2 ^ 52 : Int) : ℚ) * 2 ^ (-652 : Int) = tiny := by
    rw [← hquot]
    field_simp
  have hsmall : ¬ ((2 : ℚ) ^ 1024 ≤ tiny) := by
    have h1 : tiny < 1 := by
      unfold tiny
      exact zpow_lt_one_of_neg₀ (by norm_num) (by norm_num)
    have h2 : (1 : ℚ) ≤ 2 ^ 1024 := one_le_pow₀ (by norm_num)
    intro h
    linarith
  unfold roundDouble
  rw [if_neg hne]
  simp only [abs_neg, abs_of_pos hpos, log_tiny]
  rw [show max (-600 : Int) (-1022) - 52 = -652 by decide, hquot, roundHalfEven_intCast, hback,
    if_neg hsmall, if_pos hneg]

theorem roundHalfEven_small (x : ℚ) (h0 : 0 ≤ x) (h1 : x < 1 / 2) : roundHalfEven x = 0 := by
  have hfloor : ⌊x⌋ = 0 := Int.floor_eq_zero_iff.mpr ⟨h0, by linarith⟩
  unfold roundHalfEven
  rw [hfloor, if_pos (show x - ((0 : Int) : ℚ) < 1 / 2 by simpa using h1)]

/-- Underflow: the exact square `2 ^ (-1200)` of `tiny` is less than half the smallest
positive double `2 ^ (-1074)` and rounds to zero. -/
theorem roundDouble_tiny_sq : roundDouble (tiny * tiny) = Double.finite 0 := by
  have hsq : tiny * tiny = 2 ^ (-1200 : Int) := by
    unfold tiny
    rw [← zpow_add₀ (by norm_num : (2 : ℚ) ≠ 0)]
    norm_num
  have hpos : (0 : ℚ) < 2 ^ (-1200 : Int) := by positivity
  have hlog : Int.log 2 ((2 : ℚ) ^ (-1200 : Int)) = -1200 := by
    have := @Int.log_zpow ℚ _ _ 2 (by norm_num) (-1200)
    simpa using this
  have hquot : (2 : ℚ) ^ (-1200 : Int) / 2 ^ (-1074 : Int) = 2 ^ (-126 : Int) := by
    rw [← zpow_sub₀ (by norm_num : (2 : ℚ) ≠ 0)]
    norm_num
  have hround : roundHalfEven ((2 : ℚ) ^ (-126 : Int)) = 0 := by
    apply roundHalfEven_small
    · positivity
    · have h : (2 : ℚ) ^ (-126 : Int) < 2 ^ (-1 : Int) :=
        zpow_lt_zpow_right₀ (by norm_num) (by norm_num)
      simpa using h
  rw [hsq]
  unfold roundDouble
  rw [if_neg (ne_of_gt hpos)]
  simp only [abs_of_pos hpos, hlog]
  rw [show max (-1200 : Int) (-1022) - 52 = -1074 by decide, hquot, hround]
  simp

theorem binary64_zero_lt_dblMax :
    binary64.lt (Double.finite 0) binary64.dblMax = true := by
  simp only [binary64, Double.lt, decide_eq_true_eq]
  norm_num

/-- The distance in one dimension. -/
theorem binary64_calculateDistance_line (x a : Double) (l c : Int) :
    Machine.calculateDistance binary64 { values := [x], dimensions := 1, cluster := l }
      { values := [a], dimensions := 1, count := c } =
      some (Double.sqrt (Double.add (Double.finite 0)
        (Double.mul (Double.sub x a) (Double.sub x a)))) := by
  simp [Machine.calculateDistance, forLoop, Machine.calculateDistanceBody, binary64]

theorem binary64_sqrt_zero : Double.sqrt (Double.finite 0) = Double.finite 0 := by
  simp [Double.sqrt, roundSqrt]

theorem binary64_sub_self (q : ℚ) :
    Double.sub (Double.finite q) (Double.finite q) = Double.finite 0 := by
  simp only [Double.sub, sub_self, roundDouble_zero]

theorem binary64_sub_zero_tiny :
    Double.sub (Double.finite 0) (Double.finite tiny) = Double.finite (-tiny) := by
  simp only [Double.sub, zero_sub, roundDouble_neg_tiny]

theorem binary64_mul_zero :
    Double.mul (Double.finite 0) (Double.finite 0) = Double.finite 0 := by
  simp only [Double.mul, mul_zero, roundDouble_zero]

theorem binary64_mul_neg_tiny :
    Double.mul (Double.finite (-tiny)) (Double.finite (-tiny)) = Double.finite 0 := by
  simp only [Double.mul, neg_mul_neg, roundDouble_tiny_sq]

theorem binary64_add_zero :
    Double.add (Double.finite 0) (Double.finite 0) = Double.finite 0 := by
  simp only [Double.add, add_zero, roundDouble_zero]

theorem binary64_distance_zero_zero (l c : Int) :
    Machine.calculateDistance binary64
      { values := [Double.finite 0], dimensions := 1, cluster := l }
      { values := [Double.finite 0], dimensions := 1, count := c } =
      some (Double.finite 0) := by
  rw [binary64_calculateDistance_line, binary64_sub_self, binary64_mul_zero,
    binary64_add_zero, binary64_sqrt_zero]

theorem binary64_distance_zero_tiny (l c : Int) :
    Machine.calculateDistance binary64
      { values := [Double.finite 0], dimensions := 1, cluster := l }
      { values := [Double.finite tiny], dimensions := 1, count := c } =
      some (Double.finite 0) := by
  rw [binary64_calculateDistance_line, binary64_sub_zero_tiny, binary64_mul_neg_tiny,
    binary64_add_zero, binary64_sqrt_zero]

theorem binary64_distance_zero_nan (l c : Int) :
    Machine.calculateDistance binary64
      { values := [Double.finite 0], dimensions := 1, cluster := l }
      { values := [Double.nan], dimensions := 1, count := c } =
      some Double.nan := by
  rw [binary64_calculateDistance_line]
  rfl

/-- The scan of two centroids keeps index 0 when the first distance is below `DBL_MAX` and
the second is not below the first. -/
theorem machine_nearestCluster_two {V : Type} (A : Arith V) (p : Point V)
    (c0 c1 : Centroid V) (d0 d1 : V)
    (h0 : Machine.calculateDistance A p c0 = some d0)
    (h1 : Machine.calculateDistance A p c1 = some d1)
    (hlt : A.lt d0 A.dblMax = true) (hnot : A.lt d1 d0 = false) :
    Machine.nearestCluster A [c0, c1] p = some 0 := by
  simp [Machine.nearestCluster, Machine.nearestLoop, h0, h1, hlt, hnot]

/-- The assignment pass on one point labelled `-1` whose scan returns 0. -/
theorem machine_assign_one {V : Type} (A : Arith V) (cs : List (Centroid V))
    (x : List V) (d : Int)
    (hp : Machine.nearestCluster A cs { values := x, dimensions := d, cluster := -1 } =
      some 0) :
    Machine.assignPointsToClusters A [{ values := x, dimensions := d, cluster := -1 }] cs =
      some ([{ values := x, dimensions := d, cluster := 0 }], 1) := by
  simp [Machine.assignPointsToClusters, Machine.assignLoop, hp]

theorem binary64_lt_zero_zero :
    binary64.lt (Double.finite 0) (Double.finite 0) = false := by
  simp [binary64, Double.lt]

/-- The assignment pass on the point `0` with the centroids `0` and NaN. -/
theorem binary64_assign_nan :
    Machine.assignPointsToClusters binary64
        [{ values := [Double.finite 0], dimensions := 1, cluster := -1 }]
        [{ values := [Double.finite 0], dimensions := 1, count := 0 },
         { values := [Double.nan], dimensions := 1, count := 0 }] =
      some ([{ values := [Double.finite 0], dimensions := 1, cluster := 0 }], 1) :=
  machine_assign_one binary64 _ _ _
    (machine_nearestCluster_two binary64 _ _ _ _ _ (binary64_distance_zero_zero _ _)
      (binary64_distance_zero_nan _ _) binary64_zero_lt_dblMax rfl)

theorem binary64_le_zero_zero :
    binary64.le (Double.finite 0) (Double.finite 0) = true := by
  simp [binary64, Double.le]

theorem binary64_le_zero_nan :
    binary64.le (Double.finite 0) Double.nan = false := rfl

end Binary64

/-! ## The claims -/

section Claims

variable {F : Type} [LinearOrderedField F]

/-- C1, as stated, fails in `double` arithmetic when a distance is a NaN: the point `0`
(label `-1`) with the two centroids `0` and NaN (a centroid file may hold the row `nan`,
which `atof` reads as a NaN) has the distance `0`, below `DBL_MAX`, to centroid 0;
`assignPointsToClusters` labels it 0; its distance to centroid 1 is a NaN, and
`distance(point, centroid[0]) <= distance(point, centroid[1])` is false. -/
theorem C1_assign_nearest_lowest_index_counterexample :
    Machine.assignPointsToClusters binary64
        [{ values := [Double.finite 0], dimensions := 1, cluster := -1 }]
        [{ values := [Double.finite 0], dimensions := 1, count := 0 },
         { values := [Double.nan], dimensions := 1, count := 0 }] =
      some ([{ values := [Double.finite 0], dimensions := 1, cluster := 0 }], 1) ∧
    Machine.calculateDistance binary64
        { values := [Double.finite 0], dimensions := 1, cluster := 0 }
        { values := [Double.finite 0], dimensions := 1, count := 0 } =
      some (Double.finite 0) ∧
    binary64.lt (Double.finite 0) binary64.dblMax = true ∧
    Machine.calculateDistance binary64
        { values := [Double.finite 0], dimensions := 1, cluster := 0 }
        { values := [Double.nan], dimensions := 1, count := 0 } =
      some Double.nan ∧
    binary64.le (Double.finite 0) Double.nan = false :=
  ⟨binary64_assign_nan, binary64_distance_zero_zero 0 0, binary64_zero_lt_dblMax,
    binary64_distance_zero_nan 0 0, binary64_le_zero_nan⟩

/-- C1, amended. Nearest-centroid assignment with lowest-index tie-break, in the arithmetic
of `double` (any arithmetic whose comparisons obey the laws `Arith.Ordered`, binary64 with
its rounding, overflow and underflow among them, and exact arithmetic): for points and
centroids of one dimension `D`, where no distance of a point to a centroid is a NaN
(`d <= d` holds) and every point has at least one centroid at a distance below `DBL_MAX`,
`assignPointsToClusters` returns, and afterwards the cluster `c` of each point is the index
of a centroid with `distance(point, centroid[c]) <= distance(point, centroid[j])` for every
`j < k` and `distance(point, centroid[c]) < distance(point, centroid[j])` for every `j < c`,
the distances being the values `calculateDistance` computes. -/
theorem C1_assign_nearest_lowest_index {V : Type} (A : Arith V) (hA : A.Ordered) (D : Nat)
    (points : List (Point V)) (centroids : List (Centroid V))
    (hps : ∀ p ∈ points, p.values.length = D ∧ p.dimensions = (D : Int))
    (hcs : ∀ c ∈ centroids, c.values.length = D ∧ c.dimensions = (D : Int))
    (hnum : ∀ p ∈ points, ∀ c ∈ centroids, ∀ d,
      Machine.calculateDistance A p c = some d → A.le d d = true)
    (hbound : ∀ p ∈ points, ∃ c ∈ centroids, ∃ d,
      Machine.calculateDistance A p c = some d ∧ A.lt d A.dblMax = true) :
    ∃ (points' : List (Point V)) (changes : Nat),
      Machine.assignPointsToClusters A points centroids = some (points', changes) ∧
      points'.length = points.length ∧
      ∀ (i : Nat) (hi : i < points'.length),
        ∃ (c : Nat) (hc : c < centroids.length) (dc : V),
          points'[i].cluster = (c : Int) ∧
          Machine.calculateDistance A points'[i] centroids[c] = some dc ∧
          ∀ (j : Nat) (hj : j < centroids.length),
            ∃ dj, Machine.calculateDistance A points'[i] centroids[j] = some dj ∧
              A.le dc dj = true ∧ (j < c → A.lt dc dj = true) := by
  obtain ⟨r, hr⟩ := machine_assignPointsToClusters_isSome A D points centroids hps hcs
  obtain ⟨hlen, hall⟩ := machine_assignLoop_spec A centroids points 0 r hr
  refine ⟨r.1, r.2, hr, hlen, ?_⟩
  intro i hi
  have hi' : i < points.length := by rw [← hlen]; exact hi
  have hmem : points[i] ∈ points := List.getElem_mem hi'
  obtain ⟨l, hl, hri⟩ := hall i points[i] (List.getElem?_eq_getElem hi')
  have hpi : r.1[i] = { points[i] with cluster := l } := by
    obtain ⟨_, h⟩ := List.getElem?_eq_some_iff.mp hri
    exact h
  obtain ⟨t, ht, dc, hlt, hdc, hmin⟩ :=
    machine_nearestCluster_spec A hA centroids points[i] l hl (hnum _ hmem) (hbound _ hmem)
  have hcongr : ∀ c : Centroid V,
      Machine.calculateDistance A r.1[i] c = Machine.calculateDistance A points[i] c := by
    intro c
    rw [hpi]
    exact machine_calculateDistance_congr A _ _ c rfl rfl
  refine ⟨t, ht, dc, ?_, ?_, ?_⟩
  · rw [hpi]
    exact hlt
  · rw [hcongr]
    exact hdc
  · intro j hj
    rw [hcongr]
    exact hmin j hj

/-- C1 amended, at a concrete input in binary64 arithmetic: the point `0` (label `-1`) with
the centroids `2^-600` and `0`.  The squared difference to the first centroid underflows, so
both computed distances are `0` and the point gets the lowest index, 0. -/
theorem C1_assign_nearest_lowest_index_witness :
    Machine.assignPointsToClusters binary64
        [{ values := [Double.finite 0], dimensions := 1, cluster := -1 }]
        [{ values := [Double.finite tiny], dimensions := 1, count := 0 },
         { values := [Double.finite 0], dimensions := 1, count := 0 }] =
      some ([{ values := [Double.finite 0], dimensions := 1, cluster := 0 }], 1) ∧
    ∃ (points' : List (Point Double)) (changes : Nat),
      Machine.assignPointsToClusters binary64
          [{ values := [Double.finite 0], dimensions := 1, cluster := -1 }]
          [{ values := [Double.finite tiny], dimensions := 1, count := 0 },
           { values := [Double.finite 0], dimensions := 1, count := 0 }] =
        some (points', changes) ∧
      points'.length = 1 ∧
      ∀ (i : Nat) (hi : i < points'.length),
        ∃ (c : Nat) (hc : c < 2) (dc : Double),
          points'[i].cluster = (c : Int) ∧
          Machine.calculateDistance binary64 points'[i]
            ([{ values := [Double.finite tiny], dimensions := 1, count := 0 },
              { values := [Double.finite 0], dimensions := 1, count := 0 }] :
                List (Centroid Double))[c] = some dc ∧
          ∀ (j : Nat) (hj : j < 2),
            ∃ dj, Machine.calculateDistance binary64 points'[i]
              ([{ values := [Double.finite tiny], dimensions := 1, count := 0 },
                { values := [Double.finite 0], dimensions := 1, count := 0 }] :
                  List (Centroid Double))[j] = some dj ∧
              binary64.le dc dj = true ∧ (j < c → binary64.lt dc dj = true) :=
  ⟨machine_assign_one binary64 _ _ _
      (machine_nearestCluster_two binary64 _ _ _ _ _ (binary64_distance_zero_tiny _ _)
        (binary64_distance_zero_zero _ _) binary64_zero_lt_dblMax binary64_lt_zero_zero),
    C1_assign_nearest_lowest_index binary64 binary64_ordered 1
      [{ values := [Double.finite 0], dimensions := 1, cluster := -1 }]
      [{ values := [Double.finite tiny], dimensions := 1, count := 0 },
       { values := [Double.finite 0], dimensions := 1, count := 0 }]
      (by
        intro p hp
        rw [List.mem_singleton] at hp
        subst hp
        exact ⟨rfl, rfl⟩)
      (by
        intro c hc
        simp only [List.mem_cons, List.mem_singleton, List.not_mem_nil, or_false] at hc
        rcases hc with rfl | rfl
        · exact ⟨rfl, rfl⟩
        · exact ⟨rfl, rfl⟩)
      (by
        intro p hp c hc d hd
        rw [List.mem_singleton] at hp
        subst hp
        simp only [List.mem_cons, List.mem_singleton, List.not_mem_nil, or_false] at hc
        rcases hc with rfl | rfl
        · rw [binary64_distance_zero_tiny] at hd
          rw [← Option.some.inj hd]
          exact binary64_le_zero_zero
        · rw [binary64_distance_zero_zero] at hd
          rw [← Option.some.inj hd]
          exact binary64_le_zero_zero)
      (by
        intro p hp
        rw [List.mem_singleton] at hp
        subst hp
        exact ⟨{ values := [Double.finite 0], dimensions := 1, count := 0 },
          List.mem_cons_of_mem _ (List.mem_singleton.mpr rfl), Double.finite 0,
          binary64_distance_zero_zero _ _, binary64_zero_lt_dblMax⟩)⟩

/-- C2. The integer `assignPointsToClusters` returns is the number of points whose cluster
after the call differs from its cluster before the call: on points and centroids of one
dimension the call returns, and whenever it returns (whatever the prior labels and the
centroids) the points are as many as before and the returned number is that count. -/
theorem C2_assign_returns_number_of_changes (sqrt : F → F) (points : List (Point F))
    (centroids : List (Centroid F)) :
    (∀ D : Nat, (∀ p ∈ points, p.HasDim D) → (∀ c ∈ centroids, c.HasDim D) →
      ∃ r, assignPointsToClusters sqrt points centroids = some r) ∧
    ∀ (points' : List (Point F)) (changes : Nat),
      assignPointsToClusters sqrt points centroids = some (points', changes) →
      points'.length = points.length ∧
      changes = (List.zip points points').countP
        (fun pq => decide (pq.2.cluster ≠ pq.1.cluster)) := by
  constructor
  · intro D hps hcs
    exact ⟨_, assignPointsToClusters_eq sqrt D points centroids hps hcs⟩
  · intro points' changes h
    have hr := assignPointsToClusters_of_some sqrt points centroids (points', changes) h
    simp only [Prod.mk.injEq] at hr
    obtain ⟨h1, h2⟩ := hr
    subst h1
    subst h2
    refine ⟨by simp, ?_⟩
    rw [countP_zip_map (relabel sqrt centroids) (fun p q => decide (q.cluster ≠ p.cluster))]
    unfold relabelled
    congr 1
    funext p
    simp only [ne_eq, decide_not, Bool.not_eq_eq_eq_not, Bool.not_not, decide_eq_decide]
    exact eq_comm

/-- C2 at a concrete input: the real points `1` (already labelled 0) and `9` (labelled `-1`)
with the centroids `0` and `10`. -/
theorem C2_assign_returns_number_of_changes_witness :
    ∃ (points' : List (Point ℝ)) (changes : Nat),
      assignPointsToClusters Real.sqrt
          [{ values := [1], dimensions := 1, cluster := 0 },
           { values := [9], dimensions := 1, cluster := -1 }]
          [{ values := [0], dimensions := 1, count := 0 },
           { values := [10], dimensions := 1, count := 0 }] = some (points', changes) ∧
      points'.length = 2 ∧
      changes = (List.zip
          ([{ values := [1], dimensions := 1, cluster := 0 },
            { values := [9], dimensions := 1, cluster := -1 }] : List (Point ℝ)) points').countP
        (fun pq => decide (pq.2.cluster ≠ pq.1.cluster)) := by
  have h := C2_assign_returns_number_of_changes Real.sqrt
    [{ values := [1], dimensions := 1, cluster := 0 },
     { values := [9], dimensions := 1, cluster := -1 }]
    [{ values := [0], dimensions := 1, count := 0 },
     { values := [10], dimensions := 1, count := 0 }]
  obtain ⟨r, hr⟩ := h.1 1 (by simp [Point.HasDim]) (by simp [Centroid.HasDim])
  exact ⟨r.1, r.2, hr, h.2 r.1 r.2 hr⟩

/-- C3. Centroid mean: for points of dimension `D` with labels in `[0, k)` and `k` centroids of
dimension `D`, `updateCentroids` returns `k` centroids; the count of centroid `i` is the
number of the points labelled `i`, its buffer keeps `D` slots, and every centroid `i` whose
count is positive holds in every coordinate `j < D` the sum of `values[j]` over the points
labelled `i` divided by the number of those points, whatever the centroid held before
(values and count of the input centroids are arbitrary). -/
theorem C3_update_centroid_mean (D : Nat) (points : List (Point F))
    (centroids : List (Centroid F))
    (hps : ∀ p ∈ points, p.HasDim D)
    (hlab : ∀ p ∈ points, 0 ≤ p.cluster ∧ p.cluster < (centroids.length : Int))
    (hcs : ∀ c ∈ centroids, c.HasDim D) :
    ∃ centroids' : List (Centroid F),
      updateCentroids points centroids = some centroids' ∧
      centroids'.length = centroids.length ∧
      ∀ (i : Nat) (hi : i < centroids'.length),
        centroids'[i].count =
          ((points.filter (fun p => decide (p.cluster = (i : Int)))).length : Int) ∧
        centroids'[i].values.length = D ∧
        (0 < centroids'[i].count →
          ∀ j : Nat, j < D →
            centroids'[i].values[j]? = some
              (((points.filter (fun p => decide (p.cluster = (i : Int)))).map
                  (fun p => p.values.getD j 0)).sum /
                ((points.filter (fun p => decide (p.cluster = (i : Int)))).length : F))) := by
  refine ⟨(List.range centroids.length).map (meanCentroid D points),
    updateCentroids_eq D points centroids (fun p hp => ⟨hps p hp, hlab p hp⟩) hcs,
    by simp, ?_⟩
  intro i hi
  simp only [List.getElem_map, List.getElem_range]
  refine ⟨?_, by simp [meanCentroid], ?_⟩
  · rw [← clusterSize_eq_length_filter]
    rfl
  · intro hpos j hj
    have hsize : 0 < clusterSize points i := by
      simpa [meanCentroid] using hpos
    simp only [meanCentroid, List.getElem?_map, List.getElem?_range hj, Option.map_some',
      if_pos hsize]
    rw [clusterSize_eq_length_filter]
    rfl

/-- C3 at a concrete input: the rational points `1`, `3` (label 0) and `10` (label 1) with
two centroids holding stale values and counts (`7` with count 9, `-4` with count 0). The
call returns two centroids: the first has count 2 and the value `(1 + 3) / 2 = 2`, the
second has count 1 and the value `10`. -/
theorem C3_update_centroid_mean_witness :
    ∃ c0 c1 : Centroid ℚ,
      updateCentroids
          ([{ values := [1], dimensions := 1, cluster := 0 },
            { values := [3], dimensions := 1, cluster := 0 },
            { values := [10], dimensions := 1, cluster := 1 }] : List (Point ℚ))
          [{ values := [7], dimensions := 1, count := 9 },
           { values := [-4], dimensions := 1, count := 0 }] = some [c0, c1] ∧
      c0.count = 2 ∧ c0.values = [2] ∧ c1.count = 1 ∧ c1.values = [10] := by
  obtain ⟨centroids', hrun, hlen, hall⟩ := C3_update_centroid_mean 1
    ([{ values := [1], dimensions := 1, cluster := 0 },
      { values := [3], dimensions := 1, cluster := 0 },
      { values := [10], dimensions := 1, cluster := 1 }] : List (Point ℚ))
    [{ values := [7], dimensions := 1, count := 9 },
     { values := [-4], dimensions := 1, count := 0 }]
    (by simp [Point.HasDim]) (by simp) (by simp [Centroid.HasDim])
  match centroids', hlen, hall with
  | [c0, c1], _, hall =>
    obtain ⟨hc0, hl0, hm0⟩ := hall 0 (by simp)
    obtain ⟨hc1, hl1, hm1⟩ := hall 1 (by simp)
    have hcount0 : c0.count = 2 := by simpa using hc0
    have hcount1 : c1.count = 1 := by simpa using hc1
    have hv0 := hm0 (by simp [hcount0]) 0 (by decide)
    have hv1 := hm1 (by simp [hcount1]) 0 (by decide)
    refine ⟨c0, c1, hrun, hcount0, ?_, hcount1, ?_⟩
    · have h0 : c0.values[0]? = some 2 := by
        rw [show ([c0, c1] : List (Centroid ℚ))[0] = c0 from rfl] at hv0
        rw [hv0]
        norm_num
      have hl : c0.values.length = 1 := hl0
      match hvs : c0.values, hl, h0 with
      | [v], _, h0 => simpa using h0
    · have h1 : c1.values[0]? = some 10 := by
        rw [show ([c0, c1] : List (Centroid ℚ))[1] = c1 from rfl] at hv1
        rw [hv1]
        norm_num
      have hl : c1.values.length = 1 := hl1
      match hvs : c1.values, hl, h1 with
      | [v], _, h1 => simpa using h1

/-- C4, as stated, fails. Five points at `(3,3)` labelled `-1`, `k = 2`, real square root,
cap 100: `initializeCentroids` seeds both centroids at `(3,3)`; the run leaves every point
in cluster 0 and centroid 1 with count 0 at `(0,0)`, not at its seed `(3,3)`. And
`updateCentroids` alone, on the five points labelled 0 (none has cluster 1), turns the
values `(3,3)` of centroid 1 into `(0,0)`. -/
theorem C4_empty_cluster_keeps_values_counterexample :
    initializeCentroids
        (List.replicate 5 ({ values := [3, 3], dimensions := 2, cluster := -1 } : Point ℝ)) 2 =
      some [{ values := [3, 3], dimensions := 2, count := 0 },
            { values := [3, 3], dimensions := 2, count := 0 }] ∧
    kMeans Real.sqrt
        (List.replicate 5 ({ values := [3, 3], dimensions := 2, cluster := -1 } : Point ℝ))
        [{ values := [3, 3], dimensions := 2, count := 0 },
         { values := [3, 3], dimensions := 2, count := 0 }] 100 =
      some
        { points := List.replicate 5
            ({ values := [3, 3], dimensions := 2, cluster := 0 } : Point ℝ),
          centroids := [{ values := [3, 3], dimensions := 2, count := 5 },
                        { values := [0, 0], dimensions := 2, count := 0 }],
          iterations := 2, log := [5, 0] } ∧
    (∀ p ∈ List.replicate 5 ({ values := [3, 3], dimensions := 2, cluster := 0 } : Point ℝ),
      p.cluster ≠ 1) ∧
    updateCentroids
        (List.replicate 5 ({ values := [3, 3], dimensions := 2, cluster := 0 } : Point ℝ))
        [{ values := [3, 3], dimensions := 2, count := 0 },
         { values := [3, 3], dimensions := 2, count := 0 }] =
      some [{ values := [3, 3], dimensions := 2, count := 5 },
            { values := [0, 0], dimensions := 2, count := 0 }] ∧
    ([0, 0] : List ℝ) ≠ [3, 3] :=
  ⟨initializeCentroids_identical (-1),
   kMeans_identical Real.sqrt Real.sqrt_zero Real.sqrt_nonneg 100 (by norm_num),
   by simp,
   updateCentroids_identical _ (by simp [Centroid.HasDim]) rfl,
   by simp⟩

/-- C4, amended. Empty-cluster policy: for points of dimension `D` with labels in `[0, k)`
and `k` centroids of dimension `D`, if no point has cluster `i` then `updateCentroids` sets
every value of centroid `i` to zero and its count to 0, whatever it held before; and in the
run on five points at `(3,3)` with `k = 2`, where `initializeCentroids` seeds both centroids
at `(3,3)`, and a cap of at least 2, after each of the two iterations centroid 1 has count 0
and values `(0,0)`. -/
theorem C4_update_empty_cluster_zeroed :
    (∀ (D : Nat) (points : List (Point F)) (centroids : List (Centroid F)) (i : Nat),
      (∀ p ∈ points, p.HasDim D) →
      (∀ p ∈ points, 0 ≤ p.cluster ∧ p.cluster < (centroids.length : Int)) →
      (∀ c ∈ centroids, c.HasDim D) →
      i < centroids.length →
      (∀ p ∈ points, p.cluster ≠ (i : Int)) →
      ∃ centroids' : List (Centroid F),
        updateCentroids points centroids = some centroids' ∧
        centroids'.length = centroids.length ∧
        centroids'[i]? =
          some { values := List.replicate D 0, dimensions := (D : Int), count := 0 }) ∧
    initializeCentroids
        (List.replicate 5 ({ values := [3, 3], dimensions := 2, cluster := -1 } : Point ℝ)) 2 =
      some [{ values := [3, 3], dimensions := 2, count := 0 },
            { values := [3, 3], dimensions := 2, count := 0 }] ∧
    kMeansIteration Real.sqrt
        (List.replicate 5 ({ values := [3, 3], dimensions := 2, cluster := -1 } : Point ℝ))
        [{ values := [3, 3], dimensions := 2, count := 0 },
         { values := [3, 3], dimensions := 2, count := 0 }] =
      some (List.replicate 5 ({ values := [3, 3], dimensions := 2, cluster := 0 } : Point ℝ),
        [{ values := [3, 3], dimensions := 2, count := 5 },
         { values := [0, 0], dimensions := 2, count := 0 }], 5) ∧
    kMeansIteration Real.sqrt
        (List.replicate 5 ({ values := [3, 3], dimensions := 2, cluster := 0 } : Point ℝ))
        [{ values := [3, 3], dimensions := 2, count := 5 },
         { values := [0, 0], dimensions := 2, count := 0 }] =
      some (List.replicate 5 ({ values := [3, 3], dimensions := 2, cluster := 0 } : Point ℝ),
        [{ values := [3, 3], dimensions := 2, count := 5 },
         { values := [0, 0], dimensions := 2, count := 0 }], 0) ∧
    ∀ maxIterations : Int, 2 ≤ maxIterations →
      kMeans Real.sqrt
          (List.replicate 5 ({ values := [3, 3], dimensions := 2, cluster := -1 } : Point ℝ))
          [{ values := [3, 3], dimensions := 2, count := 0 },
           { values := [3, 3], dimensions := 2, count := 0 }] maxIterations =
        some
          { points := List.replicate 5
              ({ values := [3, 3], dimensions := 2, cluster := 0 } : Point ℝ),
            centroids := [{ values := [3, 3], dimensions := 2, count := 5 },
                          { values := [0, 0], dimensions := 2, count := 0 }],
            iterations := 2, log := [5, 0] } := by
  refine ⟨?_, initializeCentroids_identical (-1),
    kMeansIteration_identical_first Real.sqrt Real.sqrt_zero,
    kMeansIteration_identical_second Real.sqrt Real.sqrt_zero Real.sqrt_nonneg,
    fun m hm => kMeans_identical Real.sqrt Real.sqrt_zero Real.sqrt_nonneg m hm⟩
  intro D points centroids i hps hlab hcs hi hempty
  refine ⟨(List.range centroids.length).map (meanCentroid D points),
    updateCentroids_eq D points centroids (fun p hp => ⟨hps p hp, hlab p hp⟩) hcs,
    by simp, ?_⟩
  have hsize : clusterSize points i = 0 := by
    unfold clusterSize
    rw [List.countP_eq_zero]
    intro p hp
    simpa using hempty p hp
  rw [List.getElem?_map, List.getElem?_range hi]
  simp only [Option.map_some', Option.some.injEq]
  apply Centroid.ext_fields
  · apply List.ext_getElem?
    intro j
    simp only [meanCentroid, hsize, lt_self_iff_false, if_false, List.getElem?_map,
      List.getElem?_replicate]
    by_cases hj : j < D
    · simp [hj, List.getElem?_range hj]
    · simp [hj, List.getElem?_eq_none (show (List.range D).length ≤ j by simp; omega)]
  · rfl
  · simp [meanCentroid, hsize]

/-- C4 amended, at a concrete input: rational points `1` and `3` labelled 0 and two
centroids, the second one, at `7`, without any point. -/
theorem C4_update_empty_cluster_zeroed_witness :
    ∃ centroids' : List (Centroid ℚ),
      updateCentroids
          ([{ values := [1], dimensions := 1, cluster := 0 },
            { values := [3], dimensions := 1, cluster := 0 }] : List (Point ℚ))
          [{ values := [5], dimensions := 1, count := 0 },
           { values := [7], dimensions := 1, count := 4 }] = some centroids' ∧
      centroids'.length = 2 ∧
      centroids'[1]? = some { values := List.replicate 1 0, dimensions := 1, count := 0 } :=
  C4_update_empty_cluster_zeroed.1 1
    ([{ values := [1], dimensions := 1, cluster := 0 },
      { values := [3], dimensions := 1, cluster := 0 }] : List (Point ℚ))
    [{ values := [5], dimensions := 1, count := 0 },
     { values := [7], dimensions := 1, count := 4 }] 1
    (by simp [Point.HasDim]) (by simp) (by simp [Centroid.HasDim]) (by simp) (by simp)

/-- C5. Count invariant: for points and centroids of dimension `D`, (1) if the labels lie in
`[0, k)` then `updateCentroids` returns and the count of every centroid `i` is the number of
points labelled `i`, the counts adding up to the number of points; (2) when `k ≥ 1`, every
iteration of the loop of `kMeans` returns arrays of the same shape (so that the next
iteration is covered again) on which the same holds, and so does the whole run for every
iteration cap. -/
theorem C5_count_invariant (sqrt : F → F) (D : Nat) (points : List (Point F))
    (centroids : List (Centroid F))
    (hps : ∀ p ∈ points, p.HasDim D) (hcs : ∀ c ∈ centroids, c.HasDim D) :
    ((∀ p ∈ points, 0 ≤ p.cluster ∧ p.cluster < (centroids.length : Int)) →
      ∃ centroids' : List (Centroid F),
        updateCentroids points centroids = some centroids' ∧
        centroids'.length = centroids.length ∧
        (∀ (i : Nat) (hi : i < centroids'.length),
          centroids'[i].count =
            ((points.filter (fun p => decide (p.cluster = (i : Int)))).length : Int)) ∧
        (centroids'.map (fun c => c.count)).sum = (points.length : Int)) ∧
    (1 ≤ centroids.length →
      (∃ (points' : List (Point F)) (centroids' : List (Centroid F)) (changes : Nat),
        kMeansIteration sqrt points centroids = some (points', centroids', changes) ∧
        (∀ p ∈ points', p.HasDim D) ∧ (∀ c ∈ centroids', c.HasDim D) ∧
        centroids'.length = centroids.length ∧
        (∀ (i : Nat) (hi : i < centroids'.length),
          centroids'[i].count =
            ((points'.filter (fun p => decide (p.cluster = (i : Int)))).length : Int)) ∧
        (centroids'.map (fun c => c.count)).sum = (points'.length : Int)) ∧
      ∀ maxIterations : Int, ∃ run : Run F,
        kMeans sqrt points centroids maxIterations = some run ∧
        run.centroids.length = centroids.length ∧
        (∀ (i : Nat) (hi : i < run.centroids.length),
          run.centroids[i].count =
            ((run.points.filter (fun p => decide (p.cluster = (i : Int)))).length : Int)) ∧
        (run.centroids.map (fun c => c.count)).sum = (run.points.length : Int)) := by
  constructor
  · intro hlab
    obtain ⟨h1, h2, h3⟩ := counts_of_eq_meanCentroid D centroids.length points _ rfl hlab
    exact ⟨_, updateCentroids_eq D points centroids (fun p hp => ⟨hps p hp, hlab p hp⟩) hcs,
      h1, h2, h3⟩
  · intro hk
    have hdim : SameDim D points centroids := ⟨hps, hcs, fun _ => hk⟩
    constructor
    · have hnext := sameDim_iteration sqrt D points centroids hdim
      obtain ⟨h1, h2, h3⟩ := counts_of_eq_meanCentroid D centroids.length
        (points.map (relabel sqrt centroids)) _ rfl
        (labelsInRange_map_relabel sqrt D points centroids hdim)
      exact ⟨_, _, _, kMeansIteration_eq sqrt D points centroids hdim, hnext.1, hnext.2.1,
        h1, h2, h3⟩
    · intro maxIterations
      obtain ⟨run, extra, hrun, _, _, _, _, _, _, _, _, hrange, hcent, _, _⟩ :=
        kMeansLoop_run sqrt D maxIterations points centroids 0 [] hdim
      obtain ⟨h1, h2, h3⟩ := counts_of_eq_meanCentroid D centroids.length run.points
        run.centroids hcent hrange
      exact ⟨run, hrun, h1, h2, h3⟩

/-- C5 at a concrete input: the run on the real points `1` and `9` (labels `-1`) with the
centroids `0` and `10` and cap 100. -/
theorem C5_count_invariant_witness :
    ∃ run : Run ℝ,
      kMeans Real.sqrt
          [{ values := [1], dimensions := 1, cluster := -1 },
           { values := [9], dimensions := 1, cluster := -1 }]
          [{ values := [0], dimensions := 1, count := 0 },
           { values := [10], dimensions := 1, count := 0 }] 100 = some run ∧
      run.centroids.length = 2 ∧
      (∀ (i : Nat) (hi : i < run.centroids.length),
        run.centroids[i].count =
          ((run.points.filter (fun p => decide (p.cluster = (i : Int)))).length : Int)) ∧
      (run.centroids.map (fun c => c.count)).sum = (run.points.length : Int) :=
  ((C5_count_invariant Real.sqrt 1
    [{ values := [1], dimensions := 1, cluster := -1 },
     { values := [9], dimensions := 1, cluster := -1 }]
    [{ values := [0], dimensions := 1, count := 0 },
     { values := [10], dimensions := 1, count := 0 }]
    (by simp [Point.HasDim]) (by simp [Centroid.HasDim])).2 (by simp)).2 100

/-- C7. Iteration bound and stop condition: for every cap `maxIterations ≥ 1`, `kMeans`
returns on every well-formed input (one dimension, a centroid if there is a point), and
whenever it returns, on any input, the number `n` of iterations it reports satisfies
`1 ≤ n ≤ maxIterations`, it printed `n` values of `changes`, all but the last positive, and
the last is 0 or `n = maxIterations`. -/
theorem C7_iteration_bound (sqrt : F → F) (points : List (Point F))
    (centroids : List (Centroid F)) (maxIterations : Int) (hmax : 1 ≤ maxIterations) :
    (∀ D : Nat, (∀ p ∈ points, p.HasDim D) → (∀ c ∈ centroids, c.HasDim D) →
      (points ≠ [] → 1 ≤ centroids.length) →
      ∃ run : Run F, kMeans sqrt points centroids maxIterations = some run) ∧
    ∀ run : Run F, kMeans sqrt points centroids maxIterations = some run →
      1 ≤ run.iterations ∧ run.iterations ≤ maxIterations ∧
      (run.log.length : Int) = run.iterations ∧
      (∀ x ∈ run.log.dropLast, 0 < x) ∧
      (run.log.getLast? = some 0 ∨ run.iterations = maxIterations) := by
  constructor
  · intro D hps hcs hk
    obtain ⟨run, _, hrun, _⟩ :=
      kMeansLoop_run sqrt D maxIterations points centroids 0 [] ⟨hps, hcs, hk⟩
    exact ⟨run, hrun⟩
  · intro run hrun
    obtain ⟨extra, hlog, hne, hits, hpos, hstop, hbound⟩ :=
      kMeansLoop_shape sqrt maxIterations points centroids 0 [] run hrun
    simp only [List.nil_append] at hlog
    rw [hlog]
    have hlen : 1 ≤ extra.length := List.length_pos.mpr hne
    have hle : run.iterations ≤ maxIterations := by
      rcases hbound with h | h
      · exact h
      · rw [hits, h]
        push_cast
        omega
    refine ⟨by omega, hle, by omega, hpos, ?_⟩
    rcases hstop with h | h
    · exact Or.inl h
    · exact Or.inr (le_antisymm hle h)

/-- C7 at a concrete input: the run on the real points `1` and `9` (labels `-1`) with the
centroids `0` and `10` and cap 100. -/
theorem C7_iteration_bound_witness :
    ∃ run : Run ℝ,
      kMeans Real.sqrt
          [{ values := [1], dimensions := 1, cluster := -1 },
           { values := [9], dimensions := 1, cluster := -1 }]
          [{ values := [0], dimensions := 1, count := 0 },
           { values := [10], dimensions := 1, count := 0 }] 100 = some run ∧
      1 ≤ run.iterations ∧ run.iterations ≤ 100 ∧
      (run.log.length : Int) = run.iterations ∧
      (∀ x ∈ run.log.dropLast, 0 < x) ∧
      (run.log.getLast? = some 0 ∨ run.iterations = 100) := by
  have h := C7_iteration_bound Real.sqrt
    [{ values := [1], dimensions := 1, cluster := -1 },
     { values := [9], dimensions := 1, cluster := -1 }]
    [{ values := [0], dimensions := 1, count := 0 },
     { values := [10], dimensions := 1, count := 0 }] 100 (by norm_num)
  obtain ⟨run, hrun⟩ := h.1 1 (by simp [Point.HasDim]) (by simp [Centroid.HasDim]) (by simp)
  exact ⟨run, hrun, h.2 run hrun⟩

/-- C8. Assignment is idempotent: on points and centroids of one dimension
`assignPointsToClusters` returns, and whenever a first call returns (on any points and
centroids), a second call on its output with the same centroids returns 0 and leaves every
label as the first call set it. -/
theorem C8_assign_idempotent (sqrt : F → F) (points : List (Point F))
    (centroids : List (Centroid F)) :
    (∀ D : Nat, (∀ p ∈ points, p.HasDim D) → (∀ c ∈ centroids, c.HasDim D) →
      ∃ r, assignPointsToClusters sqrt points centroids = some r) ∧
    ∀ (points' : List (Point F)) (changes : Nat),
      assignPointsToClusters sqrt points centroids = some (points', changes) →
      assignPointsToClusters sqrt points' centroids = some (points', 0) := by
  constructor
  · intro D hps hcs
    exact ⟨_, assignPointsToClusters_eq sqrt D points centroids hps hcs⟩
  · intro points' changes h
    have hscan := assignLoop_scans sqrt centroids points 0 (points', changes) h
    have hr := assignPointsToClusters_of_some sqrt points centroids (points', changes) h
    simp only [Prod.mk.injEq] at hr
    obtain ⟨h1, _⟩ := hr
    subst h1
    have hall : ∀ q ∈ points.map (relabel sqrt centroids),
        ∃ l, nearestCluster sqrt centroids q = some l := by
      intro q hq
      obtain ⟨p, hp, rfl⟩ := List.mem_map.mp hq
      rw [nearestCluster_congr sqrt centroids (relabel sqrt centroids p) p
        (relabel_values sqrt centroids p) (relabel_dimensions sqrt centroids p)]
      exact hscan p hp
    have heq := assignLoop_eq sqrt centroids (points.map (relabel sqrt centroids)) 0 hall
    unfold assignPointsToClusters
    rw [heq, relabelled_map_relabel, List.map_map]
    have hfun : relabel sqrt centroids ∘ relabel sqrt centroids = relabel sqrt centroids := by
      funext p
      exact relabel_idem sqrt centroids p
    rw [hfun]

/-- C8 at a concrete input: on the real points `1` and `9` labelled `-1` and the centroids
`0` and `10` the first call returns, and the second call on its output returns 0 and the
same points. -/
theorem C8_assign_idempotent_witness :
    ∃ (points' : List (Point ℝ)) (changes : Nat),
      assignPointsToClusters Real.sqrt
          [{ values := [1], dimensions := 1, cluster := -1 },
           { values := [9], dimensions := 1, cluster := -1 }]
          [{ values := [0], dimensions := 1, count := 0 },
           { values := [10], dimensions := 1, count := 0 }] = some (points', changes) ∧
      assignPointsToClusters Real.sqrt points'
          [{ values := [0], dimensions := 1, count := 0 },
           { values := [10], dimensions := 1, count := 0 }] = some (points', 0) := by
  have h := C8_assign_idempotent Real.sqrt
    [{ values := [1], dimensions := 1, cluster := -1 },
     { values := [9], dimensions := 1, cluster := -1 }]
    [{ values := [0], dimensions := 1, count := 0 },
     { values := [10], dimensions := 1, count := 0 }]
  obtain ⟨r, hr⟩ := h.1 1 (by simp [Point.HasDim]) (by simp [Centroid.HasDim])
  exact ⟨r.1, r.2, hr, h.2 r.1 r.2 hr⟩

/-- C9. Fixed point of a converged run: for every well-formed input (one dimension, a
centroid if there is a point) on which `kMeans` stops with `changes = 0` on its last
iteration, entered with every label outside `[0, k)` (`main`, the only caller of `kMeans`,
hands over the points with the `-1` the loader wrote) or, from any labels, when the run
executed at least two iterations, the first `assignPointsToClusters` call on the output
points and centroids returns 0 and leaves the points as they are, and the
`updateCentroids` call that follows leaves every centroid unchanged. -/
theorem C9_converged_run_fixed_point (sqrt : F → F) (D : Nat) (points : List (Point F))
    (centroids : List (Centroid F)) (maxIterations : Int) (run : Run F)
    (hps : ∀ p ∈ points, p.HasDim D) (hcs : ∀ c ∈ centroids, c.HasDim D)
    (hk : points ≠ [] → 1 ≤ centroids.length)
    (hrun : kMeans sqrt points centroids maxIterations = some run)
    (hconv : run.log.getLast? = some 0)
    (hsecond : 2 ≤ run.iterations ∨
      ∀ p ∈ points, p.cluster < 0 ∨ (centroids.length : Int) ≤ p.cluster) :
    assignPointsToClusters sqrt run.points run.centroids = some (run.points, 0) ∧
    updateCentroids run.points run.centroids = some run.centroids := by
  have hdim : SameDim D points centroids := ⟨hps, hcs, hk⟩
  obtain ⟨run', extra, hrun', hlog, hne, hits, _, _, _, hhead, hsame, hrange, hcent, hplen,
    hfix⟩ := kMeansLoop_run sqrt D maxIterations points centroids 0 [] hdim
  unfold kMeans at hrun
  rw [hrun] at hrun'
  simp only [Option.some.injEq] at hrun'
  subst hrun'
  simp only [List.nil_append] at hlog
  rw [hlog] at hconv
  have hlenc : run.centroids.length = centroids.length := by rw [hcent]; simp
  constructor
  · by_cases h2 : 2 ≤ extra.length
    · exact hfix hconv (Or.inl h2)
    · have hone : extra.length = 1 := by
        have : 1 ≤ extra.length := List.length_pos.mpr hne
        omega
      have hsent : ∀ p ∈ points, p.cluster < 0 ∨ (centroids.length : Int) ≤ p.cluster := by
        rcases hsecond with h | h
        · rw [hits, hone] at h
          norm_num at h
        · exact h
      obtain ⟨c, hc⟩ := List.length_eq_one.mp hone
      rw [hc] at hconv hhead
      simp only [List.getLast?_singleton, Option.some.injEq, List.head?_cons] at hconv hhead
      have hnil : points = [] := by
        by_contra hnonempty
        have hscan : ∀ p ∈ points, ∃ l, nearestCluster sqrt centroids p = some l :=
          assignLoop_scans sqrt centroids points 0 _
            (assignPointsToClusters_eq sqrt D points centroids hps hcs)
        have hall := relabelled_of_sentinel sqrt centroids points (hk hnonempty) hscan hsent
        rw [← hhead, hconv] at hall
        exact hnonempty (List.length_eq_zero.mp hall.symm)
      have hrnil : run.points = [] := by
        apply List.length_eq_zero.mp
        rw [hplen, hnil]
        rfl
      rw [hrnil]
      rfl
  · have hupd := updateCentroids_eq D run.points run.centroids
      (fun p hp => ⟨hsame.1 p hp, by rw [hlenc]; exact hrange p hp⟩) hsame.2.1
    rw [hupd, hlenc, ← hcent]

/-- C9 at a concrete input: the run on five real points at `(3,3)` entered with the label
`-1`, with two centroids seeded at `(3,3)` and cap 100, stops after two iterations with
`changes = 0`; its output is a fixed point of both passes. -/
theorem C9_converged_run_fixed_point_witness :
    assignPointsToClusters Real.sqrt
        (List.replicate 5 ({ values := [3, 3], dimensions := 2, cluster := 0 } : Point ℝ))
        [{ values := [3, 3], dimensions := 2, count := 5 },
         { values := [0, 0], dimensions := 2, count := 0 }] =
      some (List.replicate 5 ({ values := [3, 3], dimensions := 2, cluster := 0 } : Point ℝ),
        0) ∧
    updateCentroids
        (List.replicate 5 ({ values := [3, 3], dimensions := 2, cluster := 0 } : Point ℝ))
        [{ values := [3, 3], dimensions := 2, count := 5 },
         { values := [0, 0], dimensions := 2, count := 0 }] =
      some [{ values := [3, 3], dimensions := 2, count := 5 },
            { values := [0, 0], dimensions := 2, count := 0 }] :=
  C9_converged_run_fixed_point Real.sqrt 2
    (List.replicate 5 ({ values := [3, 3], dimensions := 2, cluster := -1 } : Point ℝ))
    [{ values := [3, 3], dimensions := 2, count := 0 },
     { values := [3, 3], dimensions := 2, count := 0 }] 100
    { points := List.replicate 5 ({ values := [3, 3], dimensions := 2, cluster := 0 } : Point ℝ),
      centroids := [{ values := [3, 3], dimensions := 2, count := 5 },
                    { values := [0, 0], dimensions := 2, count := 0 }],
      iterations := 2, log := [5, 0] }
    (by simp [Point.HasDim]) (by simp [Centroid.HasDim]) (by simp)
    (kMeans_identical Real.sqrt Real.sqrt_zero Real.sqrt_nonneg 100 (by norm_num))
    (by simp) (Or.inr (by simp))

/-- C10. A first-time assignment always counts as changed: with `k ≥ 1` centroids and `N`
points whose labels are all outside `[0, k)` (such as the loader's `-1`), whenever
`assignPointsToClusters` returns it returns exactly `N`; on points and centroids of one
dimension it does return, and `kMeans` returns for every cap with `N` as the `changes`
value of iteration 1, which is positive when `N ≥ 1`. -/
theorem C10_first_assignment_counts_all (sqrt : F → F) (points : List (Point F))
    (centroids : List (Centroid F)) (hk : 1 ≤ centroids.length)
    (hsent : ∀ p ∈ points, p.cluster < 0 ∨ (centroids.length : Int) ≤ p.cluster) :
    (∀ (points' : List (Point F)) (changes : Nat),
      assignPointsToClusters sqrt points centroids = some (points', changes) →
      changes = points.length) ∧
    (∀ D : Nat, (∀ p ∈ points, p.HasDim D) → (∀ c ∈ centroids, c.HasDim D) →
      (∃ points' : List (Point F),
        assignPointsToClusters sqrt points centroids = some (points', points.length)) ∧
      ∀ maxIterations : Int, ∃ run : Run F,
        kMeans sqrt points centroids maxIterations = some run ∧
        run.log.head? = some points.length ∧
        (1 ≤ points.length → ∃ c, run.log.head? = some c ∧ 0 < c)) := by
  constructor
  · intro points' changes h
    have hscan := assignLoop_scans sqrt centroids points 0 (points', changes) h
    have hr := assignPointsToClusters_of_some sqrt points centroids (points', changes) h
    simp only [Prod.mk.injEq] at hr
    rw [hr.2]
    exact relabelled_of_sentinel sqrt centroids points hk hscan hsent
  · intro D hps hcs
    have hassign := assignPointsToClusters_eq sqrt D points centroids hps hcs
    have hscan := assignLoop_scans sqrt centroids points 0 _ hassign
    have hall := relabelled_of_sentinel sqrt centroids points hk hscan hsent
    constructor
    · exact ⟨_, by rw [hassign, hall]⟩
    · intro maxIterations
      obtain ⟨run, extra, hrun, hlog, _, _, _, _, _, hhead, _⟩ :=
        kMeansLoop_run sqrt D maxIterations points centroids 0 [] ⟨hps, hcs, fun _ => hk⟩
      simp only [List.nil_append] at hlog
      rw [hall] at hhead
      refine ⟨run, hrun, by rw [hlog]; exact hhead, ?_⟩
      intro hN
      exact ⟨points.length, by rw [hlog]; exact hhead, hN⟩

/-- C10 at a concrete input: the run on the real points `1` and `9` with the sentinel label
`-1`, the centroids `0` and `10` and cap 100. -/
theorem C10_first_assignment_counts_all_witness :
    ∃ run : Run ℝ,
      kMeans Real.sqrt
          [{ values := [1], dimensions := 1, cluster := -1 },
           { values := [9], dimensions := 1, cluster := -1 }]
          [{ values := [0], dimensions := 1, count := 0 },
           { values := [10], dimensions := 1, count := 0 }] 100 = some run ∧
      run.log.head? = some 2 ∧
      (1 ≤ 2 → ∃ c, run.log.head? = some c ∧ 0 < c) :=
  ((C10_first_assignment_counts_all Real.sqrt
    [{ values := [1], dimensions := 1, cluster := -1 },
     { values := [9], dimensions := 1, cluster := -1 }]
    [{ values := [0], dimensions := 1, count := 0 },
     { values := [10], dimensions := 1, count := 0 }] (by simp) (by simp)).2 1
    (by simp [Point.HasDim]) (by simp [Centroid.HasDim])).2 100

/-- C11. Distance formula: for a point and a centroid of the same dimension `D`,
`calculateDistance` returns the square root of the sum over `i < D` of
`(point.values[i] - centroid.values[i])` squared, in exact arithmetic (`getD i 0` is
`values[i]` for `i < D`).  The function is pure: it returns the number only, so neither
argument is modified. -/
theorem C11_distance_formula (sqrt : F → F) (D : Nat) (point : Point F) (centroid : Centroid F)
    (hp : point.HasDim D) (hc : centroid.HasDim D) :
    calculateDistance sqrt point centroid =
      some (sqrt (∑ i in Finset.range D,
        (point.values.getD i 0 - centroid.values.getD i 0) ^ 2)) := by
  unfold calculateDistance
  rw [hp.2, Int.toNat_ofNat, calculateDistance_loop D point centroid hp.1 hc.1 D (le_refl D)]

/-- C11 at a concrete input: the real point `(1,2)` and the centroid `(4,6)` with the real
square root. -/
theorem C11_distance_formula_witness :
    calculateDistance Real.sqrt
        ({ values := [1, 2], dimensions := 2, cluster := -1 } : Point ℝ)
        { values := [4, 6], dimensions := 2, count := 0 } =
      some (Real.sqrt (∑ i in Finset.range 2,
        (([1, 2] : List ℝ).getD i 0 - ([4, 6] : List ℝ).getD i 0) ^ 2)) :=
  C11_distance_formula Real.sqrt 2
    ({ values := [1, 2], dimensions := 2, cluster := -1 } : Point ℝ)
    { values := [4, 6], dimensions := 2, count := 0 }
    (by simp [Point.HasDim]) (by simp [Centroid.HasDim])

/-- C12. Over the reals, with the real square root: for a point and a centroid of the same
dimension `D` the distance `calculateDistance` returns is non-negative, and it is 0 if and
only if the point and the centroid agree in every coordinate `i < D`. -/
theorem C12_distance_nonneg_zero_iff (D : Nat) (point : Point ℝ) (centroid : Centroid ℝ)
    (hp : point.HasDim D) (hc : centroid.HasDim D) :
    ∃ d : ℝ, calculateDistance Real.sqrt point centroid = some d ∧ 0 ≤ d ∧
      (d = 0 ↔ ∀ i : Nat, i < D → point.values.getD i 0 = centroid.values.getD i 0) := by
  refine ⟨_, calculateDistance_eq Real.sqrt D point centroid hp hc, Real.sqrt_nonneg _, ?_⟩
  rw [Real.sqrt_eq_zero (sum_sq_nonneg D point.values centroid.values)]
  exact sum_sq_eq_zero_iff D point.values centroid.values

/-- C12 at a concrete input: the real point `(1,2)` and the centroid `(4,6)`. -/
theorem C12_distance_nonneg_zero_iff_witness :
    ∃ d : ℝ,
      calculateDistance Real.sqrt
          ({ values := [1, 2], dimensions := 2, cluster := -1 } : Point ℝ)
          { values := [4, 6], dimensions := 2, count := 0 } = some d ∧
      0 ≤ d ∧
      (d = 0 ↔ ∀ i : Nat, i < 2 →
        ([1, 2] : List ℝ).getD i 0 = ([4, 6] : List ℝ).getD i 0) :=
  C12_distance_nonneg_zero_iff 2
    ({ values := [1, 2], dimensions := 2, cluster := -1 } : Point ℝ)
    { values := [4, 6], dimensions := 2, count := 0 }
    (by simp [Point.HasDim]) (by simp [Centroid.HasDim])

/-- C13. Scenario: on the four real points `0, 1, 10, 11` labelled `-1`, with the initial
centroids `0` and `10`, the real square root and a cap `maxIterations ≥ 2`: iteration 1
reports `changes = 4` and yields the labels `0, 0, 1, 1` and the centroids `1/2` and `21/2`
with count 2 each; iteration 2 reports `changes = 0` and alters nothing; the run stops
there, with 2 iterations reported and those labels, centroids and counts. -/
theorem C13_scenario_four_points (maxIterations : Int) (hm : 2 ≤ maxIterations) :
    kMeansIteration Real.sqrt
        [{ values := [0], dimensions := 1, cluster := -1 },
         { values := [1], dimensions := 1, cluster := -1 },
         { values := [10], dimensions := 1, cluster := -1 },
         { values := [11], dimensions := 1, cluster := -1 }]
        [{ values := [0], dimensions := 1, count := 0 },
         { values := [10], dimensions := 1, count := 0 }] =
      some ([{ values := [0], dimensions := 1, cluster := 0 },
             { values := [1], dimensions := 1, cluster := 0 },
             { values := [10], dimensions := 1, cluster := 1 },
             { values := [11], dimensions := 1, cluster := 1 }],
        [{ values := [1 / 2], dimensions := 1, count := 2 },
         { values := [21 / 2], dimensions := 1, count := 2 }], 4) ∧
    kMeansIteration Real.sqrt
        [{ values := [0], dimensions := 1, cluster := 0 },
         { values := [1], dimensions := 1, cluster := 0 },
         { values := [10], dimensions := 1, cluster := 1 },
         { values := [11], dimensions := 1, cluster := 1 }]
        [{ values := [1 / 2], dimensions := 1, count := 2 },
         { values := [21 / 2], dimensions := 1, count := 2 }] =
      some ([{ values := [0], dimensions := 1, cluster := 0 },
             { values := [1], dimensions := 1, cluster := 0 },
             { values := [10], dimensions := 1, cluster := 1 },
             { values := [11], dimensions := 1, cluster := 1 }],
        [{ values := [1 / 2], dimensions := 1, count := 2 },
         { values := [21 / 2], dimensions := 1, count := 2 }], 0) ∧
    kMeans Real.sqrt
        [{ values := [0], dimensions := 1, cluster := -1 },
         { values := [1], dimensions := 1, cluster := -1 },
         { values := [10], dimensions := 1, cluster := -1 },
         { values := [11], dimensions := 1, cluster := -1 }]
        [{ values := [0], dimensions := 1, count := 0 },
         { values := [10], dimensions := 1, count := 0 }] maxIterations =
      some
        { points := [{ values := [0], dimensions := 1, cluster := 0 },
                     { values := [1], dimensions := 1, cluster := 0 },
                     { values := [10], dimensions := 1, cluster := 1 },
                     { values := [11], dimensions := 1, cluster := 1 }],
          centroids := [{ values := [1 / 2], dimensions := 1, count := 2 },
                        { values := [21 / 2], dimensions := 1, count := 2 }],
          iterations := 2, log := [4, 0] } := by
  refine ⟨kMeansIteration_four_first, kMeansIteration_four_second, ?_⟩
  unfold kMeans
  rw [kMeansLoop, kMeansIteration_four_first]
  simp only
  rw [if_pos ⟨by norm_num, by omega⟩, kMeansLoop, kMeansIteration_four_second]
  simp

/-- C13 at the cap 100 (the default of `main`): the run as a whole. -/
theorem C13_scenario_four_points_witness :
    kMeans Real.sqrt
        [{ values := [0], dimensions := 1, cluster := -1 },
         { values := [1], dimensions := 1, cluster := -1 },
         { values := [10], dimensions := 1, cluster := -1 },
         { values := [11], dimensions := 1, cluster := -1 }]
        [{ values := [0], dimensions := 1, count := 0 },
         { values := [10], dimensions := 1, count := 0 }] 100 =
      some
        { points := [{ values := [0], dimensions := 1, cluster := 0 },
                     { values := [1], dimensions := 1, cluster := 0 },
                     { values := [10], dimensions := 1, cluster := 1 },
                     { values := [11], dimensions := 1, cluster := 1 }],
          centroids := [{ values := [1 / 2], dimensions := 1, count := 2 },
                        { values := [21 / 2], dimensions := 1, count := 2 }],
          iterations := 2, log := [4, 0] } :=
  (C13_scenario_four_points 100 (by norm_num)).2.2

/-- C15. Seed selection: for `N ≥ 1` points, each with a buffer of `dimensions` slots, and
`k ≥ 1`, `initializeCentroids` returns `k` centroids, and for each `i < k` the index
`(i * step) % N`, where `step` is `N / k` if that is nonzero and 1 otherwise, lies in
`[0, N)` and centroid `i` is a copy of the values and dimension of the point at that index,
with count 0.  The function returns the centroids only: the points are not modified. -/
theorem C15_seed_selection (points : List (Point F)) (k : Nat)
    (hN : 1 ≤ points.length) (hk : 1 ≤ k)
    (hwf : ∀ p ∈ points, (p.values.length : Int) = p.dimensions) :
    ∃ centroids : List (Centroid F),
      initializeCentroids points (k : Int) = some centroids ∧
      centroids.length = k ∧
      ∀ i : Nat, i < k →
        (i * (if points.length / k = 0 then 1 else points.length / k)) % points.length <
          points.length ∧
        ∃ p : Point F,
          points[(i * (if points.length / k = 0 then 1 else points.length / k)) %
            points.length]? = some p ∧
          centroids[i]? =
            some { values := p.values, dimensions := p.dimensions, count := 0 } := by
  obtain ⟨cs, hcs, hlen, hall⟩ := initializeCentroids_spec points k hN hk hwf
  refine ⟨cs, hcs, hlen, ?_⟩
  intro i hi
  obtain ⟨p, hp, hc⟩ := hall i hi
  exact ⟨seedIndex_lt points.length k i hN, p, hp, hc⟩

/-- C15 at a concrete input: five rational points on a line and `k = 2` (step 2, indices 0
and 2). -/
theorem C15_seed_selection_witness :
    ∃ centroids : List (Centroid ℚ),
      initializeCentroids
          ([{ values := [10], dimensions := 1, cluster := -1 },
            { values := [11], dimensions := 1, cluster := -1 },
            { values := [12], dimensions := 1, cluster := -1 },
            { values := [13], dimensions := 1, cluster := -1 },
            { values := [14], dimensions := 1, cluster := -1 }] : List (Point ℚ))
          ((2 : Nat) : Int) = some centroids ∧
      centroids.length = 2 ∧
      ∀ i : Nat, i < 2 →
        (i * (if 5 / 2 = 0 then 1 else 5 / 2)) % 5 < 5 ∧
        ∃ p : Point ℚ,
          ([{ values := [10], dimensions := 1, cluster := -1 },
            { values := [11], dimensions := 1, cluster := -1 },
            { values := [12], dimensions := 1, cluster := -1 },
            { values := [13], dimensions := 1, cluster := -1 },
            { values := [14], dimensions := 1, cluster := -1 }] : List (Point ℚ))[
              (i * (if 5 / 2 = 0 then 1 else 5 / 2)) % 5]? = some p ∧
          centroids[i]? =
            some { values := p.values, dimensions := p.dimensions, count := 0 } :=
  C15_seed_selection
    ([{ values := [10], dimensions := 1, cluster := -1 },
      { values := [11], dimensions := 1, cluster := -1 },
      { values := [12], dimensions := 1, cluster := -1 },
      { values := [13], dimensions := 1, cluster := -1 },
      { values := [14], dimensions := 1, cluster := -1 }] : List (Point ℚ)) 2
    (by simp) (by norm_num) (by simp)

/-- C16. Points keep their features: whenever `assignPointsToClusters` returns, and whenever
`kMeans` returns (any input, any cap), the points are as many as before and every point has
the values and the dimensions it had, so only `cluster` can change; both return on points
and centroids of one dimension with a centroid present.  `assignPointsToClusters` returns
points and a number only and `updateCentroids` returns centroids only: the first writes no
centroid field, the second no point field. -/
theorem C16_points_keep_features (sqrt : F → F) (points : List (Point F))
    (centroids : List (Centroid F)) :
    (∀ (points' : List (Point F)) (changes : Nat),
      assignPointsToClusters sqrt points centroids = some (points', changes) →
      points'.length = points.length ∧
      points'.map (fun p => p.values) = points.map (fun p => p.values) ∧
      points'.map (fun p => p.dimensions) = points.map (fun p => p.dimensions)) ∧
    (∀ (maxIterations : Int) (run : Run F),
      kMeans sqrt points centroids maxIterations = some run →
      run.points.length = points.length ∧
      run.points.map (fun p => p.values) = points.map (fun p => p.values) ∧
      run.points.map (fun p => p.dimensions) = points.map (fun p => p.dimensions)) ∧
    (∀ D : Nat, (∀ p ∈ points, p.HasDim D) → (∀ c ∈ centroids, c.HasDim D) →
      (points ≠ [] → 1 ≤ centroids.length) →
      (∃ r, assignPointsToClusters sqrt points centroids = some r) ∧
      ∀ maxIterations : Int, ∃ run : Run F,
        kMeans sqrt points centroids maxIterations = some run) := by
  refine ⟨?_, ?_, ?_⟩
  · intro points' changes h
    have hr := assignPointsToClusters_of_some sqrt points centroids (points', changes) h
    simp only [Prod.mk.injEq] at hr
    rw [hr.1]
    exact ⟨by simp, map_values_relabel sqrt centroids points,
      map_dimensions_relabel sqrt centroids points⟩
  · intro maxIterations run hrun
    obtain ⟨hv, hd⟩ := kMeansLoop_frame sqrt maxIterations points centroids 0 [] run hrun
    refine ⟨?_, hv, hd⟩
    have := congrArg List.length hv
    simpa using this
  · intro D hps hcs hk
    refine ⟨⟨_, assignPointsToClusters_eq sqrt D points centroids hps hcs⟩, ?_⟩
    intro maxIterations
    obtain ⟨run, _, hrun, _⟩ :=
      kMeansLoop_run sqrt D maxIterations points centroids 0 [] ⟨hps, hcs, hk⟩
    exact ⟨run, hrun⟩

/-- C16 at a concrete input: the run on the real points `1` and `9` (labels `-1`) with the
centroids `0` and `10` and cap 100 returns and leaves the values and dimensions alone. -/
theorem C16_points_keep_features_witness :
    ∃ run : Run ℝ,
      kMeans Real.sqrt
          [{ values := [1], dimensions := 1, cluster := -1 },
           { values := [9], dimensions := 1, cluster := -1 }]
          [{ values := [0], dimensions := 1, count := 0 },
           { values := [10], dimensions := 1, count := 0 }] 100 = some run ∧
      run.points.length = 2 ∧
      run.points.map (fun p => p.values) = [[1], [9]] ∧
      run.points.map (fun p => p.dimensions) = [1, 1] := by
  have h := C16_points_keep_features Real.sqrt
    [{ values := [1], dimensions := 1, cluster := -1 },
     { values := [9], dimensions := 1, cluster := -1 }]
    [{ values := [0], dimensions := 1, count := 0 },
     { values := [10], dimensions := 1, count := 0 }]
  obtain ⟨run, hrun⟩ :=
    (h.2.2 1 (by simp [Point.HasDim]) (by simp [Centroid.HasDim]) (by simp)).2 100
  exact ⟨run, hrun, h.2.1 100 run hrun⟩

/-- C17. `updateCentroids` depends only on the points and their labels: for any points and
any two lists of centroids that agree on the dimensions, each centroid's buffer having
`dimensions` slots, it gives the same result from both, whatever their values and counts;
on points of dimension `D` with labels in `[0, k)` and `k` centroids of dimension `D` it
returns, and a centroid to which no point is assigned ends with every value 0 and
count 0. -/
theorem C17_update_ignores_old_centroids (points : List (Point F))
    (centroids centroids₂ : List (Centroid F))
    (hwf : ∀ c ∈ centroids, (c.values.length : Int) = c.dimensions)
    (hwf₂ : ∀ c ∈ centroids₂, (c.values.length : Int) = c.dimensions)
    (hdims : centroids.map (fun c => c.dimensions) = centroids₂.map (fun c => c.dimensions)) :
    updateCentroids points centroids = updateCentroids points centroids₂ ∧
    (∀ D : Nat, (∀ p ∈ points, p.HasDim D) →
      (∀ p ∈ points, 0 ≤ p.cluster ∧ p.cluster < (centroids.length : Int)) →
      (∀ c ∈ centroids, c.HasDim D) →
      ∃ centroids' : List (Centroid F),
        updateCentroids points centroids = some centroids' ∧
        updateCentroids points centroids₂ = some centroids' ∧
        centroids'.length = centroids.length ∧
        ∀ i : Nat, i < centroids.length → (∀ p ∈ points, p.cluster ≠ (i : Int)) →
          centroids'[i]? =
            some { values := List.replicate D 0, dimensions := (D : Int), count := 0 }) := by
  have hsame : updateCentroids points centroids = updateCentroids points centroids₂ := by
    unfold updateCentroids
    rw [resetCentroids_congr centroids centroids₂ hwf hwf₂ hdims]
  refine ⟨hsame, ?_⟩
  intro D hps hlab hcs
  have hupd := updateCentroids_eq D points centroids (fun p hp => ⟨hps p hp, hlab p hp⟩) hcs
  refine ⟨_, hupd, by rw [← hsame]; exact hupd, by simp, ?_⟩
  intro i hi hempty
  have hsize : clusterSize points i = 0 := by
    unfold clusterSize
    rw [List.countP_eq_zero]
    intro p hp
    simpa using hempty p hp
  rw [List.getElem?_map, List.getElem?_range hi]
  simp only [Option.map_some', meanCentroid_empty D points i hsize]

/-- C17 at a concrete input: the rational points `1` and `3` labelled 0 and two pairs of
centroids with different values and counts. -/
theorem C17_update_ignores_old_centroids_witness :
    updateCentroids
        ([{ values := [1], dimensions := 1, cluster := 0 },
          { values := [3], dimensions := 1, cluster := 0 }] : List (Point ℚ))
        [{ values := [5], dimensions := 1, count := 0 },
         { values := [7], dimensions := 1, count := 4 }] =
      updateCentroids
        ([{ values := [1], dimensions := 1, cluster := 0 },
          { values := [3], dimensions := 1, cluster := 0 }] : List (Point ℚ))
        [{ values := [-2], dimensions := 1, count := 9 },
         { values := [100], dimensions := 1, count := -3 }] :=
  (C17_update_ignores_old_centroids
    ([{ values := [1], dimensions := 1, cluster := 0 },
      { values := [3], dimensions := 1, cluster := 0 }] : List (Point ℚ))
    [{ values := [5], dimensions := 1, count := 0 },
     { values := [7], dimensions := 1, count := 4 }]
    [{ values := [-2], dimensions := 1, count := 9 },
     { values := [100], dimensions := 1, count := -3 }]
    (by simp) (by simp) (by simp)).1

/-- C18. Distinct seeds: for `N ≥ 1` points and `k ≥ 1`, `initializeCentroids` returns and
centroid `i` is the copy of the point at `seedIndex N k i`; if `k ≤ N` these indices do not
wrap around (`seedIndex N k i = i * (N / k)`) and are strictly increasing in `i`, hence
pairwise distinct; if `k > N` two different centroids are seeded from the same point. -/
theorem C18_distinct_seeds (points : List (Point F)) (k : Nat)
    (hN : 1 ≤ points.length) (hk : 1 ≤ k)
    (hwf : ∀ p ∈ points, (p.values.length : Int) = p.dimensions) :
    ∃ centroids : List (Centroid F),
      initializeCentroids points (k : Int) = some centroids ∧
      (∀ i : Nat, i < k →
        ∃ p : Point F, points[seedIndex points.length k i]? = some p ∧
          centroids[i]? =
            some { values := p.values, dimensions := p.dimensions, count := 0 }) ∧
      (k ≤ points.length → ∀ i j : Nat, i < j → j < k →
        seedIndex points.length k i = i * (points.length / k) ∧
        seedIndex points.length k i < seedIndex points.length k j) ∧
      (points.length < k → ∃ i j : Nat, i < j ∧ j < k ∧
        seedIndex points.length k i = seedIndex points.length k j ∧
        centroids[i]? = centroids[j]?) := by
  obtain ⟨cs, hcs, _, hall⟩ := initializeCentroids_spec points k hN hk hwf
  refine ⟨cs, hcs, hall, ?_, ?_⟩
  · intro hkN i j hij hj
    have hstep : 1 ≤ points.length / k := (Nat.one_le_div_iff (by omega)).mpr hkN
    rw [seedIndex_eq_mul _ k i hk hkN (by omega), seedIndex_eq_mul _ k j hk hkN hj]
    exact ⟨rfl, Nat.mul_lt_mul_of_pos_right hij hstep⟩
  · intro hkN
    have hsame : seedIndex points.length k 0 = seedIndex points.length k points.length := by
      rw [seedIndex_eq_mod _ k 0 hkN, seedIndex_eq_mod _ k _ hkN]
      simp
    refine ⟨0, points.length, hN, hkN, hsame, ?_⟩
    obtain ⟨p, hp, hc0⟩ := hall 0 (by omega)
    obtain ⟨q, hq, hcN⟩ := hall points.length hkN
    rw [← hsame, hp] at hq
    simp only [Option.some.injEq] at hq
    subst hq
    rw [hc0, hcN]

/-- C18 at a concrete input: two rational points and `k = 3`, more centroids than points. -/
theorem C18_distinct_seeds_witness :
    ∃ centroids : List (Centroid ℚ),
      initializeCentroids
          ([{ values := [10], dimensions := 1, cluster := -1 },
            { values := [11], dimensions := 1, cluster := -1 }] : List (Point ℚ))
          ((3 : Nat) : Int) = some centroids ∧
      (∀ i : Nat, i < 3 →
        ∃ p : Point ℚ,
          ([{ values := [10], dimensions := 1, cluster := -1 },
            { values := [11], dimensions := 1, cluster := -1 }] : List (Point ℚ))[
              seedIndex 2 3 i]? = some p ∧
          centroids[i]? =
            some { values := p.values, dimensions := p.dimensions, count := 0 }) ∧
      (3 ≤ 2 → ∀ i j : Nat, i < j → j < 3 →
        seedIndex 2 3 i = i * (2 / 3) ∧ seedIndex 2 3 i < seedIndex 2 3 j) ∧
      (2 < 3 → ∃ i j : Nat, i < j ∧ j < 3 ∧ seedIndex 2 3 i = seedIndex 2 3 j ∧
        centroids[i]? = centroids[j]?) :=
  C18_distinct_seeds
    ([{ values := [10], dimensions := 1, cluster := -1 },
      { values := [11], dimensions := 1, cluster := -1 }] : List (Point ℚ)) 3
    (by simp) (by norm_num) (by simp)

/-- C19. Non-positive iteration cap: for every cap `maxIterations ≤ 0`, `kMeans` returns on
every well-formed input, and whenever it returns (any input) it has made exactly one
`assignPointsToClusters` pass followed by one `updateCentroids` pass on the result, and
reports 1 iteration, which exceeds `maxIterations`. -/
theorem C19_nonpositive_cap_runs_once (sqrt : F → F) (points : List (Point F))
    (centroids : List (Centroid F)) (maxIterations : Int) (hm : maxIterations ≤ 0) :
    (∀ D : Nat, (∀ p ∈ points, p.HasDim D) → (∀ c ∈ centroids, c.HasDim D) →
      (points ≠ [] → 1 ≤ centroids.length) →
      ∃ run : Run F, kMeans sqrt points centroids maxIterations = some run) ∧
    ∀ run : Run F, kMeans sqrt points centroids maxIterations = some run →
      (∃ (points' : List (Point F)) (changes : Nat) (centroids' : List (Centroid F)),
        assignPointsToClusters sqrt points centroids = some (points', changes) ∧
        updateCentroids points' centroids = some centroids' ∧
        run = { points := points', centroids := centroids', iterations := 1,
                log := [changes] }) ∧
      run.iterations = 1 ∧ maxIterations < run.iterations := by
  constructor
  · intro D hps hcs hk
    obtain ⟨run, _, hrun, _⟩ :=
      kMeansLoop_run sqrt D maxIterations points centroids 0 [] ⟨hps, hcs, hk⟩
    exact ⟨run, hrun⟩
  · intro run hrun
    unfold kMeans at hrun
    rw [kMeansLoop] at hrun
    cases hiter : kMeansIteration sqrt points centroids with
    | none => simp [hiter] at hrun
    | some r =>
      obtain ⟨points', centroids', changes⟩ := r
      simp only [hiter] at hrun
      rw [if_neg (by omega)] at hrun
      simp only [Option.some.injEq, List.nil_append, zero_add] at hrun
      obtain ⟨ha, hu⟩ := kMeansIteration_some sqrt points points' centroids centroids' changes hiter
      subst hrun
      exact ⟨⟨points', changes, centroids', ha, hu, rfl⟩, rfl, by simp only; omega⟩

/-- C19 at a concrete input: the run on the real points `1` and `9` (labels `-1`) with the
centroids `0` and `10` and the cap 0. -/
theorem C19_nonpositive_cap_runs_once_witness :
    ∃ run : Run ℝ,
      kMeans Real.sqrt
          [{ values := [1], dimensions := 1, cluster := -1 },
           { values := [9], dimensions := 1, cluster := -1 }]
          [{ values := [0], dimensions := 1, count := 0 },
           { values := [10], dimensions := 1, count := 0 }] 0 = some run ∧
      run.iterations = 1 ∧ (0 : Int) < run.iterations := by
  have h := C19_nonpositive_cap_runs_once Real.sqrt
    [{ values := [1], dimensions := 1, cluster := -1 },
     { values := [9], dimensions := 1, cluster := -1 }]
    [{ values := [0], dimensions := 1, count := 0 },
     { values := [10], dimensions := 1, count := 0 }] 0 (le_refl 0)
  obtain ⟨run, hrun⟩ := h.1 1 (by simp [Point.HasDim]) (by simp [Centroid.HasDim]) (by simp)
  exact ⟨run, hrun, (h.2 run hrun).2⟩

end Claims

end KMeans
